import Mathlib

/-! Outbound generation core of singbox-launcher.

A shallow embedding of the configuration-compilation core of
`Leadaxe/singbox-launcher` (`core/config/generator.go`,
`core/config/subscription/source_loader.go`, `core/config/models.go`,
`core/config/parser/block_extractor.go`) and theorems about it.

Conventions of the embedding.

* A Go `string` is an immutable byte sequence: `GoString := List UInt8`.
* A Go `int` is modelled by `Int`.  The only arithmetic the embedded code
  performs on an `int` is `+ 1` on a counter that is bumped once per decoded
  node, so no value leaves the 64-bit range in a run.
* A Go `map[string]int` that is only read and written by key is a total
  function with default `0` (the zero value Go returns for a missing key).
  A map that the code ranges over is the list of its entries, keys pairwise
  distinct, in the order in which the loop of the run visits them.
* A `*ParsedNode` is modelled by the node it points to: the decoder allocates
  every node afresh, so no two nodes of a run alias.
* A function that returns `(value, error)` returns `Except`; a function that
  mutates the registry also returns the registry it leaves.
* The standard-library behaviour that is not spelled out (Unicode tables,
  `encoding/json`, `regexp`) is the parameter `GoLib`; the functions of
  package `subscription` outside the embedded files (fetching, link decoding)
  are the parameter `Decoder`.
* The one regular expression that is a constant of the code, the pattern of
  `ExtractParserConfigBlock`, is spelled out as a matcher with the preferences
  of Go `regexp` (leftmost match, greedy `*`, lazy `*?`).
* The clock read by `NormalizeParserConfig` is a parameter of the function.
* Where a claim is about the bytes of an emitted string, `json.Marshal` on a
  string and the decoding of a JSON string literal are spelled out after
  `encoding/json` (`jsonMarshalString`, `jsonUnquote`); a library instance is
  then assumed to agree with them.
* Logging and progress callbacks do not influence any returned value and are
  left out.
-/

namespace Singbox

deriving instance DecidableEq for Except

/-! ## Go strings -/

/-- A Go string: a sequence of bytes. -/
abbrev GoString := List UInt8

/-- UTF-8 encoding of one Unicode scalar value. -/
def utf8Encode (r : Nat) : GoString :=
  if r < 0x80 then [UInt8.ofNat r]
  else if r < 0x800 then [UInt8.ofNat (0xC0 + r / 64), UInt8.ofNat (0x80 + r % 64)]
  else if r < 0x10000 then
    [UInt8.ofNat (0xE0 + r / 4096), UInt8.ofNat (0x80 + r / 64 % 64), UInt8.ofNat (0x80 + r % 64)]
  else
    [UInt8.ofNat (0xF0 + r / 262144), UInt8.ofNat (0x80 + r / 4096 % 64),
      UInt8.ofNat (0x80 + r / 64 % 64), UInt8.ofNat (0x80 + r % 64)]

/-- The bytes of a Go string literal (Go source text is UTF-8). -/
def lit (s : String) : GoString := s.toList.flatMap (fun c => utf8Encode c.toNat)

/-- Decimal text of a natural number. -/
def formatNat (n : Nat) : GoString := (Nat.toDigits 10 n).map (fun c => UInt8.ofNat c.toNat)

/-- Go `strconv.Itoa` and the `%d` verb on an `int`. -/
def formatInt (i : Int) : GoString :=
  if i < 0 then lit "-" ++ formatNat i.natAbs else formatNat i.natAbs

/-- The part of Go `utf8.DecodeRuneInString` that reads the continuation
bytes: `c0` is the first byte, `size` the length its value announces, `lo` and
`hi` the range accepted for the second byte, `rest` the bytes after the
first. -/
def decodeContinuation (c0 lo hi size : Nat) (rest : GoString) : Nat × Nat :=
  match rest with
  | [] => (0xFFFD, 1)
  | b1 :: rest1 =>
    let c1 := b1.toNat
    if rest.length + 1 < size then (0xFFFD, 1)
    else if c1 < lo ∨ hi < c1 then (0xFFFD, 1)
    else if size ≤ 2 then (c0 % 32 * 64 + c1 % 64, 2)
    else
      match rest1 with
      | [] => (0xFFFD, 1)
      | b2 :: rest2 =>
        let c2 := b2.toNat
        if c2 < 0x80 ∨ 0xBF < c2 then (0xFFFD, 1)
        else if size ≤ 3 then (c0 % 16 * 4096 + c1 % 64 * 64 + c2 % 64, 3)
        else
          match rest2 with
          | [] => (0xFFFD, 1)
          | b3 :: _ =>
            let c3 := b3.toNat
            if c3 < 0x80 ∨ 0xBF < c3 then (0xFFFD, 1)
            else (c0 % 8 * 262144 + c1 % 64 * 4096 + c2 % 64 * 64 + c3 % 64, 4)

/-- Go `utf8.DecodeRuneInString`: the first rune of `s` and its width in
bytes; an invalid or truncated encoding gives `(0xFFFD, 1)`, the empty string
`(0xFFFD, 0)`. -/
def decodeRune : GoString → Nat × Nat
  | [] => (0xFFFD, 0)
  | b0 :: rest =>
    let c0 := b0.toNat
    if c0 < 0x80 then (c0, 1)
    else if c0 < 0xC2 then (0xFFFD, 1)
    else if c0 < 0xE0 then decodeContinuation c0 0x80 0xBF 2 rest
    else if c0 = 0xE0 then decodeContinuation c0 0xA0 0xBF 3 rest
    else if c0 = 0xED then decodeContinuation c0 0x80 0x9F 3 rest
    else if c0 < 0xF0 then decodeContinuation c0 0x80 0xBF 3 rest
    else if c0 = 0xF0 then decodeContinuation c0 0x90 0xBF 4 rest
    else if c0 < 0xF4 then decodeContinuation c0 0x80 0xBF 4 rest
    else if c0 = 0xF4 then decodeContinuation c0 0x80 0x8F 4 rest
    else (0xFFFD, 1)

/-- Go `strings.HasPrefix(s, p)`. -/
def HasPrefix (s p : GoString) : Bool := p.isPrefixOf s

/-- Go `strings.HasSuffix(s, p)`. -/
def HasSuffix (s p : GoString) : Bool := p.isSuffixOf s

/-- The replacement loop of Go `strings.Replace` for a non-empty `old`: the
leftmost occurrence of `old` is replaced by `new` and the scan resumes right
after it.  `skip` counts the bytes of a matched occurrence still to be
passed over. -/
def replaceScan (old new : GoString) : Nat → GoString → GoString
  | _, [] => []
  | skip + 1, _ :: s => replaceScan old new skip s
  | 0, b :: s =>
    if old.isPrefixOf (b :: s) then new ++ replaceScan old new (old.length - 1) s
    else b :: replaceScan old new 0 s

/-- The replacement loop of Go `strings.Replace` for the empty `old`: `new`
is inserted before every rune and at the end.  `skip` counts the bytes of the
current rune still to be copied. -/
def replaceEmpty (new : GoString) : Nat → GoString → GoString
  | _, [] => new
  | skip + 1, b :: s => b :: replaceEmpty new skip s
  | 0, b :: s => new ++ b :: replaceEmpty new ((decodeRune (b :: s)).2 - 1) s

/-- Go `strings.ReplaceAll(s, old, new)`. -/
def ReplaceAll (s old new : GoString) : GoString :=
  if old = new then s
  else if old = [] then replaceEmpty new 0 s
  else replaceScan old new 0 s

/-- Go `strings.TrimPrefix(s, p)`. -/
def TrimPrefix (s p : GoString) : GoString := if HasPrefix s p then s.drop p.length else s

/-- Go `strings.TrimSuffix(s, p)`. -/
def TrimSuffix (s p : GoString) : GoString :=
  if HasSuffix s p then s.take (s.length - p.length) else s

/-- Go `strings.Join(parts, sep)`. -/
def Join (parts : List GoString) (sep : GoString) : GoString := sep.intercalate parts

/-- The `%v` verb on a `bool`. -/
def formatBool (b : Bool) : GoString := if b then lit "true" else lit "false"

/-- One lower-case hexadecimal digit (`lowerhex[d]`). -/
def hexDigit (d : Nat) : UInt8 := if d < 10 then UInt8.ofNat (48 + d) else UInt8.ofNat (87 + d)

/-- The runes for which Go `unicode.IsSpace` holds. -/
def spaceRunes : List Nat :=
  [0x09, 0x0A, 0x0B, 0x0C, 0x0D, 0x20, 0x85, 0xA0, 0x1680, 0x2000, 0x2001, 0x2002, 0x2003,
   0x2004, 0x2005, 0x2006, 0x2007, 0x2008, 0x2009, 0x200A, 0x2028, 0x2029, 0x202F, 0x205F, 0x3000]

/-- Removal of every leading occurrence of one of the byte sequences `encs`.
`skip` counts the bytes of the matched sequence still to be dropped. -/
def trimLeading (encs : List GoString) : Nat → GoString → GoString
  | _, [] => []
  | skip + 1, _ :: s => trimLeading encs skip s
  | 0, b :: s =>
    match encs.find? (fun e => e.isPrefixOf (b :: s)) with
    | some e => trimLeading encs (e.length - 1) s
    | none => b :: s

/-- Go `strings.TrimSpace(s)`: leading and trailing white-space runes are
removed.  A rune decoded at either end of a string is a white-space rune
exactly when its UTF-8 encoding stands there. -/
def TrimSpace (s : GoString) : GoString :=
  let s := trimLeading (spaceRunes.map utf8Encode) 0 s
  (trimLeading (spaceRunes.map (fun r => (utf8Encode r).reverse)) 0 s.reverse).reverse

/-- Go `strings.Split(s, sep)` for a separator `sep` of one byte. -/
def Split (s : GoString) (sep : UInt8) : List GoString :=
  match s with
  | [] => [[]]
  | b :: rest =>
    if b = sep then [] :: Split rest sep
    else
      match Split rest sep with
      | [] => [[b]]
      | piece :: pieces => (b :: piece) :: pieces

/-! ## Data model (`models.go`) -/

/-- The dynamic values (`interface{}`) the code handles: what `encoding/json`
decodes into an `interface{}` (`nil`, `bool`, `float64`, `string`,
`[]interface{}`, `map[string]interface{}`) and the typed values the link
decoder stores in `ParsedNode.Outbound` (`int`, `[]string`,
`map[string]string`).  A `float64` is carried by its IEEE-754 bit pattern.  A
map is the list of its entries, keys pairwise distinct, in the order in which
a `range` loop of the run visits them. -/
inductive Value where
  | null
  | bool (b : Bool)
  | float (bits : Nat)
  | int (i : Int)
  | str (s : GoString)
  | strs (l : List GoString)
  | strMap (m : List (GoString × GoString))
  | array (l : List Value)
  | object (m : List (GoString × Value))

/-- A Go `map[string]interface{}`. -/
abbrev DynMap := List (GoString × Value)

/-- Map lookup `m[key]` with the comma-ok result. -/
def DynMap.get (m : DynMap) (key : GoString) : Option Value :=
  (m.find? (fun e => e.1 == key)).map (fun e => e.2)

/-- Go `ParsedNode`. -/
structure ParsedNode where
  Tag : GoString
  Scheme : GoString
  Server : GoString
  Port : Int
  UUID : GoString
  Flow : GoString
  Label : GoString
  Comment : GoString
  Query : List (GoString × List GoString)
  Outbound : DynMap

/-- Go `OutboundConfig` (`Type_` is the Go field `Type`). -/
structure OutboundConfig where
  Tag : GoString
  Type_ : GoString
  Options : DynMap
  Filters : DynMap
  AddOutbounds : List GoString
  PreferredDefault : DynMap
  Comment : GoString
  Wizard : Value

/-- Go `ProxySource`. -/
structure ProxySource where
  Source : GoString
  Connections : List GoString
  Skip : List (List (GoString × GoString))
  Outbounds : List OutboundConfig
  TagPrefix : GoString
  TagPostfix : GoString
  TagMask : GoString

/-- The behaviour of the Go standard library that the embedding does not
spell out.

* `isPrint r` is `unicode.IsPrint(r)` for a rune above U+00FF (below, it is
  given by `IsPrint`).
* `jsonMarshal v` is the text `encoding/json.Marshal(v)` returns, empty when it
  returns an error.
* `regexpCompile e` is `regexp.Compile(e)`: `none` when the expression does
  not compile, else the `MatchString` method of the compiled expression. -/
structure GoLib where
  isPrint : Nat → Bool
  jsonMarshal : Value → GoString
  regexpCompile : GoString → Option (GoString → Bool)

/-- Go `strconv.IsPrint(r)`. -/
def IsPrint (lib : GoLib) (r : Nat) : Bool :=
  if r ≤ 0xFF then
    if 0x20 ≤ r ∧ r < 0x7F then true
    else if 0xA1 ≤ r then r ≠ 0xAD
    else false
  else lib.isPrint r

/-- Go `strconv.appendEscapedRune(buf, r, '"', false, false)`: the bytes
appended for the rune `r`. -/
def appendEscapedRune (lib : GoLib) (r : Nat) : GoString :=
  if r = 0x22 ∨ r = 0x5C then [0x5C, UInt8.ofNat r]
  else if IsPrint lib r then utf8Encode r
  else if r = 0x07 then lit "\\a"
  else if r = 0x08 then lit "\\b"
  else if r = 0x0C then lit "\\f"
  else if r = 0x0A then lit "\\n"
  else if r = 0x0D then lit "\\r"
  else if r = 0x09 then lit "\\t"
  else if r = 0x0B then lit "\\v"
  else if r < 0x20 ∨ r = 0x7F then lit "\\x" ++ [hexDigit (r / 16), hexDigit (r % 16)]
  else if r < 0x10000 then
    lit "\\u" ++ [hexDigit (r / 4096 % 16), hexDigit (r / 256 % 16), hexDigit (r / 16 % 16),
      hexDigit (r % 16)]
  else
    lit "\\U" ++ [hexDigit (r / 268435456 % 16), hexDigit (r / 16777216 % 16),
      hexDigit (r / 1048576 % 16), hexDigit (r / 65536 % 16), hexDigit (r / 4096 % 16),
      hexDigit (r / 256 % 16), hexDigit (r / 16 % 16), hexDigit (r % 16)]

/-- The loop of Go `strconv.appendQuotedWith` over the runes of the string.
`skip` counts the bytes of the current rune still to be passed over. -/
def quoteRunes (lib : GoLib) : Nat → GoString → GoString
  | _, [] => []
  | skip + 1, _ :: s => quoteRunes lib skip s
  | 0, b :: s =>
    let rw := if b.toNat ≥ 0x80 then decodeRune (b :: s) else (b.toNat, 1)
    let out :=
      if rw.2 = 1 ∧ rw.1 = 0xFFFD then lit "\\x" ++ [hexDigit (b.toNat / 16), hexDigit (b.toNat % 16)]
      else appendEscapedRune lib rw.1
    out ++ quoteRunes lib (rw.2 - 1) s

/-- Go `strconv.Quote(s)`, which is what the `%q` verb prints for a string. -/
def Quote (lib : GoLib) (s : GoString) : GoString := lit "\"" ++ quoteRunes lib 0 s ++ lit "\""

/-- The call `json.Marshal(v)` on a `string` or a `[]string`, the static types
`GenerateNodeJSON` marshals: for these `encoding/json` returns no error. -/
def marshalText (lib : GoLib) (v : Value) : Except GoString GoString := .ok (lib.jsonMarshal v)

/-- Type assertion `v.(string)` on the result of a map lookup. -/
def asString : Option Value → Option GoString
  | some (.str s) => some s
  | _ => none

/-- Type assertion `v.(int)` on the result of a map lookup. -/
def asInt : Option Value → Option Int
  | some (.int i) => some i
  | _ => none

/-- Type assertion `v.(bool)` on the result of a map lookup. -/
def asBool : Option Value → Option Bool
  | some (.bool b) => some b
  | _ => none

/-- Type assertion `v.([]string)` on the result of a map lookup. -/
def asStrings : Option Value → Option (List GoString)
  | some (.strs l) => some l
  | _ => none

/-- Type assertion `v.(map[string]string)` on the result of a map lookup. -/
def asStringMap : Option Value → Option (List (GoString × GoString))
  | some (.strMap m) => some m
  | _ => none

/-- Type assertion `v.(map[string]interface{})` on the result of a map lookup. -/
def asObject : Option Value → Option DynMap
  | some (.object m) => some m
  | _ => none

/-- The anonymous struct `ParserConfig.ParserConfig.Parser`. -/
structure ParserSettings where
  Reload : GoString
  LastUpdated : GoString

/-- The anonymous struct `ParserConfig.ParserConfig`. -/
structure ParserConfigBody where
  Version : Int
  Proxies : List ProxySource
  Outbounds : List OutboundConfig
  Parser : ParserSettings

set_option linter.dupNamespace false in
/-- Go `ParserConfig`. -/
structure ParserConfig where
  ParserConfig : ParserConfigBody

/-- Go `MaxNodesPerSubscription`. -/
def MaxNodesPerSubscription : Int := 500

/-- Go `ParserConfigVersion`. -/
def ParserConfigVersion : Int := 4

/-- Go `NormalizeParserConfig(parserConfig, updateLastUpdated)`: the value the
pointer refers to after the call, `none` being the nil pointer.  `now` is the
text `time.Now().UTC().Format(time.RFC3339)` returns at the call. -/
def NormalizeParserConfig (parserConfig : Option ParserConfig) (updateLastUpdated : Bool)
    (now : GoString) : Option ParserConfig :=
  match parserConfig with
  | none => none
  | some parserConfig =>
    -- Ensure version is set to current version (always update to latest)
    let parserConfig : ParserConfig :=
      { ParserConfig := { parserConfig.ParserConfig with Version := ParserConfigVersion } }
    -- Set default reload to "4h" if not specified
    let parserConfig : ParserConfig :=
      if parserConfig.ParserConfig.Parser.Reload = [] then
        { ParserConfig :=
            { parserConfig.ParserConfig with
              Parser := { parserConfig.ParserConfig.Parser with Reload := lit "4h" } } }
      else parserConfig
    -- Optionally update last_updated timestamp
    let parserConfig : ParserConfig :=
      if updateLastUpdated then
        { ParserConfig :=
            { parserConfig.ParserConfig with
              Parser := { parserConfig.ParserConfig.Parser with LastUpdated := now } } }
      else parserConfig
    some parserConfig

/-! ## Node emitter (`generator.go`) -/

/-- The `transport` field of a vmess node (`GenerateNodeJSON`, lines 61-81):
the parts appended to `parts`. -/
def vmessTransportParts (lib : GoLib) (node : ParsedNode) : List GoString :=
  match asObject (node.Outbound.get (lit "transport")) with
  | some transport =>
    if transport.length > 0 then
      let transportParts : List GoString := []
      let transportParts :=
        match asString (transport.get (lit "type")) with
        | some tType => transportParts ++ [lit "\"type\":" ++ Quote lib tType]
        | none => transportParts
      let transportParts :=
        match asString (transport.get (lit "path")) with
        | some path => transportParts ++ [lit "\"path\":" ++ Quote lib path]
        | none => transportParts
      let transportParts :=
        match asStringMap (transport.get (lit "headers")) with
        | some headers =>
          if headers.length > 0 then
            let headerParts := headers.map (fun kv => Quote lib kv.1 ++ lit ":" ++ Quote lib kv.2)
            transportParts ++ [lit "\"headers\":\x7b" ++ Join headerParts (lit ",") ++ lit "\x7d"]
          else transportParts
        | none => transportParts
      if transportParts.length > 0 then
        let transportJSON := lit "\x7b" ++ Join transportParts (lit ",") ++ lit "\x7d"
        [lit "\"transport\":" ++ transportJSON]
      else []
    else []
  | none => []

/-- The fields of a vless or vmess node after `server_port` (`GenerateNodeJSON`,
lines 43-82). -/
def uuidParts (lib : GoLib) (node : ParsedNode) : List GoString :=
  let parts := [lit "\"uuid\":" ++ Quote lib node.UUID]
  if node.Scheme = lit "vmess" then
    let parts :=
      match asString (node.Outbound.get (lit "security")) with
      | some security =>
        if security ≠ [] then parts ++ [lit "\"security\":" ++ Quote lib security] else parts
      | none => parts
    let parts :=
      match asInt (node.Outbound.get (lit "alter_id")) with
      | some alterID => parts ++ [lit "\"alter_id\":" ++ formatInt alterID]
      | none => parts
    parts ++ vmessTransportParts lib node
  else parts

/-- The `obfs` field of a hysteria2 node (`GenerateNodeJSON`, lines 110-127). -/
def hysteria2ObfsParts (lib : GoLib) (node : ParsedNode) : Except GoString (List GoString) :=
  match asObject (node.Outbound.get (lit "obfs")) with
  | some obfs =>
    if obfs.length > 0 then do
      let obfsParts : List GoString := []
      let obfsParts :=
        match asString (obfs.get (lit "type")) with
        | some obfsType => obfsParts ++ [lit "\"type\":" ++ Quote lib obfsType]
        | none => obfsParts
      let obfsParts ←
        match asString (obfs.get (lit "password")) with
        | some obfsPassword =>
          if obfsPassword ≠ [] then
            match marshalText lib (.str obfsPassword) with
            | .error err => throw (lit "failed to marshal hysteria2 obfs password: " ++ err)
            | .ok obfsPasswordJSON => pure (obfsParts ++ [lit "\"password\":" ++ obfsPasswordJSON])
          else pure obfsParts
        | none => pure obfsParts
      if obfsParts.length > 0 then
        let obfsJSON := lit "\x7b" ++ Join obfsParts (lit ",") ++ lit "\x7d"
        pure [lit "\"obfs\":" ++ obfsJSON]
      else pure []
    else pure []
  | none => pure []

/-- The fields of a hysteria2 node after `server_port` (`GenerateNodeJSON`,
lines 85-127). -/
def hysteria2Parts (lib : GoLib) (node : ParsedNode) : Except GoString (List GoString) := do
  let parts : List GoString := []
  let parts ←
    match asString (node.Outbound.get (lit "password")) with
    | some password =>
      if password ≠ [] then
        match marshalText lib (.str password) with
        | .error err => throw (lit "failed to marshal hysteria2 password: " ++ err)
        | .ok passwordJSON => pure (parts ++ [lit "\"password\":" ++ passwordJSON])
      else pure parts
    | none => pure parts
  let parts ←
    match asStrings (node.Outbound.get (lit "server_ports")) with
    | some serverPorts =>
      if serverPorts.length > 0 then
        match marshalText lib (.strs serverPorts) with
        | .error err => throw (lit "failed to marshal hysteria2 server_ports: " ++ err)
        | .ok serverPortsJSON => pure (parts ++ [lit "\"server_ports\":" ++ serverPortsJSON])
      else pure parts
    | none => pure parts
  let parts :=
    match asInt (node.Outbound.get (lit "up_mbps")) with
    | some upMbps => if upMbps > 0 then parts ++ [lit "\"up_mbps\":" ++ formatInt upMbps] else parts
    | none => parts
  let parts :=
    match asInt (node.Outbound.get (lit "down_mbps")) with
    | some downMbps =>
      if downMbps > 0 then parts ++ [lit "\"down_mbps\":" ++ formatInt downMbps] else parts
    | none => parts
  let obfs ← hysteria2ObfsParts lib node
  pure (parts ++ obfs)

/-- The fields of a shadowsocks node after `server_port` (`GenerateNodeJSON`,
lines 128-146). -/
def ssParts (lib : GoLib) (node : ParsedNode) : Except GoString (List GoString) := do
  let parts : List GoString := []
  let parts ←
    match asString (node.Outbound.get (lit "method")) with
    | some method =>
      if method ≠ [] then
        match marshalText lib (.str method) with
        | .error err => throw (lit "failed to marshal shadowsocks method: " ++ err)
        | .ok methodJSON => pure (parts ++ [lit "\"method\":" ++ methodJSON])
      else pure parts
    | none => pure parts
  let parts ←
    match asString (node.Outbound.get (lit "password")) with
    | some password =>
      if password ≠ [] then
        match marshalText lib (.str password) with
        | .error err => throw (lit "failed to marshal shadowsocks password: " ++ err)
        | .ok passwordJSON => pure (parts ++ [lit "\"password\":" ++ passwordJSON])
      else pure parts
    | none => pure parts
  pure parts

/-- The `tls` field (`GenerateNodeJSON`, lines 153-209): the parts appended to
`parts`. -/
def tlsParts (lib : GoLib) (node : ParsedNode) : List GoString :=
  match asObject (node.Outbound.get (lit "tls")) with
  | some tlsData =>
    let tlsParts : List GoString := []
    let tlsParts :=
      match asBool (tlsData.get (lit "enabled")) with
      | some enabled => tlsParts ++ [lit "\"enabled\":" ++ formatBool enabled]
      | none => tlsParts
    let tlsParts :=
      match asString (tlsData.get (lit "server_name")) with
      | some serverName => tlsParts ++ [lit "\"server_name\":" ++ Quote lib serverName]
      | none => tlsParts
    let tlsParts :=
      match asStrings (tlsData.get (lit "alpn")) with
      | some alpn =>
        if alpn.length > 0 then tlsParts ++ [lit "\"alpn\":" ++ lib.jsonMarshal (.strs alpn)]
        else tlsParts
      | none => tlsParts
    let tlsParts :=
      match asObject (tlsData.get (lit "utls")) with
      | some utls =>
        let utlsParts : List GoString := []
        let utlsParts :=
          match asBool (utls.get (lit "enabled")) with
          | some utlsEnabled => utlsParts ++ [lit "\"enabled\":" ++ formatBool utlsEnabled]
          | none => utlsParts
        let utlsParts :=
          match asString (utls.get (lit "fingerprint")) with
          | some fingerprint => utlsParts ++ [lit "\"fingerprint\":" ++ Quote lib fingerprint]
          | none => utlsParts
        let utlsJSON := lit "\x7b" ++ Join utlsParts (lit ",") ++ lit "\x7d"
        tlsParts ++ [lit "\"utls\":" ++ utlsJSON]
      | none => tlsParts
    let tlsParts :=
      match asBool (tlsData.get (lit "insecure")) with
      | some insecure =>
        if insecure then tlsParts ++ [lit "\"insecure\":" ++ formatBool insecure] else tlsParts
      | none => tlsParts
    let tlsParts :=
      match asObject (tlsData.get (lit "reality")) with
      | some reality =>
        let realityParts : List GoString := []
        let realityParts :=
          match asBool (reality.get (lit "enabled")) with
          | some realityEnabled => realityParts ++ [lit "\"enabled\":" ++ formatBool realityEnabled]
          | none => realityParts
        let realityParts :=
          match asString (reality.get (lit "public_key")) with
          | some publicKey => realityParts ++ [lit "\"public_key\":" ++ Quote lib publicKey]
          | none => realityParts
        let realityParts :=
          match asString (reality.get (lit "short_id")) with
          | some shortID => realityParts ++ [lit "\"short_id\":" ++ Quote lib shortID]
          | none => realityParts
        let realityJSON := lit "\x7b" ++ Join realityParts (lit ",") ++ lit "\x7d"
        tlsParts ++ [lit "\"reality\":" ++ realityJSON]
      | none => tlsParts
    let tlsJSON := lit "\x7b" ++ Join tlsParts (lit ",") ++ lit "\x7d"
    [lit "\"tls\":" ++ tlsJSON]
  | none => []

/-- Go `GenerateNodeJSON(node)`: the fragment, or the error. -/
def GenerateNodeJSON (lib : GoLib) (node : ParsedNode) : Except GoString GoString := do
  let parts : List GoString := []
  -- 1. tag
  let parts := parts ++ [lit "\"tag\":" ++ Quote lib node.Tag]
  -- 2. type
  let parts :=
    if node.Scheme = lit "ss" then parts ++ [lit "\"type\":" ++ Quote lib (lit "shadowsocks")]
    else parts ++ [lit "\"type\":" ++ Quote lib node.Scheme]
  -- 3. server
  let parts := parts ++ [lit "\"server\":" ++ Quote lib node.Server]
  -- 4. server_port
  let parts := parts ++ [lit "\"server_port\":" ++ formatInt node.Port]
  -- 5. uuid, password or method/password
  let parts ←
    if node.Scheme = lit "vless" ∨ node.Scheme = lit "vmess" then pure (parts ++ uuidParts lib node)
    else if node.Scheme = lit "trojan" then pure (parts ++ [lit "\"password\":" ++ Quote lib node.UUID])
    else if node.Scheme = lit "hysteria2" then do
      let more ← hysteria2Parts lib node
      pure (parts ++ more)
    else if node.Scheme = lit "ss" then do
      let more ← ssParts lib node
      pure (parts ++ more)
    else pure parts
  -- 6. flow
  let parts := if node.Flow ≠ [] then parts ++ [lit "\"flow\":" ++ Quote lib node.Flow] else parts
  -- 7. tls
  let parts := parts ++ tlsParts lib node
  let jsonStr := lit "\x7b" ++ Join parts (lit ",") ++ lit "\x7d"
  pure (lit "\t// " ++ node.Label ++ lit "\n\t" ++ jsonStr ++ lit ",")

/-! ## Filter engine (`generator.go`) -/

/-- Go `matchesPattern(value, pattern)`. -/
def matchesPattern (lib : GoLib) (value pattern : GoString) : Bool :=
  -- Negation literal: !literal
  if HasPrefix pattern (lit "!") && !HasPrefix pattern (lit "!/") then
    let literal := TrimPrefix pattern (lit "!")
    value != literal
  -- Negation regex: !/regex/i
  else if HasPrefix pattern (lit "!/") && HasSuffix pattern (lit "/i") then
    let regexStr := TrimPrefix pattern (lit "!/")
    let regexStr := TrimSuffix regexStr (lit "/i")
    match lib.regexpCompile (lit "(?i)" ++ regexStr) with
    | none => false
    | some re => !re value
  -- Regex: /regex/i
  else if HasPrefix pattern (lit "/") && HasSuffix pattern (lit "/i") then
    let regexStr := TrimPrefix pattern (lit "/")
    let regexStr := TrimSuffix regexStr (lit "/i")
    match lib.regexpCompile (lit "(?i)" ++ regexStr) with
    | none => false
    | some re => re value
  -- Literal match
  else value == pattern

/-- Go `getNodeValue(node, key)`. -/
def getNodeValue (node : ParsedNode) (key : GoString) : GoString :=
  if key = lit "tag" then node.Tag
  else if key = lit "host" then node.Server
  else if key = lit "label" then node.Label
  else if key = lit "scheme" then node.Scheme
  else if key = lit "fragment" then node.Label
  else if key = lit "comment" then node.Comment
  else []

/-- Go `convertFilterToStringMap(filter)`: the entries whose value is a
string. -/
def convertFilterToStringMap (filter : DynMap) : List (GoString × GoString) :=
  filter.filterMap (fun kv =>
    match kv.2 with
    | .str str => some (kv.1, str)
    | _ => none)

/-- Go `matchesFilter(node, filter)`: no entry of the map fails. -/
def matchesFilter (lib : GoLib) (node : ParsedNode) (filter : List (GoString × GoString)) : Bool :=
  filter.all (fun kv => matchesPattern lib (getNodeValue node kv.1) kv.2)

/-- The inner loop of `filterNodesForSelector` over the members of an array
filter (lines 472-480): whether it reaches the `append` and the `break` for
`node`.  A member that is not an object is passed over. -/
def matchesSomeMember (lib : GoLib) (node : ParsedNode) : List Value → Bool
  | [] => false
  | filterObj :: rest =>
    match filterObj with
    | .object filterMap =>
      if matchesFilter lib node (convertFilterToStringMap filterMap) then true
      else matchesSomeMember lib node rest
    | _ => matchesSomeMember lib node rest

/-- An outer loop of `filterNodesForSelector` over the nodes (lines 471-481
and 485-489): a node for which `keep` holds is appended to `filtered`. -/
def appendMatching (keep : ParsedNode → Bool) :
    List ParsedNode → List ParsedNode → List ParsedNode
  | [], filtered => filtered
  | node :: rest, filtered =>
    if keep node then appendMatching keep rest (filtered ++ [node])
    else appendMatching keep rest filtered

/-- Go `filterNodesForSelector(allNodes, filter)`; the nil interface is
`Value.null`. -/
def filterNodesForSelector (lib : GoLib) (allNodes : List ParsedNode) (filter : Value) :
    List ParsedNode :=
  match filter with
  | .null => allNodes
  | .object filterMap =>
    if filterMap.length = 0 then allNodes
    else
      -- Single filter object (AND between keys)
      let filterStrMap := convertFilterToStringMap filterMap
      appendMatching (fun node => matchesFilter lib node filterStrMap) allNodes []
  | .array filterArray =>
    -- OR between filter objects
    appendMatching (fun node => matchesSomeMember lib node filterArray) allNodes []
  | _ => []

/-! ## Selector emitter (`generator.go`) -/

/-- One of the two loops of `GenerateSelector` that build `outboundsList`
(lines 238-246 and 251-259): every tag not yet in `seenTags` is appended and
marked as seen. -/
def appendUnseen : List GoString → List GoString × (GoString → Bool) →
    List GoString × (GoString → Bool)
  | [], acc => acc
  | tag :: rest, (outboundsList, seenTags) =>
    if !seenTags tag then
      appendUnseen rest (outboundsList ++ [tag], fun t => if t = tag then true else seenTags t)
    else appendUnseen rest (outboundsList, seenTags)

/-- The value of `outboundsList` after both loops (`GenerateSelector`, lines
229-259). -/
def selectorOutbounds (addOutbounds : List GoString) (filteredNodes : List ParsedNode) :
    List GoString :=
  let acc : List GoString × (GoString → Bool) := ([], fun _ => false)
  let acc := appendUnseen addOutbounds acc
  let acc := appendUnseen (filteredNodes.map (fun node => node.Tag)) acc
  acc.1

/-- The value of `defaultTag` (`GenerateSelector`, lines 272-284): the scan of
`filteredNodes` stops at the first node that matches. -/
def selectorDefaultTag (lib : GoLib) (preferredDefaultMap : DynMap)
    (filteredNodes : List ParsedNode) : GoString :=
  if preferredDefaultMap.length > 0 then
    let preferredFilter := convertFilterToStringMap preferredDefaultMap
    match filteredNodes.find? (fun node => matchesFilter lib node preferredFilter) with
    | some node => node.Tag
    | none => []
  else []

/-- The value of `parts` when the object is assembled (`GenerateSelector`,
lines 288-322). -/
def selectorParts (lib : GoLib) (outboundConfig : OutboundConfig) (outboundsList : List GoString)
    (defaultTag : GoString) : List GoString :=
  let parts : List GoString := []
  -- 1. tag
  let parts := parts ++ [lit "\"tag\":" ++ Quote lib outboundConfig.Tag]
  -- 2. type
  let parts := parts ++ [lit "\"type\":" ++ Quote lib outboundConfig.Type_]
  -- 3. default (if present)
  let parts := if defaultTag ≠ [] then parts ++ [lit "\"default\":" ++ Quote lib defaultTag] else parts
  -- 4. outbounds
  let parts := parts ++ [lit "\"outbounds\":" ++ lib.jsonMarshal (.strs outboundsList)]
  -- 5. interrupt_exist_connections (if present)
  let parts :=
    match outboundConfig.Options.get (lit "interrupt_exist_connections") with
    | some (.bool boolVal) => parts ++ [lit "\"interrupt_exist_connections\":" ++ formatBool boolVal]
    | some val => parts ++ [lit "\"interrupt_exist_connections\":" ++ lib.jsonMarshal val]
    | none => parts
  -- 6. Other options
  let parts := parts ++
    (outboundConfig.Options.filter (fun kv => kv.1 ≠ lit "interrupt_exist_connections")).map
      (fun kv => Quote lib kv.1 ++ lit ":" ++ lib.jsonMarshal kv.2)
  parts

/-- Go `GenerateSelector(allNodes, outboundConfig)`. -/
def GenerateSelector (lib : GoLib) (allNodes : List ParsedNode) (outboundConfig : OutboundConfig) :
    Except GoString GoString :=
  let filterMap := outboundConfig.Filters
  let filteredNodes := filterNodesForSelector lib allNodes (.object filterMap)
  let outboundsList := selectorOutbounds outboundConfig.AddOutbounds filteredNodes
  if outboundsList.length = 0 then .ok []
  else
    let defaultTag := selectorDefaultTag lib outboundConfig.PreferredDefault filteredNodes
    let parts := selectorParts lib outboundConfig outboundsList defaultTag
    let jsonStr := lit "\x7b" ++ Join parts (lit ",") ++ lit "\x7d"
    let result : GoString :=
      if outboundConfig.Comment ≠ [] then lit "\t// " ++ outboundConfig.Comment ++ lit "\n" else []
    let result := result ++ (lit "\t" ++ jsonStr ++ lit ",")
    .ok result

/-! ## Tag registry (`source_loader.go`) -/

/-- The run-scoped registry `tagCounts map[string]int`. -/
abbrev TagCounts := GoString → Int

/-- A freshly made registry: `make(map[string]int)`. -/
def TagCounts.empty : TagCounts := fun _ => 0

/-- Map assignment `tagCounts[k] = v`. -/
def TagCounts.set (m : TagCounts) (k : GoString) (v : Int) : TagCounts :=
  fun k2 => if k2 = k then v else m k2

/-- Go `MakeTagUnique(tag, tagCounts, logPrefix)`: the returned tag and the
registry after the call. -/
def MakeTagUnique (tag : GoString) (tagCounts : TagCounts) : GoString × TagCounts :=
  if tagCounts tag > 0 then
    -- tagCounts[tag]++
    let tagCounts1 := tagCounts.set tag (tagCounts tag + 1)
    -- fmt.Sprintf("%s-%d", tag, tagCounts[tag])
    (tag ++ lit "-" ++ formatInt (tagCounts1 tag), tagCounts1)
  else
    (tag, tagCounts.set tag 1)

/-- A sequence of tags passed one after another through `MakeTagUnique`, the
registry of each call being the one left by the previous call. -/
def makeTagsUnique : List GoString → TagCounts → List GoString × TagCounts
  | [], tagCounts => ([], tagCounts)
  | tag :: rest, tagCounts =>
    let r := MakeTagUnique tag tagCounts
    let rs := makeTagsUnique rest r.2
    (r.1 :: rs.1, rs.2)

/-! ## Tag templates (`source_loader.go`) -/

/-- Go `replaceTagVariables(template, node, nodeNum)`. -/
def replaceTagVariables (template : GoString) (node : ParsedNode) (nodeNum : Int) : GoString :=
  let result := template
  let result := ReplaceAll result (lit "\x7b$tag\x7d") node.Tag
  let result := ReplaceAll result (lit "\x7b$scheme\x7d") node.Scheme
  let result := ReplaceAll result (lit "\x7b$protocol\x7d") node.Scheme
  let result := ReplaceAll result (lit "\x7b$server\x7d") node.Server
  let result := ReplaceAll result (lit "\x7b$port\x7d") (formatInt node.Port)
  let result := ReplaceAll result (lit "\x7b$label\x7d") node.Label
  let result := ReplaceAll result (lit "\x7b$comment\x7d") node.Comment
  let result := ReplaceAll result (lit "\x7b$num\x7d") (formatInt nodeNum)
  result

/-- Go `applyTagPrefixPostfix(node, tagPrefix, tagPostfix, tagMask, nodeNum)`. -/
def applyTagPrefixPostfix (node : ParsedNode) (tagPrefix tagPostfix tagMask : GoString)
    (nodeNum : Int) : GoString :=
  if tagMask ≠ [] then replaceTagVariables tagMask node nodeNum
  else
    let tag := node.Tag
    let tag := if tagPrefix ≠ [] then replaceTagVariables tagPrefix node nodeNum ++ tag else tag
    let tag := if tagPostfix ≠ [] then tag ++ replaceTagVariables tagPostfix node nodeNum else tag
    tag

/-! ## Source loader (`source_loader.go`) -/

/-- Go `IsSubscriptionURL(input)`. -/
def IsSubscriptionURL (input : GoString) : Bool :=
  let trimmed := TrimSpace input
  HasPrefix trimmed (lit "http://") || HasPrefix trimmed (lit "https://")

/-- The functions of package `subscription` that `LoadNodesFromSource` calls
and that live outside the files embedded here: the network fetch, the link
decoder and the link-syntax test.  `ParseNode` returns a freshly allocated
node, `none` standing for the `nil` node it returns when a skip rule
applies. -/
structure Decoder where
  FetchSubscription : GoString → Except GoString GoString
  ParseNode : GoString → List (List (GoString × GoString)) → Except GoString (Option ParsedNode)
  IsDirectLink : GoString → Bool

/-- The local variables of `LoadNodesFromSource` together with the registry it
mutates. -/
structure LoadState where
  nodes : List ParsedNode
  nodesFromThisSource : Int
  skippedDueToLimit : Int
  tagCounts : TagCounts

/-- The treatment of a decoded node (`LoadNodesFromSource`, lines 137-140,
168-171 and 218-221): its tag is rewritten, made unique, and the node is
appended. -/
def LoadState.accept (proxySource : ProxySource) (st : LoadState) (node : ParsedNode) :
    LoadState :=
  let tag := applyTagPrefixPostfix node proxySource.TagPrefix proxySource.TagPostfix
    proxySource.TagMask (st.nodesFromThisSource + 1)
  let node := { node with Tag := tag }
  let unique := MakeTagUnique node.Tag st.tagCounts
  let node := { node with Tag := unique.1 }
  { st with
    nodes := st.nodes ++ [node]
    nodesFromThisSource := st.nodesFromThisSource + 1
    tagCounts := unique.2 }

/-- The loop over the lines of a fetched subscription (`LoadNodesFromSource`,
lines 110-146). -/
def loadSubscriptionLines (dec : Decoder) (proxySource : ProxySource) :
    List GoString → LoadState → LoadState
  | [], st => st
  | subLine :: rest, st =>
    let subLine := TrimSpace subLine
    if subLine = [] then loadSubscriptionLines dec proxySource rest st
    else if st.nodesFromThisSource ≥ MaxNodesPerSubscription then
      loadSubscriptionLines dec proxySource rest
        { st with skippedDueToLimit := st.skippedDueToLimit + 1 }
    else
      match dec.ParseNode subLine proxySource.Skip with
      | .error _ => loadSubscriptionLines dec proxySource rest st
      | .ok none => loadSubscriptionLines dec proxySource rest st
      | .ok (some node) => loadSubscriptionLines dec proxySource rest (st.accept proxySource node)

/-- The loop over `proxySource.Connections` (`LoadNodesFromSource`, lines
184-223). -/
def loadConnections (dec : Decoder) (proxySource : ProxySource) :
    List GoString → LoadState → LoadState
  | [], st => st
  | connection :: rest, st =>
    let connection := TrimSpace connection
    if connection = [] then loadConnections dec proxySource rest st
    else if !dec.IsDirectLink connection then loadConnections dec proxySource rest st
    else if st.nodesFromThisSource ≥ MaxNodesPerSubscription then
      loadConnections dec proxySource rest { st with skippedDueToLimit := st.skippedDueToLimit + 1 }
    else
      match dec.ParseNode connection proxySource.Skip with
      | .error _ => loadConnections dec proxySource rest st
      | .ok none => loadConnections dec proxySource rest st
      | .ok (some node) => loadConnections dec proxySource rest (st.accept proxySource node)

/-- The processing of the `Source` field (`LoadNodesFromSource`, lines 72-178). -/
def loadSourceField (dec : Decoder) (proxySource : ProxySource) (st : LoadState) : LoadState :=
  if proxySource.Source ≠ [] then
    if IsSubscriptionURL proxySource.Source then
      match dec.FetchSubscription proxySource.Source with
      | .error _ => st
      | .ok content =>
        if content.length > 0 then
          let contentStr := content
          let contentStr := ReplaceAll contentStr (lit "\r\n") (lit "\n")
          let contentStr := ReplaceAll contentStr (lit "\r") (lit "\n")
          let subscriptionLines := Split contentStr 0x0A
          loadSubscriptionLines dec proxySource subscriptionLines st
        else st
    else if dec.IsDirectLink proxySource.Source then
      if st.nodesFromThisSource < MaxNodesPerSubscription then
        match dec.ParseNode proxySource.Source proxySource.Skip with
        | .error _ => st
        | .ok none => st
        | .ok (some node) => st.accept proxySource node
      else { st with skippedDueToLimit := st.skippedDueToLimit + 1 }
    else st
  else st

/-- Go `LoadNodesFromSource(proxySource, tagCounts, progressCallback,
subscriptionIndex, totalSubscriptions)`: the returned pair and the registry
after the call. -/
def LoadNodesFromSource (dec : Decoder) (proxySource : ProxySource) (tagCounts : TagCounts)
    (_subscriptionIndex _totalSubscriptions : Int) :
    Except GoString (List ParsedNode) × TagCounts :=
  let st : LoadState :=
    { nodes := [], nodesFromThisSource := 0, skippedDueToLimit := 0, tagCounts := tagCounts }
  let st := loadSourceField dec proxySource st
  let st := loadConnections dec proxySource proxySource.Connections st
  (.ok st.nodes, st.tagCounts)

/-- The texts `ParseNode` is called with by the loop over the lines of a
fetched subscription (`LoadNodesFromSource`, lines 110-146), in the order of
the calls: the one call site of the loop is line 127, after the test of the
cap. -/
def subscriptionLineCalls (dec : Decoder) (proxySource : ProxySource) :
    List GoString → LoadState → List GoString
  | [], _ => []
  | subLine :: rest, st =>
    let subLine := TrimSpace subLine
    if subLine = [] then subscriptionLineCalls dec proxySource rest st
    else if st.nodesFromThisSource ≥ MaxNodesPerSubscription then
      subscriptionLineCalls dec proxySource rest
        { st with skippedDueToLimit := st.skippedDueToLimit + 1 }
    else
      match dec.ParseNode subLine proxySource.Skip with
      | .error _ => subLine :: subscriptionLineCalls dec proxySource rest st
      | .ok none => subLine :: subscriptionLineCalls dec proxySource rest st
      | .ok (some node) =>
        subLine :: subscriptionLineCalls dec proxySource rest (st.accept proxySource node)

/-- The texts `ParseNode` is called with by the loop over
`proxySource.Connections` (`LoadNodesFromSource`, lines 184-223), in the order
of the calls: the one call site of the loop is line 208, after the test of the
cap. -/
def connectionCalls (dec : Decoder) (proxySource : ProxySource) :
    List GoString → LoadState → List GoString
  | [], _ => []
  | connection :: rest, st =>
    let connection := TrimSpace connection
    if connection = [] then connectionCalls dec proxySource rest st
    else if !dec.IsDirectLink connection then connectionCalls dec proxySource rest st
    else if st.nodesFromThisSource ≥ MaxNodesPerSubscription then
      connectionCalls dec proxySource rest { st with skippedDueToLimit := st.skippedDueToLimit + 1 }
    else
      match dec.ParseNode connection proxySource.Skip with
      | .error _ => connection :: connectionCalls dec proxySource rest st
      | .ok none => connection :: connectionCalls dec proxySource rest st
      | .ok (some node) =>
        connection :: connectionCalls dec proxySource rest (st.accept proxySource node)

/-- The texts `ParseNode` is called with while the `Source` field is processed
(`LoadNodesFromSource`, lines 72-178), in the order of the calls: line 127
for a subscription, line 161 for a legacy direct link. -/
def sourceFieldCalls (dec : Decoder) (proxySource : ProxySource) (st : LoadState) :
    List GoString :=
  if proxySource.Source ≠ [] then
    if IsSubscriptionURL proxySource.Source then
      match dec.FetchSubscription proxySource.Source with
      | .error _ => []
      | .ok content =>
        if content.length > 0 then
          let contentStr := content
          let contentStr := ReplaceAll contentStr (lit "\r\n") (lit "\n")
          let contentStr := ReplaceAll contentStr (lit "\r") (lit "\n")
          let subscriptionLines := Split contentStr 0x0A
          subscriptionLineCalls dec proxySource subscriptionLines st
        else []
    else if dec.IsDirectLink proxySource.Source then
      if st.nodesFromThisSource < MaxNodesPerSubscription then [proxySource.Source]
      else []
    else []
  else []

/-- The texts `ParseNode` is called with during one call of
`LoadNodesFromSource`, in the order of the calls. -/
def parseNodeCalls (dec : Decoder) (proxySource : ProxySource) (tagCounts : TagCounts) :
    List GoString :=
  let st : LoadState :=
    { nodes := [], nodesFromThisSource := 0, skippedDueToLimit := 0, tagCounts := tagCounts }
  sourceFieldCalls dec proxySource st
    ++ connectionCalls dec proxySource proxySource.Connections (loadSourceField dec proxySource st)

/-! ## Orchestrator (`generator.go`) -/

/-- Go `OutboundGenerationResult`. -/
structure OutboundGenerationResult where
  OutboundsJSON : List GoString
  NodesCount : Int
  LocalSelectorsCount : Int
  GlobalSelectorsCount : Int
deriving DecidableEq

/-- The type of the parameter `loadNodesFunc`: the returned pair and the
registry after the call. -/
abbrev LoadNodesFunc :=
  ProxySource → TagCounts → Int → Int → Except GoString (List ParsedNode) × TagCounts

/-- The variables of step 1 of `GenerateOutboundsFromParserConfig` together
with the registry. -/
structure SourcesState where
  allNodes : List ParsedNode
  nodesBySource : Nat → Option (List ParsedNode)
  tagCounts : TagCounts

/-- Step 1 (`GenerateOutboundsFromParserConfig`, lines 355-371): the loop over
the sources from index `i` on. -/
def loadAllSources (loadNodesFunc : LoadNodesFunc) (totalSources : Int) :
    List ProxySource → Nat → SourcesState → SourcesState
  | [], _, st => st
  | proxySource :: rest, i, st =>
    match loadNodesFunc proxySource st.tagCounts i totalSources with
    | (.error _, tagCounts) =>
      loadAllSources loadNodesFunc totalSources rest (i + 1) { st with tagCounts := tagCounts }
    | (.ok nodesFromSource, tagCounts) =>
      if nodesFromSource.length > 0 then
        loadAllSources loadNodesFunc totalSources rest (i + 1)
          { allNodes := st.allNodes ++ nodesFromSource
            nodesBySource := fun j => if j = i then some nodesFromSource else st.nodesBySource j
            tagCounts := tagCounts }
      else
        loadAllSources loadNodesFunc totalSources rest (i + 1) { st with tagCounts := tagCounts }

/-- Step 2 (lines 385-393): the loop that emits the nodes; the state is
`selectorsJSON` and `nodesCount`. -/
def emitNodes (lib : GoLib) : List ParsedNode → List GoString × Int → List GoString × Int
  | [], acc => acc
  | node :: rest, (selectorsJSON, nodesCount) =>
    match GenerateNodeJSON lib node with
    | .error _ => emitNodes lib rest (selectorsJSON, nodesCount)
    | .ok nodeJSON => emitNodes lib rest (selectorsJSON ++ [nodeJSON], nodesCount + 1)

/-- The loop over a list of selector configurations (lines 411-422 and
431-442); the state is `selectorsJSON` and the selector counter. -/
def emitSelectors (lib : GoLib) (nodes : List ParsedNode) :
    List OutboundConfig → List GoString × Int → List GoString × Int
  | [], acc => acc
  | outboundConfig :: rest, (selectorsJSON, count) =>
    match GenerateSelector lib nodes outboundConfig with
    | .error _ => emitSelectors lib nodes rest (selectorsJSON, count)
    | .ok selectorJSON =>
      if selectorJSON ≠ [] then emitSelectors lib nodes rest (selectorsJSON ++ [selectorJSON], count + 1)
      else emitSelectors lib nodes rest (selectorsJSON, count)

/-- Step 3 (lines 401-423): the loop over the sources from index `i` on. -/
def emitLocalSelectors (lib : GoLib) (nodesBySource : Nat → Option (List ParsedNode)) :
    List ProxySource → Nat → List GoString × Int → List GoString × Int
  | [], _, acc => acc
  | proxySource :: rest, i, acc =>
    if proxySource.Outbounds.length = 0 then emitLocalSelectors lib nodesBySource rest (i + 1) acc
    else
      match nodesBySource i with
      | none => emitLocalSelectors lib nodesBySource rest (i + 1) acc
      | some sourceNodes =>
        if sourceNodes.length = 0 then emitLocalSelectors lib nodesBySource rest (i + 1) acc
        else
          emitLocalSelectors lib nodesBySource rest (i + 1)
            (emitSelectors lib sourceNodes proxySource.Outbounds acc)

/-- Go `GenerateOutboundsFromParserConfig(parserConfig, tagCounts,
progressCallback, loadNodesFunc)`: the returned pair and the registry after
the call. -/
def GenerateOutboundsFromParserConfig (lib : GoLib) (parserConfig : ParserConfig)
    (tagCounts : TagCounts) (loadNodesFunc : LoadNodesFunc) :
    Except GoString OutboundGenerationResult × TagCounts :=
  -- Step 1: Process all proxy sources and collect nodes
  let totalSources : Int := parserConfig.ParserConfig.Proxies.length
  let st := loadAllSources loadNodesFunc totalSources parserConfig.ParserConfig.Proxies 0
    { allNodes := [], nodesBySource := fun _ => none, tagCounts := tagCounts }
  if st.allNodes.length = 0 then (.error (lit "no nodes parsed from any source"), st.tagCounts)
  else
    -- Step 2: Generate JSON for all nodes
    let acc := emitNodes lib st.allNodes ([], 0)
    let selectorsJSON := acc.1
    let nodesCount := acc.2
    -- Step 3: Generate local selectors for each source
    let acc := emitLocalSelectors lib st.nodesBySource parserConfig.ParserConfig.Proxies 0
      (selectorsJSON, 0)
    let selectorsJSON := acc.1
    let localSelectorsCount := acc.2
    -- Step 4: Generate global selectors (using all nodes)
    let acc := emitSelectors lib st.allNodes parserConfig.ParserConfig.Outbounds (selectorsJSON, 0)
    let selectorsJSON := acc.1
    let globalSelectorsCount := acc.2
    (.ok
      { OutboundsJSON := selectorsJSON
        NodesCount := nodesCount
        LocalSelectorsCount := localSelectorsCount
        GlobalSelectorsCount := globalSelectorsCount }, st.tagCounts)

/-! ## Block extractor (`parser/block_extractor.go`) -/

/-- The class `\s` of the Go package `regexp`: `[\t\n\f\r ]`. -/
def isPerlSpace (b : UInt8) : Bool :=
  b = 0x09 || b = 0x0A || b = 0x0C || b = 0x0D || b = 0x20

/-- A literal of the pattern, followed by the rest `next` of the pattern. -/
def matchLiteral {α : Type} (text : GoString) (next : GoString → Option α) (input : GoString) :
    Option α :=
  if text.isPrefixOf input then next (input.drop text.length) else none

/-- The part `\s*` of the pattern, followed by the rest `next` of the pattern.
The star is greedy: one more white-space character is tried before the rest
of the pattern is. -/
def matchSpaces {α : Type} (next : GoString → Option α) : GoString → Option α
  | [] => next []
  | b :: input =>
    if isPerlSpace b then
      match matchSpaces next input with
      | some found => some found
      | none => next (b :: input)
    else next (b :: input)

/-- The group `([\s\S]*?)` of the pattern, followed by the rest `next` of the
pattern: the text of the group and what `next` returns.  The star is lazy:
the rest of the pattern is tried before one more character is taken.  The
class `[\s\S]` takes one rune, whatever it is; the bytes of a rune of several
bytes are all above `0x7F` and a byte that does not decode is a rune of its
own, so an ASCII byte always starts a rune, the literals of the pattern are
ASCII, and taking the input byte by byte finds the same matches. -/
def matchGroupLazy {α : Type} (next : GoString → Option α) : GoString → Option (GoString × α)
  | [] => (next []).map (fun found => ([], found))
  | b :: input =>
    match next (b :: input) with
    | some found => some ([], found)
    | none => (matchGroupLazy next input).map (fun found => (b :: found.1, found.2))

/-- The pattern `/\*\*\s*@ParserConfig\s*\n([\s\S]*?)\*/` of
`ExtractParserConfigBlock` matched at the start of `input`, with the
preferences of Go `regexp` (leftmost-first): the text of group 1 and the input
left after the match. -/
def patternMatchAt (input : GoString) : Option (GoString × GoString) :=
  matchLiteral (lit "/**")
    (matchSpaces
      (matchLiteral (lit "@ParserConfig")
        (matchSpaces
          (matchLiteral (lit "\n")
            (matchGroupLazy (matchLiteral (lit "*/") some)))))) input

/-- Go `pattern.FindSubmatch(data)` for the pattern of
`ExtractParserConfigBlock`: the leftmost match, as the list of the whole match
and of group 1; the empty list (`nil`) when nothing matches. -/
def patternFindSubmatch : GoString → List GoString
  | [] =>
    match patternMatchAt [] with
    | some found => [[], found.1]
    | none => []
  | b :: data =>
    match patternMatchAt (b :: data) with
    | some found => [(b :: data).take ((b :: data).length - found.2.length), found.1]
    | none => patternFindSubmatch data

/-- Go `ExtractParserConfigBlock(data)`. -/
def ExtractParserConfigBlock (data : GoString) : Except GoString GoString :=
  let found := patternFindSubmatch data
  if found.length < 2 then .error (lit "@ParserConfig block not found in config.json")
  else
    let jsonContent := TrimSpace (found.getD 1 [])
    .ok jsonContent

/-! ## Spec-side definitions -/

/-- The tag the spec assigns to the `k`-th occurrence (`k` counted from 1) of
`tag`: unchanged on the first occurrence, suffixed `-k` afterwards. -/
def occurrenceTag (tag : GoString) (k : Nat) : GoString :=
  if k ≤ 1 then tag else tag ++ lit "-" ++ formatInt k

/-- Keep-first deduplication by exact string: every string stays at the
place of its first occurrence and its later occurrences are dropped. -/
def dedupKeepFirst : List GoString → List GoString
  | [] => []
  | x :: xs => x :: (dedupKeepFirst xs).filter (fun y => y ≠ x)

/-- The comment line `GenerateSelector` puts before the object. -/
def selectorCommentLine (outboundConfig : OutboundConfig) : GoString :=
  if outboundConfig.Comment ≠ [] then lit "\t// " ++ outboundConfig.Comment ++ lit "\n" else []

/-- The list of parts `parts` holds a field named `name`: one of the parts
starts with the quoted name followed by a colon. -/
def hasField (parts : List GoString) (name : GoString) : Bool :=
  parts.any (fun part => (lit "\"" ++ name ++ lit "\":").isPrefixOf part)

/-- The nodes obtained from each source, in source order, when the sources
are loaded one after another from index `i` on with one shared registry; a
source whose load returns an error gives no node. -/
def sourceLoads (loadNodesFunc : LoadNodesFunc) (totalSources : Int) :
    List ProxySource → Nat → TagCounts → List (List ParsedNode)
  | [], _, _ => []
  | proxySource :: rest, i, tagCounts =>
    let loaded := loadNodesFunc proxySource tagCounts i totalSources
    (match loaded.1 with
      | .ok nodes => nodes
      | .error _ => []) :: sourceLoads loadNodesFunc totalSources rest (i + 1) loaded.2

/-- The fragment `GenerateNodeJSON` returns for a node. -/
def nodeFragment (lib : GoLib) (node : ParsedNode) : GoString :=
  match GenerateNodeJSON lib node with
  | .ok nodeJSON => nodeJSON
  | .error _ => []

/-- The fragments of the selectors that `GenerateSelector` produces over the
pool `nodes` for the configurations `outbounds`, in declared order. -/
def selectorFragments (lib : GoLib) (nodes : List ParsedNode) (outbounds : List OutboundConfig) :
    List GoString :=
  outbounds.filterMap (fun outboundConfig =>
    match GenerateSelector lib nodes outboundConfig with
    | .ok selectorJSON => if selectorJSON ≠ [] then some selectorJSON else none
    | .error _ => none)

/-- The local selector fragments grouped by source in source order: each
source that obtained at least one node contributes the selectors of its own
`outbounds`, in declared order, over its own nodes. -/
def localSelectorFragments (lib : GoLib) :
    List ProxySource → List (List ParsedNode) → List GoString
  | proxySource :: sources, nodes :: loads =>
    (if nodes.length = 0 then [] else selectorFragments lib nodes proxySource.Outbounds)
      ++ localSelectorFragments lib sources loads
  | _, _ => []

/-- A decoded node with its tag rewritten by the source's template, `k` nodes
of the source having been accepted before it. -/
def templatedNode (proxySource : ProxySource) (k : Int) (node : ParsedNode) : ParsedNode :=
  let tag := applyTagPrefixPostfix node proxySource.TagPrefix proxySource.TagPostfix
    proxySource.TagMask (k + 1)
  { node with Tag := tag }

/-- The nodes a list of subscription lines decodes to, tags templated and not
yet made unique, when `k` nodes of the source have been accepted before:
blank lines, lines met once the cap is reached and lines that do not decode
to a node give nothing. -/
def decodedSubscriptionLines (dec : Decoder) (proxySource : ProxySource) :
    List GoString → Int → List ParsedNode
  | [], _ => []
  | subLine :: rest, k =>
    if TrimSpace subLine = [] then decodedSubscriptionLines dec proxySource rest k
    else if k ≥ MaxNodesPerSubscription then decodedSubscriptionLines dec proxySource rest k
    else
      match dec.ParseNode (TrimSpace subLine) proxySource.Skip with
      | .ok (some node) =>
        templatedNode proxySource k node :: decodedSubscriptionLines dec proxySource rest (k + 1)
      | _ => decodedSubscriptionLines dec proxySource rest k

/-- The nodes a list of connections decodes to, tags templated and not yet
made unique, when `k` nodes of the source have been accepted before. -/
def decodedConnections (dec : Decoder) (proxySource : ProxySource) :
    List GoString → Int → List ParsedNode
  | [], _ => []
  | connection :: rest, k =>
    if TrimSpace connection = [] then decodedConnections dec proxySource rest k
    else if !dec.IsDirectLink (TrimSpace connection) then decodedConnections dec proxySource rest k
    else if k ≥ MaxNodesPerSubscription then decodedConnections dec proxySource rest k
    else
      match dec.ParseNode (TrimSpace connection) proxySource.Skip with
      | .ok (some node) =>
        templatedNode proxySource k node :: decodedConnections dec proxySource rest (k + 1)
      | _ => decodedConnections dec proxySource rest k

/-- The nodes the `Source` field decodes to, tags templated and not yet made
unique, when `k` nodes of the source have been accepted before. -/
def decodedSourceField (dec : Decoder) (proxySource : ProxySource) (k : Int) : List ParsedNode :=
  if proxySource.Source ≠ [] then
    if IsSubscriptionURL proxySource.Source then
      match dec.FetchSubscription proxySource.Source with
      | .error _ => []
      | .ok content =>
        if content.length > 0 then
          decodedSubscriptionLines dec proxySource
            (Split (ReplaceAll (ReplaceAll content (lit "\r\n") (lit "\n")) (lit "\r") (lit "\n"))
              0x0A) k
        else []
    else if dec.IsDirectLink proxySource.Source then
      if k < MaxNodesPerSubscription then
        match dec.ParseNode proxySource.Source proxySource.Skip with
        | .ok (some node) => [templatedNode proxySource k node]
        | _ => []
      else []
    else []
  else []

/-- The nodes a source decodes to, in candidate order (the `Source` field,
then the connections), tags templated and not yet made unique. -/
def decodedNodes (dec : Decoder) (proxySource : ProxySource) : List ParsedNode :=
  decodedSourceField dec proxySource 0
    ++ decodedConnections dec proxySource proxySource.Connections
        (decodedSourceField dec proxySource 0).length

/-- The nodes with their tags passed one after another through
`MakeTagUnique`, and the registry left by the last call. -/
def uniquifyNodes : List ParsedNode → TagCounts → List ParsedNode × TagCounts
  | [], tagCounts => ([], tagCounts)
  | node :: rest, tagCounts =>
    let unique := MakeTagUnique node.Tag tagCounts
    let more := uniquifyNodes rest unique.2
    ({ node with Tag := unique.1 } :: more.1, more.2)

/-- What a loop of the loader does to the state, in terms of the nodes its
candidates decode to. -/
def LoadState.Extends (st st2 : LoadState) (decoded : List ParsedNode) : Prop :=
  st2.nodes = st.nodes ++ (uniquifyNodes decoded st.tagCounts).1
    ∧ st2.nodesFromThisSource = st.nodesFromThisSource + decoded.length
    ∧ st2.tagCounts = (uniquifyNodes decoded st.tagCounts).2

/-- The texts the `Source` field hands to the decoder, in order: the lines of
the fetched subscription, trimmed, the blank ones left out; or the legacy
direct link itself, as the one line of its source. -/
def sourceCandidates (dec : Decoder) (proxySource : ProxySource) : List GoString :=
  if proxySource.Source ≠ [] then
    if IsSubscriptionURL proxySource.Source then
      match dec.FetchSubscription proxySource.Source with
      | .error _ => []
      | .ok content =>
        if content.length > 0 then
          ((Split (ReplaceAll (ReplaceAll content (lit "\r\n") (lit "\n")) (lit "\r") (lit "\n"))
            0x0A).map TrimSpace).filter (fun subLine => subLine ≠ [])
        else []
    else if dec.IsDirectLink proxySource.Source then [proxySource.Source]
    else []
  else []

/-- The texts the connections hand to the decoder, in order: the connections,
trimmed, that are not blank and are direct links. -/
def connectionCandidates (dec : Decoder) (proxySource : ProxySource) : List GoString :=
  (proxySource.Connections.map TrimSpace).filter
    (fun connection => connection ≠ [] ∧ dec.IsDirectLink connection)

/-- The candidates of a source: those of the `Source` field, then those of
the connections. -/
def candidates (dec : Decoder) (proxySource : ProxySource) : List GoString :=
  sourceCandidates dec proxySource ++ connectionCandidates dec proxySource

/-- The node a candidate decodes to, if it decodes to one. -/
def decodeCandidate (dec : Decoder) (proxySource : ProxySource) (candidate : GoString) :
    Option ParsedNode :=
  match dec.ParseNode candidate proxySource.Skip with
  | .ok (some node) => some node
  | _ => none

/-- The nodes the candidates of a source decode to, in candidate order,
before any cap: a candidate that does not decode to a node gives nothing. -/
def decodableNodes (dec : Decoder) (proxySource : ProxySource) : List ParsedNode :=
  (candidates dec proxySource).filterMap (decodeCandidate dec proxySource)

/-- The node with its tag replaced. -/
def retagged (node : ParsedNode) (tag : GoString) : ParsedNode :=
  { node with Tag := tag }

/-- The nodes with their tags rewritten by the source's template, the first
one as the node number `k + 1` of its source, the next as `k + 2`, and so on. -/
def numberNodes (proxySource : ProxySource) : Nat → List ParsedNode → List ParsedNode
  | _, [] => []
  | k, node :: rest => templatedNode proxySource k node :: numberNodes proxySource (k + 1) rest

/-- The candidates from the first one up to the one that gives the `n`-th
node, all of them if fewer than `n` decode to a node. -/
def candidatesUntil (decode : GoString → Option ParsedNode) : Nat → List GoString → List GoString
  | 0, _ => []
  | _, [] => []
  | n + 1, candidate :: rest =>
    match decode candidate with
    | some _ => candidate :: candidatesUntil decode n rest
    | none => candidate :: candidatesUntil decode (n + 1) rest

/-- The fragment of a node: the comment line with the label, then the object
whose fields are `parts`, then a comma. -/
def nodeFrame (label : GoString) (parts : List GoString) : GoString :=
  lit "\t// " ++ label ++ lit "\n\t" ++ (lit "\x7b" ++ Join parts (lit ",") ++ lit "\x7d") ++ lit ","

/-- The first four fields of a node object: `tag`, `type`, `server` and
`server_port`. -/
def headFields (lib : GoLib) (node : ParsedNode) : List GoString :=
  [lit "\"tag\":" ++ Quote lib node.Tag,
   lit "\"type\":" ++ Quote lib (if node.Scheme = lit "ss" then lit "shadowsocks" else node.Scheme),
   lit "\"server\":" ++ Quote lib node.Server,
   lit "\"server_port\":" ++ formatInt node.Port]

/-- The parts a fallible step appended, none when it failed. -/
def okParts : Except GoString (List GoString) → List GoString
  | .ok parts => parts
  | .error _ => []

/-- The fields that the scheme of the node decides, those of step 5 of
`GenerateNodeJSON`. -/
def schemeFields (lib : GoLib) (node : ParsedNode) : List GoString :=
  if node.Scheme = lit "vless" ∨ node.Scheme = lit "vmess" then uuidParts lib node
  else if node.Scheme = lit "trojan" then [lit "\"password\":" ++ Quote lib node.UUID]
  else if node.Scheme = lit "hysteria2" then okParts (hysteria2Parts lib node)
  else if node.Scheme = lit "ss" then okParts (ssParts lib node)
  else []

/-- The `flow` field, present when the flow is not empty. -/
def flowFields (lib : GoLib) (node : ParsedNode) : List GoString :=
  if node.Flow ≠ [] then [lit "\"flow\":" ++ Quote lib node.Flow] else []

/-- The fields of the object `GenerateNodeJSON` emits, in order. -/
def nodeFields (lib : GoLib) (node : ParsedNode) : List GoString :=
  headFields lib node ++ schemeFields lib node ++ flowFields lib node ++ tlsParts lib node

/-- The text of a JSON object with the given fields. -/
def objectText (fields : List GoString) : GoString :=
  lit "\x7b" ++ Join fields (lit ",") ++ lit "\x7d"

/-- The fields a looked-up value gives: those of `fields` when the lookup
found a value of the expected type, none otherwise. -/
def fieldsOf {α : Type} (value : Option α) (fields : α → List GoString) : List GoString :=
  match value with
  | some v => fields v
  | none => []

/-- The fields of the `utls` object in the order of the spec: `enabled`, then
`fingerprint`, each when the object holds it with the expected type. -/
def utlsFieldsInOrder (lib : GoLib) (utls : DynMap) : List GoString :=
  fieldsOf (asBool (utls.get (lit "enabled")))
      (fun utlsEnabled => [lit "\"enabled\":" ++ formatBool utlsEnabled])
    ++ fieldsOf (asString (utls.get (lit "fingerprint")))
      (fun fingerprint => [lit "\"fingerprint\":" ++ Quote lib fingerprint])

/-- The fields of the `reality` object in the order of the spec: `enabled`,
`public_key`, `short_id`, each when the object holds it with the expected
type. -/
def realityFieldsInOrder (lib : GoLib) (reality : DynMap) : List GoString :=
  fieldsOf (asBool (reality.get (lit "enabled")))
      (fun realityEnabled => [lit "\"enabled\":" ++ formatBool realityEnabled])
    ++ fieldsOf (asString (reality.get (lit "public_key")))
      (fun publicKey => [lit "\"public_key\":" ++ Quote lib publicKey])
    ++ fieldsOf (asString (reality.get (lit "short_id")))
      (fun shortID => [lit "\"short_id\":" ++ Quote lib shortID])

/-- The fields of the `tls` object in the order of the spec: `enabled`,
`server_name`, `alpn` (when the list is not empty), `utls`, `insecure` (when
it is true), `reality`, each when the object holds it with the expected
type. -/
def tlsFieldsInOrder (lib : GoLib) (tlsData : DynMap) : List GoString :=
  fieldsOf (asBool (tlsData.get (lit "enabled")))
      (fun enabled => [lit "\"enabled\":" ++ formatBool enabled])
    ++ fieldsOf (asString (tlsData.get (lit "server_name")))
      (fun serverName => [lit "\"server_name\":" ++ Quote lib serverName])
    ++ fieldsOf (asStrings (tlsData.get (lit "alpn")))
      (fun alpn => if alpn ≠ [] then [lit "\"alpn\":" ++ lib.jsonMarshal (.strs alpn)] else [])
    ++ fieldsOf (asObject (tlsData.get (lit "utls")))
      (fun utls => [lit "\"utls\":" ++ objectText (utlsFieldsInOrder lib utls)])
    ++ fieldsOf (asBool (tlsData.get (lit "insecure")))
      (fun insecure => if insecure = true then [lit "\"insecure\":" ++ lit "true"] else [])
    ++ fieldsOf (asObject (tlsData.get (lit "reality")))
      (fun reality => [lit "\"reality\":" ++ objectText (realityFieldsInOrder lib reality)])

/-- The fields of a selector object in the order of the spec: `tag`, `type`,
`default` when a default was determined, `outbounds`,
`interrupt_exist_connections` when the options hold it (a boolean printed as
`true` or `false`, another value JSON-encoded), then the other options, each
with its value JSON-encoded. -/
def selectorFieldsInOrder (lib : GoLib) (outboundConfig : OutboundConfig)
    (outboundsList : List GoString) (defaultTag : GoString) : List GoString :=
  [lit "\"tag\":" ++ Quote lib outboundConfig.Tag, lit "\"type\":" ++ Quote lib outboundConfig.Type_]
    ++ (if defaultTag ≠ [] then [lit "\"default\":" ++ Quote lib defaultTag] else [])
    ++ [lit "\"outbounds\":" ++ lib.jsonMarshal (.strs outboundsList)]
    ++ fieldsOf (outboundConfig.Options.get (lit "interrupt_exist_connections"))
      (fun val => [lit "\"interrupt_exist_connections\":"
        ++ (match val with
          | .bool boolVal => formatBool boolVal
          | _ => lib.jsonMarshal val)])
    ++ (outboundConfig.Options.filter (fun kv => kv.1 ≠ lit "interrupt_exist_connections")).map
      (fun kv => Quote lib kv.1 ++ lit ":" ++ lib.jsonMarshal kv.2)

/-- The fields of the `transport` object of a vmess node in the order of the
emitter: `type`, `path`, then `headers` when the map is not empty, each when
the object holds it with the expected type. -/
def transportFieldsInOrder (lib : GoLib) (transport : DynMap) : List GoString :=
  fieldsOf (asString (transport.get (lit "type")))
      (fun tType => [lit "\"type\":" ++ Quote lib tType])
    ++ fieldsOf (asString (transport.get (lit "path")))
      (fun path => [lit "\"path\":" ++ Quote lib path])
    ++ fieldsOf (asStringMap (transport.get (lit "headers")))
      (fun headers =>
        if headers ≠ [] then
          [lit "\"headers\":"
            ++ objectText (headers.map (fun kv => Quote lib kv.1 ++ lit ":" ++ Quote lib kv.2))]
        else [])

/-- The fields of a vless or vmess node after `server_port`: `uuid`, and for
vmess `security` when it is not empty, `alter_id` when present, `transport`
when the map is not empty and gives at least one field. -/
def uuidFieldsInOrder (lib : GoLib) (node : ParsedNode) : List GoString :=
  [lit "\"uuid\":" ++ Quote lib node.UUID]
    ++ (if node.Scheme = lit "vmess" then
        fieldsOf (asString (node.Outbound.get (lit "security")))
            (fun security => if security ≠ [] then [lit "\"security\":" ++ Quote lib security] else [])
          ++ fieldsOf (asInt (node.Outbound.get (lit "alter_id")))
            (fun alterID => [lit "\"alter_id\":" ++ formatInt alterID])
          ++ fieldsOf (asObject (node.Outbound.get (lit "transport")))
            (fun transport =>
              if transport.length > 0 ∧ (transportFieldsInOrder lib transport).length > 0 then
                [lit "\"transport\":" ++ objectText (transportFieldsInOrder lib transport)]
              else [])
      else [])

/-- The fields of the `obfs` object of a hysteria2 node: `type`, then
`password` when it is not empty. -/
def obfsFieldsInOrder (lib : GoLib) (obfs : DynMap) : List GoString :=
  fieldsOf (asString (obfs.get (lit "type")))
      (fun obfsType => [lit "\"type\":" ++ Quote lib obfsType])
    ++ fieldsOf (asString (obfs.get (lit "password")))
      (fun obfsPassword =>
        if obfsPassword ≠ [] then [lit "\"password\":" ++ lib.jsonMarshal (.str obfsPassword)]
        else [])

/-- The fields of a hysteria2 node after `server_port`: `password` when it is
not empty, `server_ports` when the list is not empty, `up_mbps` and
`down_mbps` when positive, `obfs` when the map is not empty and gives at least
one field. -/
def hysteria2FieldsInOrder (lib : GoLib) (node : ParsedNode) : List GoString :=
  fieldsOf (asString (node.Outbound.get (lit "password")))
      (fun password =>
        if password ≠ [] then [lit "\"password\":" ++ lib.jsonMarshal (.str password)] else [])
    ++ fieldsOf (asStrings (node.Outbound.get (lit "server_ports")))
      (fun serverPorts =>
        if serverPorts ≠ [] then [lit "\"server_ports\":" ++ lib.jsonMarshal (.strs serverPorts)]
        else [])
    ++ fieldsOf (asInt (node.Outbound.get (lit "up_mbps")))
      (fun upMbps => if upMbps > 0 then [lit "\"up_mbps\":" ++ formatInt upMbps] else [])
    ++ fieldsOf (asInt (node.Outbound.get (lit "down_mbps")))
      (fun downMbps => if downMbps > 0 then [lit "\"down_mbps\":" ++ formatInt downMbps] else [])
    ++ fieldsOf (asObject (node.Outbound.get (lit "obfs")))
      (fun obfs =>
        if obfs.length > 0 ∧ (obfsFieldsInOrder lib obfs).length > 0 then
          [lit "\"obfs\":" ++ objectText (obfsFieldsInOrder lib obfs)]
        else [])

/-- The fields of a shadowsocks node after `server_port`: `method` and
`password`, each when it is a string that is not empty. -/
def ssFieldsInOrder (lib : GoLib) (node : ParsedNode) : List GoString :=
  fieldsOf (asString (node.Outbound.get (lit "method")))
      (fun method =>
        if method ≠ [] then [lit "\"method\":" ++ lib.jsonMarshal (.str method)] else [])
    ++ fieldsOf (asString (node.Outbound.get (lit "password")))
      (fun password =>
        if password ≠ [] then [lit "\"password\":" ++ lib.jsonMarshal (.str password)] else [])

/-- The fields of the node object, in order, with the condition under which
each is emitted: `tag`, `type`, `server` and `server_port` always; the fields
of the scheme; `flow` when it is not empty; `tls` when the node carries a
`tls` object. -/
def nodeFieldsInOrder (lib : GoLib) (node : ParsedNode) : List GoString :=
  headFields lib node
    ++ (if node.Scheme = lit "vless" ∨ node.Scheme = lit "vmess" then uuidFieldsInOrder lib node
      else if node.Scheme = lit "trojan" then [lit "\"password\":" ++ Quote lib node.UUID]
      else if node.Scheme = lit "hysteria2" then hysteria2FieldsInOrder lib node
      else if node.Scheme = lit "ss" then ssFieldsInOrder lib node
      else [])
    ++ (if node.Flow ≠ [] then [lit "\"flow\":" ++ Quote lib node.Flow] else [])
    ++ fieldsOf (asObject (node.Outbound.get (lit "tls")))
      (fun tlsData => [lit "\"tls\":" ++ objectText (tlsFieldsInOrder lib tlsData)])

/-- The text ends with a byte other than the letter `l`, so it does not end
with `null`. -/
def endsPlain (part : GoString) : Bool :=
  match part.getLast? with
  | some c => c != 0x6C
  | none => false

/-- The fields of the objects nested in the node object: those of
`transport` and of its `headers`, of `obfs`, of `tls` and of its `utls` and
`reality`, for each of these maps that the node carries. -/
def nestedFieldsInOrder (lib : GoLib) (node : ParsedNode) : List GoString :=
  fieldsOf (asObject (node.Outbound.get (lit "transport")))
      (fun transport =>
        transportFieldsInOrder lib transport
          ++ fieldsOf (asStringMap (transport.get (lit "headers")))
            (fun headers => headers.map (fun kv => Quote lib kv.1 ++ lit ":" ++ Quote lib kv.2)))
    ++ fieldsOf (asObject (node.Outbound.get (lit "obfs"))) (obfsFieldsInOrder lib)
    ++ fieldsOf (asObject (node.Outbound.get (lit "tls")))
      (fun tlsData =>
        tlsFieldsInOrder lib tlsData
          ++ fieldsOf (asObject (tlsData.get (lit "utls"))) (utlsFieldsInOrder lib)
          ++ fieldsOf (asObject (tlsData.get (lit "reality"))) (realityFieldsInOrder lib))

/-- The loader `g` behaves as the loader `f`, except that on a call where `f`
returns an error it may return an empty node list with no error instead,
leaving the registry as `f` leaves it. -/
def ErrorsAsEmpty (f g : LoadNodesFunc) : Prop :=
  ∀ (proxySource : ProxySource) (tagCounts : TagCounts) (i total : Int),
    g proxySource tagCounts i total = f proxySource tagCounts i total
      ∨ ∃ err, (f proxySource tagCounts i total).1 = .error err
          ∧ g proxySource tagCounts i total = (.ok [], (f proxySource tagCounts i total).2)

/-- A node satisfies a filter object: every entry whose value is a string
holds for the node, an entry with a value that is not a string asking for
nothing (AND across the keys). -/
def satisfiesObject (lib : GoLib) (node : ParsedNode) (filterMap : DynMap) : Bool :=
  filterMap.all (fun kv =>
    match kv.2 with
    | .str pattern => matchesPattern lib (getNodeValue node kv.1) pattern
    | _ => true)

/-- A node satisfies an array filter: it satisfies at least one member that
is an object (OR of AND-groups). -/
def satisfiesArray (lib : GoLib) (node : ParsedNode) (filterArray : List Value) : Bool :=
  filterArray.any (fun member =>
    match member with
    | .object filterMap => satisfiesObject lib node filterMap
    | _ => false)

/-- The value of an entry of a filter object is a string. -/
def isStringEntry (kv : GoString × Value) : Bool :=
  match kv.2 with
  | .str _ => true
  | _ => false

/-- A pattern has the regex form `/.../i` or the negated regex form
`!/.../i`, as `matchesPattern` tests them. -/
def isRegexForm (pattern : GoString) : Bool :=
  (HasPrefix pattern (lit "/") && HasSuffix pattern (lit "/i"))
    || (HasPrefix pattern (lit "!/") && HasSuffix pattern (lit "/i"))

/-- Printable ASCII other than the double quote and the backslash. -/
def plainByte (b : UInt8) : Bool :=
  decide (0x20 ≤ b.toNat ∧ b.toNat < 0x7F ∧ b.toNat ≠ 0x22 ∧ b.toNat ≠ 0x5C)


/-! ## JSON string literals

How Go `encoding/json` writes a string (`json.Marshal`) and how it decodes a
string literal, spelled out for the claims about the emitted strings. -/

/-- The bytes below 0x80 that `encoding/json` copies as they are into a
string literal (`htmlSafeSet`): the bytes from 0x20 on other than `"`, `\`,
`<`, `>` and `&`. -/
def htmlSafe (b : UInt8) : Bool :=
  decide (0x20 ≤ b.toNat ∧ b.toNat < 0x80 ∧ b.toNat ≠ 0x22 ∧ b.toNat ≠ 0x5C
    ∧ b.toNat ≠ 0x3C ∧ b.toNat ≠ 0x3E ∧ b.toNat ≠ 0x26)

/-- The escape `encoding/json` writes for a byte below 0x80 that it does not
copy (the `switch` of `appendString`, Go 1.22; older releases write `\u0008`
and `\u000c` for the backspace and the form feed). -/
def jsonEscapeByte (b : UInt8) : GoString :=
  if b = 0x5C ∨ b = 0x22 then [0x5C, b]
  else if b = 0x08 then lit "\\b"
  else if b = 0x0C then lit "\\f"
  else if b = 0x0A then lit "\\n"
  else if b = 0x0D then lit "\\r"
  else if b = 0x09 then lit "\\t"
  else lit "\\u00" ++ [hexDigit (b.toNat / 16), hexDigit (b.toNat % 16)]

/-- The loop of Go `encoding/json.appendString` with `escapeHTML` set, which
is how `json.Marshal` writes a string: an invalid byte becomes `\ufffd`, the
runes U+2028 and U+2029 are escaped, every other rune above ASCII is copied.
`skip` counts the bytes of the current rune still to be passed over and
`copy` tells whether they are copied. -/
def jsonStringRunes : Nat → Bool → GoString → GoString
  | _, _, [] => []
  | skip + 1, copy, b :: s => (if copy then [b] else []) ++ jsonStringRunes skip copy s
  | 0, _, b :: s =>
    if b.toNat < 0x80 then
      (if htmlSafe b then [b] else jsonEscapeByte b) ++ jsonStringRunes 0 true s
    else
      let rw := decodeRune (b :: s)
      if rw.1 = 0xFFFD ∧ rw.2 = 1 then lit "\\ufffd" ++ jsonStringRunes 0 true s
      else if rw.1 = 0x2028 ∨ rw.1 = 0x2029 then
        lit "\\u202" ++ [hexDigit (rw.1 % 16)] ++ jsonStringRunes (rw.2 - 1) false s
      else b :: jsonStringRunes (rw.2 - 1) true s

/-- The text `json.Marshal(s)` returns for a Go string `s`. -/
def jsonMarshalString (s : GoString) : GoString :=
  lit "\"" ++ jsonStringRunes 0 true s ++ lit "\""

/-- The loop of `appendString` with the text written for an invalid byte as a
parameter: Go 1.22 writes the escape `\ufffd`, which is `jsonStringRunes`; a
release that writes the rune U+FFFD itself, as Go 1.27 does, is the loop with
the bytes EF BF BD.  Everything else is as in `jsonStringRunes`. -/
def jsonStringRunesWith (invalid : GoString) : Nat → Bool → GoString → GoString
  | _, _, [] => []
  | skip + 1, copy, b :: s =>
    (if copy then [b] else []) ++ jsonStringRunesWith invalid skip copy s
  | 0, _, b :: s =>
    if b.toNat < 0x80 then
      (if htmlSafe b then [b] else jsonEscapeByte b) ++ jsonStringRunesWith invalid 0 true s
    else
      let rw := decodeRune (b :: s)
      if rw.1 = 0xFFFD ∧ rw.2 = 1 then invalid ++ jsonStringRunesWith invalid 0 true s
      else if rw.1 = 0x2028 ∨ rw.1 = 0x2029 then
        lit "\\u202" ++ [hexDigit (rw.1 % 16)] ++ jsonStringRunesWith invalid (rw.2 - 1) false s
      else b :: jsonStringRunesWith invalid (rw.2 - 1) true s

/-- The value of a hexadecimal digit. -/
def hexValue (b : UInt8) : Option Nat :=
  if 0x30 ≤ b.toNat ∧ b.toNat ≤ 0x39 then some (b.toNat - 0x30)
  else if 0x61 ≤ b.toNat ∧ b.toNat ≤ 0x66 then some (b.toNat - 0x61 + 10)
  else if 0x41 ≤ b.toNat ∧ b.toNat ≤ 0x46 then some (b.toNat - 0x41 + 10)
  else none

/-- Go `encoding/json.getu4`: the number written by the escape `\uXXXX` at the
start of the text, if the text starts with such an escape. -/
def getu4 (s : GoString) : Option Nat :=
  match s with
  | c0 :: c1 :: h1 :: h2 :: h3 :: h4 :: _ =>
    if c0 = 0x5C ∧ c1 = 0x75 then
      match hexValue h1, hexValue h2, hexValue h3, hexValue h4 with
      | some d1, some d2, some d3, some d4 => some (d1 * 4096 + d2 * 256 + d3 * 16 + d4)
      | _, _, _, _ => none
    else none
  | _ => none

/-- The loop of Go `encoding/json.unquoteBytes`, which decodes the string
literals of a JSON text, run on the text after the opening quote: the bytes of
the string, or `none` when the literal is malformed.  `skip` counts the bytes
of the current escape or rune still to be passed over.  The escape of the
apostrophe, which `unquoteBytes` would take, is left out: the scanner that
`encoding/json` runs over the text first refuses it. -/
def unquoteRunes : Nat → GoString → Option GoString
  | _, [] => none
  | skip + 1, _ :: s => unquoteRunes skip s
  | 0, c :: s =>
    if c = 0x22 then (if s = [] then some [] else none)
    else if c = 0x5C then
      match s with
      | [] => none
      | e :: _ =>
        if e = 0x22 ∨ e = 0x5C ∨ e = 0x2F then (unquoteRunes 1 s).map (e :: ·)
        else if e = 0x62 then (unquoteRunes 1 s).map (0x08 :: ·)
        else if e = 0x66 then (unquoteRunes 1 s).map (0x0C :: ·)
        else if e = 0x6E then (unquoteRunes 1 s).map (0x0A :: ·)
        else if e = 0x72 then (unquoteRunes 1 s).map (0x0D :: ·)
        else if e = 0x74 then (unquoteRunes 1 s).map (0x09 :: ·)
        else if e = 0x75 then
          match getu4 (c :: s) with
          | none => none
          | some rr =>
            if 0xD800 ≤ rr ∧ rr < 0xE000 then
              match getu4 (s.drop 5) with
              | some rr1 =>
                if rr < 0xDC00 ∧ 0xDC00 ≤ rr1 ∧ rr1 < 0xE000 then
                  (unquoteRunes 11 s).map
                    (utf8Encode ((rr - 0xD800) * 1024 + (rr1 - 0xDC00) + 0x10000) ++ ·)
                else (unquoteRunes 5 s).map (utf8Encode 0xFFFD ++ ·)
              | none => (unquoteRunes 5 s).map (utf8Encode 0xFFFD ++ ·)
            else (unquoteRunes 5 s).map (utf8Encode rr ++ ·)
        else none
    else if c.toNat < 0x20 then none
    else if c.toNat < 0x80 then (unquoteRunes 0 s).map (c :: ·)
    else
      let rw := decodeRune (c :: s)
      (unquoteRunes (rw.2 - 1) s).map (utf8Encode rw.1 ++ ·)

/-- Decoding of a JSON string literal as Go `encoding/json` does it: the bytes
of the string, or `none` when the text is not a string literal. -/
def jsonUnquote (text : GoString) : Option GoString :=
  match text with
  | c :: rest => if c = 0x22 then unquoteRunes 0 rest else none
  | [] => none

/-- Go `utf8.ValidString`: the loop over the runes; `skip` counts the bytes
of the current rune still to be passed over. -/
def validRunes : Nat → GoString → Bool
  | _, [] => true
  | skip + 1, _ :: s => validRunes skip s
  | 0, b :: s =>
    if b.toNat < 0x80 then validRunes 0 s
    else
      let rw := decodeRune (b :: s)
      if rw.1 = 0xFFFD ∧ rw.2 = 1 then false else validRunes (rw.2 - 1) s

/-- Go `utf8.ValidString(s)`: the bytes of `s` are valid UTF-8. -/
def ValidString (s : GoString) : Bool := validRunes 0 s

/-- The candidate list `kept` is the candidate list `all` with some of the
candidates that decode to no node removed, the others in their order. -/
def failingRemoved (decode : GoString → Option ParsedNode) :
    List GoString → List GoString → Bool
  | [], kept => kept.isEmpty
  | candidate :: all, [] => (decode candidate).isNone && failingRemoved decode all []
  | candidate :: all, next :: kept =>
    (candidate = next && failingRemoved decode all kept)
      || ((decode candidate).isNone && failingRemoved decode all (next :: kept))

/-- The document `data` holds a delimited region at the offset `pre.length`:
after `pre` come the opening marker, white space `ws1`, the word
`@ParserConfig`, white space `ws2` and a line break, the text `inner`, the
closing marker, and then `post`.  White space is what the class `\s` of the
pattern accepts. -/
def RegionAt (data pre ws1 ws2 inner post : GoString) : Prop :=
  data = pre ++ (lit "/**" ++ (ws1 ++ (lit "@ParserConfig" ++ (ws2 ++ (lit "\n"
      ++ (inner ++ (lit "*/" ++ post)))))))
    ∧ ws1.all isPerlSpace = true ∧ ws2.all isPerlSpace = true

/-! ## Sample inputs -/

/-- A library instance on which the definitions are evaluated at sample
inputs.  Its JSON text is that of `encoding/json` for the values the samples
use (strings and string lists made of letters, digits and hyphens); the
samples use no rune above U+00FF and no regular expression. -/
def sampleLib : GoLib where
  isPrint := fun _ => false
  jsonMarshal := fun v =>
    match v with
    | .str s => lit "\"" ++ s ++ lit "\""
    | .strs l => lit "[" ++ Join (l.map (fun s => lit "\"" ++ s ++ lit "\"")) (lit ",") ++ lit "]"
    | .bool b => formatBool b
    | _ => lit "null"
  regexpCompile := fun _ => none

/-- A vless node with the given tag. -/
def sampleNode (tag : GoString) : ParsedNode :=
  { Tag := tag, Scheme := lit "vless", Server := lit "example.org", Port := 443,
    UUID := lit "u", Flow := [], Label := tag, Comment := [], Query := [], Outbound := [] }

/-- A selector configuration with the given members, options and preferred
default, and no filter. -/
def sampleSelector (addOutbounds : List GoString) (options preferredDefault : DynMap) :
    OutboundConfig :=
  { Tag := lit "proxy", Type_ := lit "selector", Options := options, Filters := [],
    AddOutbounds := addOutbounds, PreferredDefault := preferredDefault, Comment := [],
    Wizard := .null }

/-- A decoder on which the loader is evaluated at sample inputs: no
subscription can be fetched, a connection is a direct link when it starts with
`vless://`, and it decodes to the sample node tagged by the text after
`vless://`. -/
def sampleDecoder : Decoder where
  FetchSubscription := fun _ => .error (lit "offline")
  ParseNode := fun link _ =>
    if HasPrefix link (lit "vless://") then .ok (some (sampleNode (TrimPrefix link (lit "vless://"))))
    else .error (lit "unsupported scheme")
  IsDirectLink := fun link => HasPrefix link (lit "vless://")

/-- A source made of direct links, with local selectors and no tag template. -/
def sampleSource (connections : List GoString) (outbounds : List OutboundConfig) : ProxySource :=
  { Source := [], Connections := connections, Skip := [], Outbounds := outbounds,
    TagPrefix := [], TagPostfix := [], TagMask := [] }

/-- A loader that fails on a source without connections and loads any other
source with the sample decoder. -/
def failingLoader : LoadNodesFunc := fun proxySource tagCounts i total =>
  if proxySource.Connections = [] then (.error (lit "no links"), tagCounts)
  else LoadNodesFromSource sampleDecoder proxySource tagCounts i total

/-- The loader `failingLoader` with the failure replaced by an empty node
list. -/
def emptyLoader : LoadNodesFunc := fun proxySource tagCounts i total =>
  if proxySource.Connections = [] then (.ok [], tagCounts)
  else LoadNodesFromSource sampleDecoder proxySource tagCounts i total

/-- A vless node with a flow and a `tls` object that holds every key the
emitter reads, given in another order than the one of the emitted object. -/
def sampleTLSNode : ParsedNode :=
  { sampleNode (lit "a") with
    Flow := lit "xtls-rprx-vision"
    Outbound :=
      [(lit "tls", .object
        [(lit "reality", .object
            [(lit "short_id", .str (lit "01")), (lit "public_key", .str (lit "pk")),
             (lit "enabled", .bool true)]),
         (lit "insecure", .bool true),
         (lit "utls", .object [(lit "fingerprint", .str (lit "chrome")), (lit "enabled", .bool true)]),
         (lit "alpn", .strs [lit "h2"]),
         (lit "server_name", .str (lit "sni")),
         (lit "enabled", .bool true)])] }

/-- A library instance whose `jsonMarshal` writes a string, and the members of
a list of strings, as `encoding/json` does. -/
def jsonLib : GoLib where
  isPrint := fun _ => false
  jsonMarshal := fun v =>
    match v with
    | .str s => jsonMarshalString s
    | .strs l => lit "[" ++ Join (l.map jsonMarshalString) (lit ",") ++ lit "]"
    | .bool b => formatBool b
    | _ => lit "null"
  regexpCompile := fun _ => none

/-- The library instance `jsonLib` with the text written for an invalid byte
of a string as a parameter. -/
def jsonLibWith (invalid : GoString) : GoLib where
  isPrint := fun _ => false
  jsonMarshal := fun v =>
    match v with
    | .str s => lit "\"" ++ jsonStringRunesWith invalid 0 true s ++ lit "\""
    | .strs l =>
      lit "[" ++ Join (l.map (fun s => lit "\"" ++ jsonStringRunesWith invalid 0 true s ++ lit "\""))
        (lit ",") ++ lit "]"
    | .bool b => formatBool b
    | _ => lit "null"
  regexpCompile := fun _ => none

/-- A shadowsocks node with the given method and password. -/
def sampleSSNode (method password : GoString) : ParsedNode :=
  { sampleNode (lit "a") with
    Scheme := lit "ss"
    Outbound := [(lit "method", .str method), (lit "password", .str password)] }

/-- A configuration with the given sources and global selectors. -/
def sampleConfig (proxies : List ProxySource) (outbounds : List OutboundConfig) : ParserConfig :=
  { ParserConfig :=
      { Version := 4, Proxies := proxies, Outbounds := outbounds,
        Parser := { Reload := lit "4h", LastUpdated := [] } } }

/-- A run over two sources of one direct link each, the first with a local
selector, and one global selector. -/
def sampleRun : Except GoString OutboundGenerationResult :=
  (GenerateOutboundsFromParserConfig sampleLib
    (sampleConfig
      [sampleSource [lit "vless://a"] [sampleSelector [lit "direct"] [] []],
       sampleSource [lit "vless://b"] []]
      [sampleSelector [] [] []])
    TagCounts.empty (LoadNodesFromSource sampleDecoder)).1

/-- The sample decoder, except that the link `vless://bad` fails to decode and
the link `vless://skip` decodes to no node. -/
def pickyDecoder : Decoder where
  FetchSubscription := sampleDecoder.FetchSubscription
  ParseNode := fun link skip =>
    if link = lit "vless://bad" then .error (lit "bad link")
    else if link = lit "vless://skip" then .ok none
    else sampleDecoder.ParseNode link skip
  IsDirectLink := sampleDecoder.IsDirectLink

/-- A decoder that fetches the given content for every subscription and
decodes links as `pickyDecoder` does. -/
def fetchingDecoder (content : GoString) : Decoder where
  FetchSubscription := fun _ => .ok content
  ParseNode := pickyDecoder.ParseNode
  IsDirectLink := pickyDecoder.IsDirectLink

/-! ## Theorems -/

/-! ### Tag registry -/

theorem TagCounts.set_same (m : TagCounts) (k : GoString) (v : Int) : m.set k v k = v := by
  simp [TagCounts.set]

theorem TagCounts.set_other (m : TagCounts) (k k2 : GoString) (v : Int) (h : k2 ≠ k) :
    m.set k v k2 = m k2 := by
  simp [TagCounts.set, h]

theorem MakeTagUnique_first (tag : GoString) (m : TagCounts) (h : m tag ≤ 0) :
    MakeTagUnique tag m = (tag, m.set tag 1) := by
  simp [MakeTagUnique, not_lt.mpr h]

theorem MakeTagUnique_again (tag : GoString) (m : TagCounts) (h : 0 < m tag) :
    MakeTagUnique tag m
      = (tag ++ lit "-" ++ formatInt (m tag + 1), m.set tag (m tag + 1)) := by
  simp [MakeTagUnique, h, TagCounts.set_same]

/-- Repeated calls on a tag whose count is already `c > 0`: the `i`-th further
call (from 0) returns `tag-(c+1+i)` and the count ends at `c + n`. -/
theorem makeTagsUnique_replicate_pos (tag : GoString) (n : Nat) :
    ∀ (m : TagCounts) (c : Nat), 0 < c → m tag = c →
      (makeTagsUnique (List.replicate n tag) m).1
          = (List.range n).map (fun i => occurrenceTag tag (c + 1 + i))
        ∧ (makeTagsUnique (List.replicate n tag) m).2 tag = ((c + n : Nat) : Int) := by
  induction n with
  | zero => intro m c _ hm; simp [makeTagsUnique, hm]
  | succ n ih =>
    intro m c hc hm
    have hpos : 0 < m tag := by rw [hm]; exact_mod_cast hc
    have hstep := MakeTagUnique_again tag m hpos
    have hm1 : (m.set tag (m tag + 1)) tag = ((c + 1 : Nat) : Int) := by
      rw [TagCounts.set_same, hm]; push_cast; rfl
    obtain ⟨ih1, ih2⟩ := ih (m.set tag (m tag + 1)) (c + 1) (Nat.succ_pos c) hm1
    have hocc : occurrenceTag tag (c + 1 + 0) = tag ++ lit "-" ++ formatInt (m tag + 1) := by
      have : ¬ (c + 1 ≤ 1) := by omega
      simp [occurrenceTag, this, hm]
    constructor
    · simp only [List.replicate_succ, makeTagsUnique, hstep, ih1, List.range_succ_eq_map,
        List.map_cons, List.map_map]
      rw [hocc]
      congr 1
      apply List.map_congr_left
      intro i _
      simp only [Function.comp]
      congr 1
      omega
    · simp only [List.replicate_succ, makeTagsUnique, hstep, ih2]
      congr 1
      omega

/-- C3. For every tag `t` and every registry in which `t` has count 0, `n`
successive calls `MakeTagUnique(t)` return `t, t-2, t-3, ..., t-n` in that
order (the `k`-th call returns `t` for `k = 1` and `t-k` for `k ≥ 2`) and
leave the registry count of `t` equal to `n`. -/
theorem MakeTagUnique_successive (t : GoString) (m : TagCounts) (n : Nat) (h : m t = 0) :
    (makeTagsUnique (List.replicate n t) m).1
        = (List.range n).map (fun i => occurrenceTag t (i + 1))
      ∧ (makeTagsUnique (List.replicate n t) m).2 t = (n : Int) := by
  cases n with
  | zero => simp [makeTagsUnique, h]
  | succ n =>
    have hfirst := MakeTagUnique_first t m (le_of_eq h)
    have hm1 : (m.set t 1) t = ((1 : Nat) : Int) := by rw [TagCounts.set_same]; rfl
    obtain ⟨h1, h2⟩ := makeTagsUnique_replicate_pos t n (m.set t 1) 1 Nat.one_pos hm1
    constructor
    · simp only [List.replicate_succ, makeTagsUnique, hfirst, h1, List.range_succ_eq_map,
        List.map_cons, List.map_map]
      congr 1
      apply List.map_congr_left
      intro i _
      simp only [Function.comp]
      congr 1
      omega
    · simp only [List.replicate_succ, makeTagsUnique, hfirst, h2]
      congr 1
      omega

/-- Witness for C3: three calls on the tag `x` from the empty registry. -/
theorem MakeTagUnique_successive_witness :
    (makeTagsUnique (List.replicate 3 (lit "x")) TagCounts.empty).1
        = (List.range 3).map (fun i => occurrenceTag (lit "x") (i + 1))
      ∧ (makeTagsUnique (List.replicate 3 (lit "x")) TagCounts.empty).2 (lit "x") = (3 : Nat) :=
  MakeTagUnique_successive (lit "x") TagCounts.empty 3 rfl

/-- C2 (violated by the code). Passing `a`, `a`, `a-2` through `MakeTagUnique`
from the empty registry returns `a`, `a-2`, `a-2`: the tag made up for the
second `a` is not recorded, so a later node that really is tagged `a-2` keeps
that tag and the returned tags are not pairwise distinct. -/
theorem MakeTagUnique_collision :
    (makeTagsUnique [lit "a", lit "a", lit "a-2"] TagCounts.empty).1
        = [lit "a", lit "a-2", lit "a-2"]
      ∧ ¬ (makeTagsUnique [lit "a", lit "a", lit "a-2"] TagCounts.empty).1.Nodup := by
  decide

/-! ### Tag templates -/

theorem UInt8_ofNat_toNat (b : UInt8) : UInt8.ofNat b.toNat = b := by
  cases b with
  | mk v =>
    apply UInt8.ext
    simp [UInt8.ofNat, UInt8.toNat, Fin.ofNat]

theorem decodeContinuation_bounds (c0 lo hi size : Nat) (rest : GoString)
    (h2 : size ≤ 2 → 2 ≤ c0 % 32)
    (h3 : ¬ size ≤ 2 → size ≤ 3 → 1 ≤ c0 % 16 ∨ 0xA0 ≤ lo)
    (h4 : ¬ size ≤ 3 → 1 ≤ c0 % 8 ∨ 0x90 ≤ lo)
    (hhi : hi ≤ 0xBF) (hlo : 0x80 ≤ lo) :
    0x80 ≤ (decodeContinuation c0 lo hi size rest).1
      ∧ (decodeContinuation c0 lo hi size rest).1 < 0x200000 := by
  rcases rest with _ | ⟨b1, _ | ⟨b2, _ | ⟨b3, rest3⟩⟩⟩ <;>
    simp only [decodeContinuation, List.length_cons, List.length_nil] <;>
    (try split_ifs) <;> omega

theorem decodeRune_bounds (b : UInt8) (s : GoString) (h : 0x80 ≤ b.toNat) :
    0x80 ≤ (decodeRune (b :: s)).1 ∧ (decodeRune (b :: s)).1 < 0x200000 := by
  have hb : ¬ (b.toNat < 0x80) := by omega
  simp only [decodeRune, hb, if_false]
  split_ifs
  · simp
  all_goals first
    | (apply decodeContinuation_bounds <;> omega)
    | simp

theorem UInt8_toNat_ofNat (n : Nat) : (UInt8.ofNat n).toNat = n % 256 := rfl

theorem ite_startsWith (c : Prop) [Decidable c] (x y : GoString) (b : UInt8)
    (hx : ∃ t, x = b :: t) (hy : ∃ t, y = b :: t) : ∃ t, (if c then x else y) = b :: t := by
  split <;> assumption

/-- What `appendEscapedRune` writes for an ASCII rune: the byte itself when it
is plain, an escape that starts with a backslash otherwise. -/
theorem appendEscapedRune_ascii (lib : GoLib) (b : UInt8) (h : b.toNat < 0x80) :
    (plainByte b = true → appendEscapedRune lib b.toNat = [b])
      ∧ (plainByte b = false → ∃ t, appendEscapedRune lib b.toNat = 0x5C :: t) := by
  constructor
  · intro hp
    simp only [plainByte, decide_eq_true_eq] at hp
    have h1 : ¬ (b.toNat = 0x22 ∨ b.toNat = 0x5C) := by omega
    have h2 : IsPrint lib b.toNat = true := by
      simp only [IsPrint]
      rw [if_pos (by omega), if_pos (by omega)]
    simp only [appendEscapedRune, h1, if_false, h2, if_true, utf8Encode, if_pos h,
      UInt8_ofNat_toNat]
  · intro hp
    simp only [plainByte, decide_eq_false_iff_not] at hp
    by_cases h1 : b.toNat = 0x22 ∨ b.toNat = 0x5C
    · exact ⟨[UInt8.ofNat b.toNat], by simp only [appendEscapedRune, h1, if_true]⟩
    · have h2 : IsPrint lib b.toNat = false := by
        simp only [IsPrint]
        rw [if_pos (by omega), if_neg (by omega), if_neg (by omega)]
      simp only [appendEscapedRune, h1, if_false, h2, Bool.false_eq_true]
      have hx : b.toNat < 0x20 ∨ b.toNat = 0x7F := by omega
      simp only [hx, if_true]
      repeat' apply ite_startsWith
      all_goals exact ⟨_, rfl⟩

/-- What `appendEscapedRune` writes for a rune decoded from a non-ASCII first
byte: text that starts with a backslash or with a byte outside ASCII. -/
theorem appendEscapedRune_wide (lib : GoLib) (r : Nat) (h1 : 0x80 ≤ r) (h2 : r < 0x200000) :
    ∃ c t, appendEscapedRune lib r = c :: t ∧ (c = 0x5C ∨ 0x80 ≤ c.toNat) := by
  have hq : ¬ (r = 0x22 ∨ r = 0x5C) := by omega
  simp only [appendEscapedRune, hq, if_false]
  by_cases hp : IsPrint lib r = true
  · simp only [hp, if_true, utf8Encode, if_neg (show ¬ r < 0x80 by omega)]
    split_ifs
    · refine ⟨_, _, rfl, Or.inr ?_⟩
      rw [UInt8_toNat_ofNat]
      omega
    · refine ⟨_, _, rfl, Or.inr ?_⟩
      rw [UInt8_toNat_ofNat]
      omega
    · refine ⟨_, _, rfl, Or.inr ?_⟩
      rw [UInt8_toNat_ofNat]
      omega
  · simp only [hp, Bool.false_eq_true, if_false]
    have hesc : ∃ t, (if r = 7 then lit "\\a"
      else if r = 8 then lit "\\b"
      else if r = 12 then lit "\\f"
      else if r = 10 then lit "\\n"
      else if r = 13 then lit "\\r"
      else if r = 9 then lit "\\t"
      else if r = 11 then lit "\\v"
      else if r < 32 ∨ r = 127 then lit "\\x" ++ [hexDigit (r / 16), hexDigit (r % 16)]
      else if r < 65536 then
        lit "\\u" ++ [hexDigit (r / 4096 % 16), hexDigit (r / 256 % 16), hexDigit (r / 16 % 16),
          hexDigit (r % 16)]
      else
        lit "\\U" ++ [hexDigit (r / 268435456 % 16), hexDigit (r / 16777216 % 16),
          hexDigit (r / 1048576 % 16), hexDigit (r / 65536 % 16), hexDigit (r / 4096 % 16),
          hexDigit (r / 256 % 16), hexDigit (r / 16 % 16), hexDigit (r % 16)]) = 0x5C :: t := by
      repeat' apply ite_startsWith
      all_goals exact ⟨_, rfl⟩
    obtain ⟨t, ht⟩ := hesc
    exact ⟨0x5C, t, ht, Or.inl rfl⟩

/-- The first step of the quoting loop: the text written for the first rune of
a non-empty string is not empty, does not start with a double quote, and
starts with a plain byte only when that byte is the first byte of the string
and is copied as it is. -/
theorem quoteRunes_cons (lib : GoLib) (b : UInt8) (s : GoString) :
    ∃ c t skip, quoteRunes lib 0 (b :: s) = c :: t ++ quoteRunes lib skip s
      ∧ (plainByte c = true → c = b ∧ t = [] ∧ skip = 0) ∧ c ≠ 0x22 := by
  by_cases hb : b.toNat < 0x80
  · have hge : ¬ (b.toNat ≥ 0x80) := by omega
    have hne : ¬ (b.toNat = 0xFFFD) := by omega
    obtain ⟨hplain, hesc⟩ := appendEscapedRune_ascii lib b hb
    by_cases hp : plainByte b = true
    · refine ⟨b, [], 0, ?_, fun _ => ⟨rfl, rfl, rfl⟩, ?_⟩
      · simp only [quoteRunes, hge, if_false, true_and, hne, hplain hp]
      · intro h0; rw [h0] at hp; exact absurd hp (by decide)
    · have hp2 : plainByte b = false := by simpa using hp
      obtain ⟨t, ht⟩ := hesc hp2
      refine ⟨0x5C, t, 0, ?_, fun h => absurd h (by decide), by decide⟩
      simp only [quoteRunes, hge, if_false, true_and, hne, ht]
  · have hge : b.toNat ≥ 0x80 := by omega
    obtain ⟨hr1, hr2⟩ := decodeRune_bounds b s hge
    by_cases herr : (decodeRune (b :: s)).2 = 1 ∧ (decodeRune (b :: s)).1 = 0xFFFD
    · refine ⟨0x5C, [0x78, hexDigit (b.toNat / 16), hexDigit (b.toNat % 16)],
        (decodeRune (b :: s)).2 - 1, ?_, fun h => absurd h (by decide), by decide⟩
      simp only [quoteRunes, hge, if_true, herr, and_self]
      rfl
    · obtain ⟨c, t, hct, hc⟩ := appendEscapedRune_wide lib _ hr1 hr2
      refine ⟨c, t, (decodeRune (b :: s)).2 - 1, ?_, ?_, ?_⟩
      · simp only [quoteRunes, hge, if_true, herr, if_false, hct]
      · intro hpl
        simp only [plainByte, decide_eq_true_eq] at hpl
        rcases hc with hc | hc
        · rw [hc] at hpl; exact absurd hpl (by decide)
        · omega
      · intro h0
        rcases hc with hc | hc
        · rw [hc] at h0; exact absurd h0 (by decide)
        · rw [h0] at hc; exact absurd hc (by decide)

/-- A quoted string whose text up to the closing quote is the plain text `p`
is the quotation of `p` itself. -/
theorem quoteRunes_plain (lib : GoLib) (p : GoString) (hp : ∀ c ∈ p, plainByte c = true) :
    ∀ (k rest : GoString), (p ++ [0x22]) <+: (quoteRunes lib 0 k ++ 0x22 :: rest) → k = p := by
  induction p with
  | nil =>
    intro k rest hpre
    cases k with
    | nil => rfl
    | cons b s =>
      obtain ⟨c, t, skip, hq, _, hc⟩ := quoteRunes_cons lib b s
      rw [hq] at hpre
      obtain ⟨u, hu⟩ := hpre
      simp only [List.nil_append, List.cons_append, List.cons.injEq] at hu
      exact absurd hu.1.symm hc
  | cons a p ih =>
    intro k rest hpre
    have ha : plainByte a = true := hp a (List.mem_cons_self _ _)
    cases k with
    | nil =>
      obtain ⟨u, hu⟩ := hpre
      simp only [quoteRunes, List.nil_append, List.cons_append, List.cons.injEq] at hu
      rw [hu.1] at ha
      exact absurd ha (by decide)
    | cons b s =>
      obtain ⟨c, t, skip, hq, hplain, _⟩ := quoteRunes_cons lib b s
      rw [hq] at hpre
      obtain ⟨u, hu⟩ := hpre
      simp only [List.cons_append, List.cons.injEq] at hu
      obtain ⟨hac, hrest⟩ := hu
      obtain ⟨hcb, ht, hskip⟩ := hplain (hac ▸ ha)
      subst ht hskip
      have hs : s = p := ih (fun c hc => hp c (List.mem_cons_of_mem _ hc)) s rest
        ⟨u, by simpa using hrest⟩
      rw [hs, ← hcb, hac]

/-! ### Selector emitter -/

theorem appendUnseen_append (a b : List GoString) :
    ∀ acc : List GoString × (GoString → Bool),
      appendUnseen (a ++ b) acc = appendUnseen b (appendUnseen a acc) := by
  induction a with
  | nil => intro acc; rfl
  | cons tag rest ih =>
    intro acc
    obtain ⟨out, seen⟩ := acc
    simp only [List.cons_append, appendUnseen]
    split <;> exact ih _

theorem appendUnseen_spec (tags : List GoString) :
    ∀ (out : List GoString) (seen : GoString → Bool), (∀ t, seen t = true ↔ t ∈ out) →
      (appendUnseen tags (out, seen)).1
        = out ++ (dedupKeepFirst tags).filter (fun t => decide (t ∉ out)) := by
  induction tags with
  | nil => intro out seen _; simp [appendUnseen, dedupKeepFirst]
  | cons tag rest ih =>
    intro out seen hinv
    by_cases hs : seen tag = true
    · have hmem : tag ∈ out := (hinv tag).1 hs
      simp only [appendUnseen, hs, Bool.not_true, Bool.false_eq_true, if_false]
      rw [ih out seen hinv]
      simp only [dedupKeepFirst, List.filter_cons, hmem, not_true_eq_false, decide_False,
        Bool.false_eq_true, if_false, List.filter_filter]
      congr 1
      apply List.filter_congr
      intro t _
      by_cases ht : t ∈ out
      · simp [ht]
      · have : t ≠ tag := fun h => ht (h ▸ hmem)
        simp [ht, this]
    · have hnot : tag ∉ out := fun h => hs ((hinv tag).2 h)
      have hs2 : seen tag = false := by simpa using hs
      have hinv2 : ∀ t, (if t = tag then true else seen t) = true ↔ t ∈ out ++ [tag] := by
        intro t
        by_cases ht : t = tag
        · simp [ht]
        · simp [ht, hinv t]
      simp only [appendUnseen, hs2, Bool.not_false, if_true]
      rw [ih (out ++ [tag]) _ hinv2]
      simp only [dedupKeepFirst, List.filter_cons, hnot, not_false_eq_true, decide_True, if_true,
        List.filter_filter, List.append_assoc, List.singleton_append]
      congr 2
      apply List.filter_congr
      intro t _
      by_cases ht : t = tag
      · simp [ht]
      · simp [ht]

/-- The two loops of `GenerateSelector` compute the keep-first deduplication
of `addOutbounds` followed by the tags of the filtered nodes. -/
theorem selectorOutbounds_eq (addOutbounds : List GoString) (filteredNodes : List ParsedNode) :
    selectorOutbounds addOutbounds filteredNodes
      = dedupKeepFirst (addOutbounds ++ filteredNodes.map (fun node => node.Tag)) := by
  have h := appendUnseen_spec (addOutbounds ++ filteredNodes.map (fun node => node.Tag)) []
    (fun _ => false) (by simp)
  simp only [selectorOutbounds, ← appendUnseen_append]
  rw [h]
  simp

theorem dedupKeepFirst_eq_nil (l : List GoString) : dedupKeepFirst l = [] ↔ l = [] := by
  cases l <;> simp [dedupKeepFirst]

/-- The text `GenerateSelector` returns, in terms of the three values it
computes. -/
theorem GenerateSelector_eq (lib : GoLib) (allNodes : List ParsedNode)
    (outboundConfig : OutboundConfig) :
    GenerateSelector lib allNodes outboundConfig
      = .ok (if selectorOutbounds outboundConfig.AddOutbounds
              (filterNodesForSelector lib allNodes (.object outboundConfig.Filters)) = [] then []
          else selectorCommentLine outboundConfig ++ (lit "\t" ++ (lit "\x7b" ++ Join
            (selectorParts lib outboundConfig
              (selectorOutbounds outboundConfig.AddOutbounds
                (filterNodesForSelector lib allNodes (.object outboundConfig.Filters)))
              (selectorDefaultTag lib outboundConfig.PreferredDefault
                (filterNodesForSelector lib allNodes (.object outboundConfig.Filters))))
            (lit ",") ++ lit "\x7d") ++ lit ",")) := by
  simp only [GenerateSelector, selectorCommentLine, List.length_eq_zero]
  split <;> rfl

theorem outboundsPart_mem_selectorParts (lib : GoLib) (outboundConfig : OutboundConfig)
    (outboundsList : List GoString) (defaultTag : GoString) :
    (lit "\"outbounds\":" ++ lib.jsonMarshal (.strs outboundsList))
      ∈ selectorParts lib outboundConfig outboundsList defaultTag := by
  simp only [selectorParts]
  apply List.mem_append_left
  have h4 : ∀ parts : List GoString,
      (lit "\"outbounds\":" ++ lib.jsonMarshal (.strs outboundsList))
        ∈ parts ++ [lit "\"outbounds\":" ++ lib.jsonMarshal (.strs outboundsList)] :=
    fun parts => List.mem_append_right _ (List.mem_singleton.mpr rfl)
  split <;> first | exact List.mem_append_left _ (h4 _) | exact h4 _

/-- C1. For every node pool and every OutboundConfig, the list of members
`GenerateSelector` builds is the keep-first deduplication (by exact string) of
`addOutbounds` followed by the tags of the filtered nodes in filtered order,
and the `outbounds` array it emits is `json.Marshal` of that list; so
`addOutbounds` `["a","b"]` followed by filtered tags `"b","c"` gives
`["a","b","c"]`. -/
theorem GenerateSelector_outbounds (lib : GoLib) (allNodes : List ParsedNode)
    (outboundConfig : OutboundConfig) :
    selectorOutbounds outboundConfig.AddOutbounds
        (filterNodesForSelector lib allNodes (.object outboundConfig.Filters))
      = dedupKeepFirst (outboundConfig.AddOutbounds ++
          (filterNodesForSelector lib allNodes (.object outboundConfig.Filters)).map
            (fun node => node.Tag))
    ∧ GenerateSelector lib allNodes outboundConfig
      = .ok (if dedupKeepFirst (outboundConfig.AddOutbounds ++
            (filterNodesForSelector lib allNodes (.object outboundConfig.Filters)).map
              (fun node => node.Tag)) = [] then []
          else selectorCommentLine outboundConfig ++ (lit "\t" ++ (lit "\x7b" ++ Join
            (selectorParts lib outboundConfig
              (dedupKeepFirst (outboundConfig.AddOutbounds ++
                (filterNodesForSelector lib allNodes (.object outboundConfig.Filters)).map
                  (fun node => node.Tag)))
              (selectorDefaultTag lib outboundConfig.PreferredDefault
                (filterNodesForSelector lib allNodes (.object outboundConfig.Filters))))
            (lit ",") ++ lit "\x7d") ++ lit ","))
    ∧ (lit "\"outbounds\":" ++ lib.jsonMarshal (.strs
          (dedupKeepFirst (outboundConfig.AddOutbounds ++
            (filterNodesForSelector lib allNodes (.object outboundConfig.Filters)).map
              (fun node => node.Tag)))))
        ∈ selectorParts lib outboundConfig
            (dedupKeepFirst (outboundConfig.AddOutbounds ++
              (filterNodesForSelector lib allNodes (.object outboundConfig.Filters)).map
                (fun node => node.Tag)))
            (selectorDefaultTag lib outboundConfig.PreferredDefault
              (filterNodesForSelector lib allNodes (.object outboundConfig.Filters)))
    ∧ dedupKeepFirst ([lit "a", lit "b"] ++ [lit "b", lit "c"]) = [lit "a", lit "b", lit "c"] := by
  refine ⟨selectorOutbounds_eq _ _, ?_, outboundsPart_mem_selectorParts _ _ _ _, by decide⟩
  rw [GenerateSelector_eq, selectorOutbounds_eq]

/-- C8. `GenerateSelector` never returns an error, and the text it returns is
empty if and only if `addOutbounds` is empty and the filter selects no node of
the pool; in every other case the text is a non-empty fragment. -/
theorem GenerateSelector_empty_iff (lib : GoLib) (allNodes : List ParsedNode)
    (outboundConfig : OutboundConfig) :
    ∃ text, GenerateSelector lib allNodes outboundConfig = .ok text
      ∧ (text = [] ↔ outboundConfig.AddOutbounds = []
          ∧ filterNodesForSelector lib allNodes (.object outboundConfig.Filters) = []) := by
  refine ⟨_, GenerateSelector_eq lib allNodes outboundConfig, ?_⟩
  rw [selectorOutbounds_eq]
  have htab : lit "\t" = [9] := by decide
  by_cases h : dedupKeepFirst (outboundConfig.AddOutbounds ++
      (filterNodesForSelector lib allNodes (.object outboundConfig.Filters)).map
        (fun node => node.Tag)) = []
  · rw [if_pos h]
    have h2 := (dedupKeepFirst_eq_nil _).1 h
    simp only [List.append_eq_nil, List.map_eq_nil_iff] at h2
    simp [h2.1, h2.2]
  · rw [if_neg h]
    have h2 : ¬ (outboundConfig.AddOutbounds = []
        ∧ filterNodesForSelector lib allNodes (.object outboundConfig.Filters) = []) := by
      rintro ⟨ha, hf⟩
      apply h
      rw [ha, hf]
      rfl
    simp [htab, h2]

theorem isPrefixOf_append_false (p l value : GoString) (n : Nat) (hn : n ≤ l.length)
    (h : (p.take n).isPrefixOf l = false) : p.isPrefixOf (l ++ value) = false := by
  rw [Bool.eq_false_iff] at h ⊢
  intro hp
  apply h
  rw [List.isPrefixOf_iff_prefix] at hp ⊢
  refine List.prefix_of_prefix_length_le ((List.take_prefix n p).trans hp)
    (List.prefix_append l value) ?_
  exact (List.length_take_le n p).trans hn

/-- An option whose key is not the plain name `name` is not emitted as a
field named `name`. -/
theorem optionPart_not_field (lib : GoLib) (name key value : GoString)
    (hname : ∀ c ∈ name, plainByte c = true) (hkey : key ≠ name) :
    (lit "\"" ++ name ++ lit "\":").isPrefixOf (Quote lib key ++ lit ":" ++ value) = false := by
  rw [Bool.eq_false_iff]
  intro h
  apply hkey
  have hq : lit "\"" = [0x22] := by decide
  have hqc : lit "\":" = [0x22, 0x3A] := by decide
  have hc : lit ":" = [0x3A] := by decide
  have hpre := List.isPrefixOf_iff_prefix.mp h
  simp only [Quote, hq, hqc, hc, List.singleton_append, List.cons_append, List.append_assoc,
    List.nil_append] at hpre
  obtain ⟨u, hu⟩ := hpre
  simp only [List.cons_append, List.cons.injEq, true_and, List.append_assoc] at hu
  exact quoteRunes_plain lib name hname key (0x3A :: value) ⟨0x3A :: u, by simpa using hu⟩

theorem selectorDefaultTag_none (lib : GoLib) (preferredDefault : DynMap)
    (filteredNodes : List ParsedNode)
    (h : preferredDefault = [] ∨ ∀ node ∈ filteredNodes,
      matchesFilter lib node (convertFilterToStringMap preferredDefault) = false) :
    selectorDefaultTag lib preferredDefault filteredNodes = [] := by
  unfold selectorDefaultTag
  rcases h with h | h
  · simp [h]
  · split
    · have hfind : filteredNodes.find?
          (fun node => matchesFilter lib node (convertFilterToStringMap preferredDefault)) = none := by
        rw [List.find?_eq_none]
        intro node hnode
        simp [h node hnode]
      simp only [hfind]
    · rfl

theorem selectorParts_no_default (lib : GoLib) (outboundConfig : OutboundConfig)
    (outboundsList : List GoString)
    (hopt : ∀ kv ∈ outboundConfig.Options, kv.1 ≠ lit "default") :
    hasField (selectorParts lib outboundConfig outboundsList []) (lit "default") = false := by
  have hk : lit "\"" ++ lit "default" ++ lit "\":" = lit "\"default\":" := by decide
  have h1 := fun v => isPrefixOf_append_false (lit "\"default\":") (lit "\"tag\":") v 2
    (by decide) (by decide)
  have h2 := fun v => isPrefixOf_append_false (lit "\"default\":") (lit "\"type\":") v 2
    (by decide) (by decide)
  have h3 := fun v => isPrefixOf_append_false (lit "\"default\":") (lit "\"outbounds\":") v 2
    (by decide) (by decide)
  have h4 := fun v => isPrefixOf_append_false (lit "\"default\":")
    (lit "\"interrupt_exist_connections\":") v 2 (by decide) (by decide)
  have h5 : ((outboundConfig.Options.filter
      (fun kv => kv.1 ≠ lit "interrupt_exist_connections")).map
        (fun kv => Quote lib kv.1 ++ lit ":" ++ lib.jsonMarshal kv.2)).any
      (fun part => (lit "\"default\":").isPrefixOf part) = false := by
    rw [List.any_eq_false]
    intro part hpart
    obtain ⟨kv, hkv, rfl⟩ := List.mem_map.mp hpart
    have hne := hopt kv (List.mem_filter.mp hkv).1
    have := optionPart_not_field lib (lit "default") kv.1 (lib.jsonMarshal kv.2) (by decide) hne
    rw [hk] at this
    rw [this]
    simp
  simp only [hasField, hk, selectorParts, ne_eq, not_true_eq_false, if_false]
  split <;>
    simp only [List.any_append, List.any_cons, List.any_nil, h1, h2, h3, h4, h5, Bool.or_false]

/-- C6 (as amended). For every node pool and every OutboundConfig whose
options hold no key `default`: when `preferredDefault` is absent or empty, and
also when it is non-empty but no filtered node satisfies it, the object
emitted by `GenerateSelector` is assembled from parts none of which is a
`"default"` field, whatever the membership. -/
theorem GenerateSelector_no_default (lib : GoLib) (allNodes : List ParsedNode)
    (outboundConfig : OutboundConfig)
    (hopt : ∀ kv ∈ outboundConfig.Options, kv.1 ≠ lit "default")
    (hpd : outboundConfig.PreferredDefault = []
      ∨ ∀ node ∈ filterNodesForSelector lib allNodes (.object outboundConfig.Filters),
          matchesFilter lib node (convertFilterToStringMap outboundConfig.PreferredDefault)
            = false) :
    GenerateSelector lib allNodes outboundConfig
      = .ok (if selectorOutbounds outboundConfig.AddOutbounds
              (filterNodesForSelector lib allNodes (.object outboundConfig.Filters)) = [] then []
          else selectorCommentLine outboundConfig ++ (lit "\t" ++ (lit "\x7b" ++ Join
            (selectorParts lib outboundConfig
              (selectorOutbounds outboundConfig.AddOutbounds
                (filterNodesForSelector lib allNodes (.object outboundConfig.Filters))) [])
            (lit ",") ++ lit "\x7d") ++ lit ","))
    ∧ hasField (selectorParts lib outboundConfig
          (selectorOutbounds outboundConfig.AddOutbounds
            (filterNodesForSelector lib allNodes (.object outboundConfig.Filters))) [])
        (lit "default") = false := by
  refine ⟨?_, selectorParts_no_default lib outboundConfig _ hopt⟩
  rw [GenerateSelector_eq, selectorDefaultTag_none lib _ _ hpd]

/-- Witness for C6: a selector with members `a`, `b`, no options and no
preferred default over nodes tagged `b` and `c`. -/
theorem GenerateSelector_no_default_witness :
    GenerateSelector sampleLib [sampleNode (lit "b"), sampleNode (lit "c")]
        (sampleSelector [lit "a", lit "b"] [] [])
      = .ok (lit "\t\x7b\"tag\":\"proxy\",\"type\":\"selector\",\"outbounds\":[\"a\",\"b\",\"c\"]\x7d,")
    ∧ hasField (selectorParts sampleLib (sampleSelector [lit "a", lit "b"] [] [])
          (selectorOutbounds (sampleSelector [lit "a", lit "b"] [] []).AddOutbounds
            (filterNodesForSelector sampleLib [sampleNode (lit "b"), sampleNode (lit "c")]
              (.object (sampleSelector [lit "a", lit "b"] [] []).Filters))) [])
        (lit "default") = false :=
  ⟨(GenerateSelector_no_default sampleLib [sampleNode (lit "b"), sampleNode (lit "c")]
      (sampleSelector [lit "a", lit "b"] [] []) (by simp [sampleSelector])
      (Or.inl rfl)).1.trans (by decide),
   (GenerateSelector_no_default sampleLib [sampleNode (lit "b"), sampleNode (lit "c")]
      (sampleSelector [lit "a", lit "b"] [] []) (by simp [sampleSelector])
      (Or.inl rfl)).2⟩

/-- C6 (as stated, refuted). A selector without `preferredDefault` whose
options hold the key `default` is emitted with a `"default"` field: the
options are passed through as fields of the object, whatever their name. -/
theorem GenerateSelector_default_from_options :
    (sampleSelector [lit "a"] [(lit "default", .str (lit "a"))] []).PreferredDefault = []
    ∧ GenerateSelector sampleLib [] (sampleSelector [lit "a"] [(lit "default", .str (lit "a"))] [])
      = .ok (lit "\t\x7b\"tag\":\"proxy\",\"type\":\"selector\",\"outbounds\":[\"a\"],\"default\":\"a\"\x7d,")
    ∧ ∀ lib : GoLib,
        selectorParts lib (sampleSelector [lit "a"] [(lit "default", .str (lit "a"))] [])
            [lit "a"] []
          = [lit "\"tag\":\"proxy\"", lit "\"type\":\"selector\"",
             lit "\"outbounds\":" ++ lib.jsonMarshal (.strs [lit "a"]),
             lit "\"default\":" ++ lib.jsonMarshal (.str (lit "a"))]
        ∧ hasField (selectorParts lib
              (sampleSelector [lit "a"] [(lit "default", .str (lit "a"))] []) [lit "a"] [])
            (lit "default") = true := by
  refine ⟨rfl, by set_option maxRecDepth 100000 in decide, fun lib => ?_⟩
  have hparts : selectorParts lib (sampleSelector [lit "a"] [(lit "default", .str (lit "a"))] [])
        [lit "a"] []
      = [lit "\"tag\":\"proxy\"", lit "\"type\":\"selector\"",
         lit "\"outbounds\":" ++ lib.jsonMarshal (.strs [lit "a"]),
         lit "\"default\":" ++ lib.jsonMarshal (.str (lit "a"))] := rfl
  refine ⟨hparts, ?_⟩
  have hk : lit "\"" ++ lit "default" ++ lit "\":" = lit "\"default\":" := by decide
  rw [hparts, hasField, hk, List.any_eq_true]
  refine ⟨lit "\"default\":" ++ lib.jsonMarshal (.str (lit "a")), ?_,
    List.isPrefixOf_iff_prefix.mpr (List.prefix_append _ _)⟩
  simp only [List.mem_cons, true_or, or_true]

theorem selectorDefaultTag_first (lib : GoLib) (preferredDefault : DynMap)
    (pre post : List ParsedNode) (node : ParsedNode) (hpd : preferredDefault ≠ [])
    (hpre : ∀ m ∈ pre, matchesFilter lib m (convertFilterToStringMap preferredDefault) = false)
    (hnode : matchesFilter lib node (convertFilterToStringMap preferredDefault) = true) :
    selectorDefaultTag lib preferredDefault (pre ++ node :: post) = node.Tag := by
  have hlen : preferredDefault.length > 0 := List.length_pos.mpr hpd
  have hfind : (pre ++ node :: post).find?
      (fun n => matchesFilter lib n (convertFilterToStringMap preferredDefault)) = some node := by
    rw [List.find?_append]
    have hnone : pre.find?
        (fun n => matchesFilter lib n (convertFilterToStringMap preferredDefault)) = none := by
      rw [List.find?_eq_none]
      intro m hm
      simp [hpre m hm]
    rw [hnone]
    simp [List.find?_cons, hnode]
  simp only [selectorDefaultTag, hlen, if_true, hfind]

theorem selectorParts_take_default (lib : GoLib) (outboundConfig : OutboundConfig)
    (outboundsList : List GoString) (defaultTag : GoString) (h : defaultTag ≠ []) :
    (selectorParts lib outboundConfig outboundsList defaultTag).take 4
      = [lit "\"tag\":" ++ Quote lib outboundConfig.Tag,
         lit "\"type\":" ++ Quote lib outboundConfig.Type_,
         lit "\"default\":" ++ Quote lib defaultTag,
         lit "\"outbounds\":" ++ lib.jsonMarshal (.strs outboundsList)] := by
  simp only [selectorParts, ne_eq, h, not_false_eq_true, if_true]
  split <;> simp

theorem hysteria2ObfsParts_ok (lib : GoLib) (node : ParsedNode) :
    ∃ parts, hysteria2ObfsParts lib node = .ok parts := by
  simp only [hysteria2ObfsParts, marshalText, bind, Except.bind, pure, Except.pure]
  repeat' split
  all_goals exact ⟨_, rfl⟩

theorem hysteria2Parts_ok (lib : GoLib) (node : ParsedNode) :
    ∃ parts, hysteria2Parts lib node = .ok parts := by
  obtain ⟨obfs, hobfs⟩ := hysteria2ObfsParts_ok lib node
  simp only [hysteria2Parts, marshalText, bind, Except.bind, pure, Except.pure, hobfs]
  repeat' split
  all_goals exact ⟨_, rfl⟩

theorem ssParts_ok (lib : GoLib) (node : ParsedNode) :
    ∃ parts, ssParts lib node = .ok parts := by
  simp only [ssParts, marshalText, bind, Except.bind, pure, Except.pure]
  repeat' split
  all_goals exact ⟨_, rfl⟩

/-- `GenerateNodeJSON` returns a fragment, never an error. -/
theorem GenerateNodeJSON_ok (lib : GoLib) (node : ParsedNode) :
    ∃ nodeJSON, GenerateNodeJSON lib node = .ok nodeJSON := by
  obtain ⟨h2, hh2⟩ := hysteria2Parts_ok lib node
  obtain ⟨ss, hss⟩ := ssParts_ok lib node
  simp only [GenerateNodeJSON, bind, Except.bind, pure, Except.pure, hh2, hss]
  repeat' split
  all_goals exact ⟨_, rfl⟩

/-! ### Orchestrator -/

theorem emitNodes_eq (lib : GoLib) (nodes : List ParsedNode) :
    ∀ acc : List GoString × Int,
      emitNodes lib nodes acc = (acc.1 ++ nodes.map (nodeFragment lib), acc.2 + nodes.length) := by
  induction nodes with
  | nil => intro acc; simp [emitNodes]
  | cons node rest ih =>
    intro acc
    obtain ⟨selectorsJSON, nodesCount⟩ := acc
    obtain ⟨nodeJSON, hnode⟩ := GenerateNodeJSON_ok lib node
    simp only [emitNodes, hnode, ih, nodeFragment, List.map_cons, List.append_assoc,
      List.singleton_append, List.length_cons, Nat.cast_add, Nat.cast_one]
    congr 1
    omega

theorem emitSelectors_eq (lib : GoLib) (nodes : List ParsedNode) (outbounds : List OutboundConfig) :
    ∀ acc : List GoString × Int,
      emitSelectors lib nodes outbounds acc
        = (acc.1 ++ selectorFragments lib nodes outbounds,
           acc.2 + (selectorFragments lib nodes outbounds).length) := by
  induction outbounds with
  | nil => intro acc; simp [emitSelectors, selectorFragments]
  | cons outboundConfig rest ih =>
    intro acc
    obtain ⟨selectorsJSON, count⟩ := acc
    obtain ⟨text, htext⟩ : ∃ text, GenerateSelector lib nodes outboundConfig = .ok text :=
      ⟨_, GenerateSelector_eq lib nodes outboundConfig⟩
    by_cases hne : text = []
    · simp only [emitSelectors, htext, hne, ne_eq, not_true_eq_false, if_false, ih,
        selectorFragments, List.filterMap_cons]
    · simp only [emitSelectors, htext, hne, ne_eq, not_false_eq_true, if_true, ih,
        selectorFragments, List.filterMap_cons, List.append_assoc, List.singleton_append,
        List.length_cons, Nat.cast_add, Nat.cast_one]
      congr 1
      omega

theorem loadAllSources_cons (loadNodesFunc : LoadNodesFunc) (totalSources : Int)
    (proxySource : ProxySource) (rest : List ProxySource) (i : Nat) (st : SourcesState) :
    loadAllSources loadNodesFunc totalSources (proxySource :: rest) i st
      = loadAllSources loadNodesFunc totalSources rest (i + 1)
          (match (loadNodesFunc proxySource st.tagCounts i totalSources).1 with
            | .ok nodesFromSource =>
              if nodesFromSource.length > 0 then
                { allNodes := st.allNodes ++ nodesFromSource
                  nodesBySource := fun j =>
                    if j = i then some nodesFromSource else st.nodesBySource j
                  tagCounts := (loadNodesFunc proxySource st.tagCounts i totalSources).2 }
              else
                { st with tagCounts := (loadNodesFunc proxySource st.tagCounts i totalSources).2 }
            | .error _ =>
              { st with tagCounts := (loadNodesFunc proxySource st.tagCounts i totalSources).2 }) := by
  rcases hload : loadNodesFunc proxySource st.tagCounts i totalSources with ⟨res, tagCounts⟩
  cases res with
  | error err => simp only [loadAllSources, hload]
  | ok nodes =>
    simp only [loadAllSources, hload]
    split <;> rfl

theorem loadAllSources_frame (loadNodesFunc : LoadNodesFunc) (totalSources : Int)
    (sources : List ProxySource) :
    ∀ (i : Nat) (st : SourcesState) (j : Nat), j < i →
      (loadAllSources loadNodesFunc totalSources sources i st).nodesBySource j
        = st.nodesBySource j := by
  induction sources with
  | nil => intro i st j _; rfl
  | cons proxySource rest ih =>
    intro i st j hj
    rw [loadAllSources_cons, ih (i + 1) _ j (by omega)]
    have hne : j ≠ i := by omega
    split
    · split <;> simp [hne]
    · rfl

theorem loadAllSources_allNodes (loadNodesFunc : LoadNodesFunc) (totalSources : Int)
    (sources : List ProxySource) :
    ∀ (i : Nat) (st : SourcesState),
      (loadAllSources loadNodesFunc totalSources sources i st).allNodes
        = st.allNodes ++ (sourceLoads loadNodesFunc totalSources sources i st.tagCounts).flatten := by
  induction sources with
  | nil => intro i st; simp [loadAllSources, sourceLoads]
  | cons proxySource rest ih =>
    intro i st
    rw [loadAllSources_cons, ih]
    simp only [sourceLoads, List.flatten_cons]
    split
    · rename_i nodes hnodes
      split
      · simp [List.append_assoc]
      · rename_i hlen
        have : nodes = [] := by
          cases nodes with
          | nil => rfl
          | cons a l => simp at hlen
        simp [this]
    · simp

theorem emitLocalSelectors_eq (lib : GoLib) (loadNodesFunc : LoadNodesFunc) (totalSources : Int)
    (nodesBySource : Nat → Option (List ParsedNode)) (sources : List ProxySource) :
    ∀ (i : Nat) (st : SourcesState) (acc : List GoString × Int),
      (∀ j, i ≤ j → st.nodesBySource j = none) →
      (∀ j, i ≤ j → nodesBySource j
        = (loadAllSources loadNodesFunc totalSources sources i st).nodesBySource j) →
      emitLocalSelectors lib nodesBySource sources i acc
        = (acc.1 ++ localSelectorFragments lib sources
              (sourceLoads loadNodesFunc totalSources sources i st.tagCounts),
           acc.2 + (localSelectorFragments lib sources
              (sourceLoads loadNodesFunc totalSources sources i st.tagCounts)).length) := by
  induction sources with
  | nil => intro i st acc _ _; simp [emitLocalSelectors, localSelectorFragments, sourceLoads]
  | cons proxySource rest ih =>
    intro i st acc hnone hagree
    have hi := hagree i (Nat.le_refl i)
    rw [loadAllSources_cons, loadAllSources_frame _ _ _ _ _ _ (Nat.lt_succ_self i)] at hi
    have hagree2 : ∀ j, i + 1 ≤ j → nodesBySource j
        = (loadAllSources loadNodesFunc totalSources (proxySource :: rest) i st).nodesBySource j :=
      fun j hj => hagree j (by omega)
    rw [loadAllSources_cons] at hagree2
    simp only [sourceLoads, localSelectorFragments]
    rcases hres : (loadNodesFunc proxySource st.tagCounts i totalSources).1 with err | nodes
    · -- the load returned an error
      simp only [hres] at hi hagree2
      rw [hnone i (Nat.le_refl i)] at hi
      have hstep : emitLocalSelectors lib nodesBySource (proxySource :: rest) i acc
          = emitLocalSelectors lib nodesBySource rest (i + 1) acc := by
        simp only [emitLocalSelectors, hi]
        split <;> rfl
      rw [hstep, ih (i + 1) { st with tagCounts := (loadNodesFunc proxySource st.tagCounts i totalSources).2 } acc
        (fun j hj => hnone j (by omega)) hagree2]
      simp
    · by_cases hlen : nodes.length > 0
      · -- the load returned nodes
        simp only [hres, hlen, if_true] at hi hagree2
        have hlen0 : ¬ nodes.length = 0 := by omega
        have hstep : emitLocalSelectors lib nodesBySource (proxySource :: rest) i acc
            = emitLocalSelectors lib nodesBySource rest (i + 1)
                (emitSelectors lib nodes proxySource.Outbounds acc) := by
          simp only [emitLocalSelectors, hi, hlen0, if_false]
          split
          · rename_i hout
            have : proxySource.Outbounds = [] := List.length_eq_zero.mp hout
            simp [this, emitSelectors]
          · rfl
        rw [hstep, ih (i + 1)
          { allNodes := st.allNodes ++ nodes
            nodesBySource := fun j => if j = i then some nodes else st.nodesBySource j
            tagCounts := (loadNodesFunc proxySource st.tagCounts i totalSources).2 } _
          (fun j hj => by
            have : j ≠ i := by omega
            simp [this, hnone j (by omega)]) hagree2]
        simp only [emitSelectors_eq, hlen0, if_false, List.append_assoc, List.length_append,
          Nat.cast_add]
        congr 1
        omega
      · -- the load returned no node
        simp only [hres, hlen, if_false] at hi hagree2
        rw [hnone i (Nat.le_refl i)] at hi
        have hlen0 : nodes.length = 0 := by omega
        have hstep : emitLocalSelectors lib nodesBySource (proxySource :: rest) i acc
            = emitLocalSelectors lib nodesBySource rest (i + 1) acc := by
          simp only [emitLocalSelectors, hi]
          split <;> rfl
        rw [hstep, ih (i + 1) { st with tagCounts := (loadNodesFunc proxySource st.tagCounts i totalSources).2 } acc
          (fun j hj => hnone j (by omega)) hagree2]
        simp [hlen0]

/-- The result of `GenerateOutboundsFromParserConfig` in terms of the nodes
obtained from each source. -/
theorem GenerateOutboundsFromParserConfig_eq (lib : GoLib) (parserConfig : ParserConfig)
    (tagCounts : TagCounts) (loadNodesFunc : LoadNodesFunc) :
    (GenerateOutboundsFromParserConfig lib parserConfig tagCounts loadNodesFunc).1
      = if (sourceLoads loadNodesFunc parserConfig.ParserConfig.Proxies.length
            parserConfig.ParserConfig.Proxies 0 tagCounts).flatten.length = 0 then
          .error (lit "no nodes parsed from any source")
        else
          .ok
            { OutboundsJSON :=
                (sourceLoads loadNodesFunc parserConfig.ParserConfig.Proxies.length
                    parserConfig.ParserConfig.Proxies 0 tagCounts).flatten.map (nodeFragment lib)
                  ++ localSelectorFragments lib parserConfig.ParserConfig.Proxies
                      (sourceLoads loadNodesFunc parserConfig.ParserConfig.Proxies.length
                        parserConfig.ParserConfig.Proxies 0 tagCounts)
                  ++ selectorFragments lib
                      (sourceLoads loadNodesFunc parserConfig.ParserConfig.Proxies.length
                        parserConfig.ParserConfig.Proxies 0 tagCounts).flatten
                      parserConfig.ParserConfig.Outbounds
              NodesCount :=
                ((sourceLoads loadNodesFunc parserConfig.ParserConfig.Proxies.length
                    parserConfig.ParserConfig.Proxies 0 tagCounts).flatten.length : Int)
              LocalSelectorsCount :=
                ((localSelectorFragments lib parserConfig.ParserConfig.Proxies
                    (sourceLoads loadNodesFunc parserConfig.ParserConfig.Proxies.length
                      parserConfig.ParserConfig.Proxies 0 tagCounts)).length : Int)
              GlobalSelectorsCount :=
                ((selectorFragments lib
                    (sourceLoads loadNodesFunc parserConfig.ParserConfig.Proxies.length
                      parserConfig.ParserConfig.Proxies 0 tagCounts).flatten
                    parserConfig.ParserConfig.Outbounds).length : Int) } := by
  have hall := loadAllSources_allNodes loadNodesFunc parserConfig.ParserConfig.Proxies.length
    parserConfig.ParserConfig.Proxies 0
    { allNodes := [], nodesBySource := fun _ => none, tagCounts := tagCounts }
  simp only [List.nil_append] at hall
  have hlocal := fun acc => emitLocalSelectors_eq lib loadNodesFunc
    parserConfig.ParserConfig.Proxies.length
    (loadAllSources loadNodesFunc parserConfig.ParserConfig.Proxies.length
      parserConfig.ParserConfig.Proxies 0
      { allNodes := [], nodesBySource := fun _ => none, tagCounts := tagCounts }).nodesBySource
    parserConfig.ParserConfig.Proxies 0
    { allNodes := [], nodesBySource := fun _ => none, tagCounts := tagCounts } acc
    (fun _ _ => rfl) (fun _ _ => rfl)
  simp only [GenerateOutboundsFromParserConfig, hall]
  split
  · rfl
  · simp only [hlocal, emitSelectors_eq, emitNodes_eq, List.nil_append, zero_add]

/-- C4. For every successful run of `GenerateOutboundsFromParserConfig`,
`OutboundsJSON` is the concatenation of: the fragments `GenerateNodeJSON`
returns for all loaded nodes, in source order then position order; then the
local selector fragments grouped by source in source order (within a source,
in declared order); then the global selector fragments in declared order. -/
theorem GenerateOutbounds_order (lib : GoLib) (parserConfig : ParserConfig)
    (tagCounts : TagCounts) (loadNodesFunc : LoadNodesFunc) (result : OutboundGenerationResult)
    (h : (GenerateOutboundsFromParserConfig lib parserConfig tagCounts loadNodesFunc).1
      = .ok result) :
    result.OutboundsJSON
      = (sourceLoads loadNodesFunc parserConfig.ParserConfig.Proxies.length
            parserConfig.ParserConfig.Proxies 0 tagCounts).flatten.map (nodeFragment lib)
        ++ localSelectorFragments lib parserConfig.ParserConfig.Proxies
            (sourceLoads loadNodesFunc parserConfig.ParserConfig.Proxies.length
              parserConfig.ParserConfig.Proxies 0 tagCounts)
        ++ selectorFragments lib
            (sourceLoads loadNodesFunc parserConfig.ParserConfig.Proxies.length
              parserConfig.ParserConfig.Proxies 0 tagCounts).flatten
            parserConfig.ParserConfig.Outbounds
    ∧ ∀ node, GenerateNodeJSON lib node = .ok (nodeFragment lib node) := by
  constructor
  · rw [GenerateOutboundsFromParserConfig_eq] at h
    split at h
    · exact absurd h (by simp)
    · injection h with h
      rw [← h]
  · intro node
    obtain ⟨nodeJSON, hnode⟩ := GenerateNodeJSON_ok lib node
    simp only [nodeFragment, hnode]

set_option maxRecDepth 1000000 in
/-- Witness for C4: the run `sampleRun` emits the nodes `a` and `b`, then the
local selector of the first source, then the global selector. -/
theorem GenerateOutbounds_order_witness :
    sampleRun = .ok
      { OutboundsJSON :=
          [lit "\t// a\n\t\x7b\"tag\":\"a\",\"type\":\"vless\",\"server\":\"example.org\",\"server_port\":443,\"uuid\":\"u\"\x7d,",
           lit "\t// b\n\t\x7b\"tag\":\"b\",\"type\":\"vless\",\"server\":\"example.org\",\"server_port\":443,\"uuid\":\"u\"\x7d,",
           lit "\t\x7b\"tag\":\"proxy\",\"type\":\"selector\",\"outbounds\":[\"direct\",\"a\"]\x7d,",
           lit "\t\x7b\"tag\":\"proxy\",\"type\":\"selector\",\"outbounds\":[\"a\",\"b\"]\x7d,"]
        NodesCount := 2
        LocalSelectorsCount := 1
        GlobalSelectorsCount := 1 }
    ∧ [lit "\t// a\n\t\x7b\"tag\":\"a\",\"type\":\"vless\",\"server\":\"example.org\",\"server_port\":443,\"uuid\":\"u\"\x7d,",
       lit "\t// b\n\t\x7b\"tag\":\"b\",\"type\":\"vless\",\"server\":\"example.org\",\"server_port\":443,\"uuid\":\"u\"\x7d,",
       lit "\t\x7b\"tag\":\"proxy\",\"type\":\"selector\",\"outbounds\":[\"direct\",\"a\"]\x7d,",
       lit "\t\x7b\"tag\":\"proxy\",\"type\":\"selector\",\"outbounds\":[\"a\",\"b\"]\x7d,"]
      = (sourceLoads (LoadNodesFromSource sampleDecoder) 2
            [sampleSource [lit "vless://a"] [sampleSelector [lit "direct"] [] []],
             sampleSource [lit "vless://b"] []] 0 TagCounts.empty).flatten.map
          (nodeFragment sampleLib)
        ++ localSelectorFragments sampleLib
            [sampleSource [lit "vless://a"] [sampleSelector [lit "direct"] [] []],
             sampleSource [lit "vless://b"] []]
            (sourceLoads (LoadNodesFromSource sampleDecoder) 2
              [sampleSource [lit "vless://a"] [sampleSelector [lit "direct"] [] []],
               sampleSource [lit "vless://b"] []] 0 TagCounts.empty)
        ++ selectorFragments sampleLib
            (sourceLoads (LoadNodesFromSource sampleDecoder) 2
              [sampleSource [lit "vless://a"] [sampleSelector [lit "direct"] [] []],
               sampleSource [lit "vless://b"] []] 0 TagCounts.empty).flatten
            [sampleSelector [] [] []] :=
  have hrun : sampleRun = .ok
      { OutboundsJSON :=
          [lit "\t// a\n\t\x7b\"tag\":\"a\",\"type\":\"vless\",\"server\":\"example.org\",\"server_port\":443,\"uuid\":\"u\"\x7d,",
           lit "\t// b\n\t\x7b\"tag\":\"b\",\"type\":\"vless\",\"server\":\"example.org\",\"server_port\":443,\"uuid\":\"u\"\x7d,",
           lit "\t\x7b\"tag\":\"proxy\",\"type\":\"selector\",\"outbounds\":[\"direct\",\"a\"]\x7d,",
           lit "\t\x7b\"tag\":\"proxy\",\"type\":\"selector\",\"outbounds\":[\"a\",\"b\"]\x7d,"]
        NodesCount := 2
        LocalSelectorsCount := 1
        GlobalSelectorsCount := 1 } := by decide
  ⟨hrun, (GenerateOutbounds_order sampleLib _ TagCounts.empty (LoadNodesFromSource sampleDecoder)
    _ hrun).1⟩

/-- C5. `GenerateOutboundsFromParserConfig` returns an error if and only if
the total number of nodes obtained from all sources (a source whose load
returned an error counting for none) is zero; the error then comes without
any result, also when a global selector declares `addOutbounds`. -/
theorem GenerateOutbounds_error_iff (lib : GoLib) (parserConfig : ParserConfig)
    (tagCounts : TagCounts) (loadNodesFunc : LoadNodesFunc) :
    ((∃ err, (GenerateOutboundsFromParserConfig lib parserConfig tagCounts loadNodesFunc).1
          = .error err)
        ↔ ((sourceLoads loadNodesFunc parserConfig.ParserConfig.Proxies.length
              parserConfig.ParserConfig.Proxies 0 tagCounts).map List.length).sum = 0)
    ∧ ((∀ result, (GenerateOutboundsFromParserConfig lib parserConfig tagCounts loadNodesFunc).1
          ≠ .ok result)
        ↔ ((sourceLoads loadNodesFunc parserConfig.ParserConfig.Proxies.length
              parserConfig.ParserConfig.Proxies 0 tagCounts).map List.length).sum = 0)
    ∧ (GenerateOutboundsFromParserConfig sampleLib
          (sampleConfig [sampleSource [] []] [sampleSelector [lit "direct"] [] []])
          TagCounts.empty (LoadNodesFromSource sampleDecoder)).1
        = .error (lit "no nodes parsed from any source") := by
  rw [GenerateOutboundsFromParserConfig_eq, List.length_flatten]
  refine ⟨?_, ?_, by decide⟩
  · split
    · simp [*]
    · simp [*]
  · split
    · simp [*]
    · simp [*]

/-! ### Source loader -/

theorem uniquifyNodes_append (a b : List ParsedNode) :
    ∀ m : TagCounts,
      uniquifyNodes (a ++ b) m
        = ((uniquifyNodes a m).1 ++ (uniquifyNodes b (uniquifyNodes a m).2).1,
           (uniquifyNodes b (uniquifyNodes a m).2).2) := by
  induction a with
  | nil => intro m; simp [uniquifyNodes]
  | cons node rest ih => intro m; simp [uniquifyNodes, ih]

theorem uniquifyNodes_length (nodes : List ParsedNode) :
    ∀ m : TagCounts, (uniquifyNodes nodes m).1.length = nodes.length := by
  induction nodes with
  | nil => intro m; rfl
  | cons node rest ih => intro m; simp [uniquifyNodes, ih]

theorem LoadState.accept_eq (proxySource : ProxySource) (st : LoadState) (node : ParsedNode) :
    (st.accept proxySource node).nodes
        = st.nodes ++ (uniquifyNodes [templatedNode proxySource st.nodesFromThisSource node]
            st.tagCounts).1
      ∧ (st.accept proxySource node).nodesFromThisSource = st.nodesFromThisSource + 1
      ∧ (st.accept proxySource node).tagCounts
        = (uniquifyNodes [templatedNode proxySource st.nodesFromThisSource node] st.tagCounts).2 :=
  ⟨rfl, rfl, rfl⟩

theorem LoadState.Extends.refl (st st2 : LoadState) (h1 : st2.nodes = st.nodes)
    (h2 : st2.nodesFromThisSource = st.nodesFromThisSource) (h3 : st2.tagCounts = st.tagCounts) :
    LoadState.Extends st st2 [] := by
  refine ⟨?_, ?_, ?_⟩ <;> simp [uniquifyNodes, h1, h2, h3]

theorem LoadState.Extends.cons (proxySource : ProxySource) (st st3 : LoadState)
    (node : ParsedNode) (decoded : List ParsedNode)
    (h : LoadState.Extends (st.accept proxySource node) st3 decoded) :
    LoadState.Extends st st3 (templatedNode proxySource st.nodesFromThisSource node :: decoded) := by
  obtain ⟨h1, h2, h3⟩ := h
  obtain ⟨a1, a2, a3⟩ := LoadState.accept_eq proxySource st node
  refine ⟨?_, ?_, ?_⟩
  · rw [h1, a1, a3]
    simp [uniquifyNodes, List.append_assoc]
  · rw [h2, a2]
    simp only [List.length_cons, Nat.cast_add, Nat.cast_one]
    omega
  · rw [h3, a3]
    simp [uniquifyNodes]

theorem loadSubscriptionLines_extends (dec : Decoder) (proxySource : ProxySource)
    (lines : List GoString) :
    ∀ st : LoadState,
      LoadState.Extends st (loadSubscriptionLines dec proxySource lines st)
        (decodedSubscriptionLines dec proxySource lines st.nodesFromThisSource) := by
  induction lines with
  | nil => intro st; exact LoadState.Extends.refl _ _ rfl rfl rfl
  | cons subLine rest ih =>
    intro st
    simp only [loadSubscriptionLines, decodedSubscriptionLines]
    split
    · exact ih st
    · split
      · exact ih { st with skippedDueToLimit := st.skippedDueToLimit + 1 }
      · split
        · rename_i hparse; simp only [hparse]; exact ih st
        · rename_i hparse; simp only [hparse]; exact ih st
        · rename_i node hparse
          simp only [hparse]
          exact LoadState.Extends.cons proxySource st _ node _ (ih (st.accept proxySource node))

theorem loadConnections_extends (dec : Decoder) (proxySource : ProxySource)
    (connections : List GoString) :
    ∀ st : LoadState,
      LoadState.Extends st (loadConnections dec proxySource connections st)
        (decodedConnections dec proxySource connections st.nodesFromThisSource) := by
  induction connections with
  | nil => intro st; exact LoadState.Extends.refl _ _ rfl rfl rfl
  | cons connection rest ih =>
    intro st
    simp only [loadConnections, decodedConnections]
    split
    · exact ih st
    · split
      · exact ih st
      · split
        · exact ih { st with skippedDueToLimit := st.skippedDueToLimit + 1 }
        · split
          · rename_i hparse; simp only [hparse]; exact ih st
          · rename_i hparse; simp only [hparse]; exact ih st
          · rename_i node hparse
            simp only [hparse]
            exact LoadState.Extends.cons proxySource st _ node _ (ih (st.accept proxySource node))

theorem loadSourceField_extends (dec : Decoder) (proxySource : ProxySource) (st : LoadState) :
    LoadState.Extends st (loadSourceField dec proxySource st)
      (decodedSourceField dec proxySource st.nodesFromThisSource) := by
  simp only [loadSourceField, decodedSourceField]
  split
  · split
    · split
      · exact LoadState.Extends.refl _ _ rfl rfl rfl
      · split
        · exact loadSubscriptionLines_extends dec proxySource _ st
        · exact LoadState.Extends.refl _ _ rfl rfl rfl
    · split
      · split
        · split
          · rename_i hparse; simp only [hparse]; exact LoadState.Extends.refl _ _ rfl rfl rfl
          · rename_i hparse; simp only [hparse]; exact LoadState.Extends.refl _ _ rfl rfl rfl
          · rename_i node hparse
            simp only [hparse]
            exact LoadState.Extends.cons proxySource st _ node []
              (LoadState.Extends.refl _ _ rfl rfl rfl)
        · exact LoadState.Extends.refl _ _ rfl rfl rfl
      · exact LoadState.Extends.refl _ _ rfl rfl rfl
  · exact LoadState.Extends.refl _ _ rfl rfl rfl

/-- `LoadNodesFromSource` never returns an error; it returns the nodes the
source decodes to, their tags made unique in order against the registry, and
leaves the registry these calls produce. -/
theorem LoadNodesFromSource_eq (dec : Decoder) (proxySource : ProxySource)
    (tagCounts : TagCounts) (subscriptionIndex totalSubscriptions : Int) :
    LoadNodesFromSource dec proxySource tagCounts subscriptionIndex totalSubscriptions
      = (.ok (uniquifyNodes (decodedNodes dec proxySource) tagCounts).1,
         (uniquifyNodes (decodedNodes dec proxySource) tagCounts).2) := by
  have hsrc := loadSourceField_extends dec proxySource
    { nodes := [], nodesFromThisSource := 0, skippedDueToLimit := 0, tagCounts := tagCounts }
  have hconn := loadConnections_extends dec proxySource proxySource.Connections
    (loadSourceField dec proxySource
      { nodes := [], nodesFromThisSource := 0, skippedDueToLimit := 0, tagCounts := tagCounts })
  obtain ⟨s1, s2, s3⟩ := hsrc
  obtain ⟨c1, c2, c3⟩ := hconn
  simp only [List.nil_append, zero_add] at s1 s2
  rw [s2] at c1 c2 c3
  simp only [LoadNodesFromSource, decodedNodes, uniquifyNodes_append, c1, c3, s1, s3]

theorem ParsedNode.withTag_self (node : ParsedNode) : { node with Tag := node.Tag } = node := by
  cases node; rfl

/-- A source that, loaded alone against a fresh registry, yields exactly one
node decodes to exactly that node. -/
theorem decodedNodes_of_single (dec : Decoder) (proxySource : ProxySource) (node : ParsedNode)
    (i total : Int)
    (h : (LoadNodesFromSource dec proxySource TagCounts.empty i total).1 = .ok [node]) :
    decodedNodes dec proxySource = [node] := by
  rw [LoadNodesFromSource_eq] at h
  injection h with h
  have hlen := uniquifyNodes_length (decodedNodes dec proxySource) TagCounts.empty
  rw [h] at hlen
  match hd : decodedNodes dec proxySource, hlen with
  | [raw], _ =>
    rw [hd] at h
    simp only [uniquifyNodes, MakeTagUnique_first raw.Tag TagCounts.empty (le_refl _),
      ParsedNode.withTag_self, List.cons.injEq, and_true] at h
    rw [h]

/-- C9. When `GenerateOutboundsFromParserConfig` is run with a fresh registry
and `LoadNodesFromSource` over two sources that each, taken alone, yield one
node with the same tag `t` (two sources without prefix, postfix or mask that
each decode one node tagged `x`), the node of the first source keeps the tag
`t` and the node of the second source gets the tag `t-2`: the registry is
shared by the sources of the run and the tags are assigned in source order. -/
theorem GenerateOutbounds_shared_registry (lib : GoLib) (dec : Decoder)
    (parserConfig : ParserConfig) (source1 source2 : ProxySource) (node1 node2 : ParsedNode)
    (t : GoString)
    (hproxies : parserConfig.ParserConfig.Proxies = [source1, source2])
    (h1 : (LoadNodesFromSource dec source1 TagCounts.empty 0 2).1 = .ok [node1])
    (ht1 : node1.Tag = t)
    (h2 : (LoadNodesFromSource dec source2 TagCounts.empty 1 2).1 = .ok [node2])
    (ht2 : node2.Tag = t) :
    sourceLoads (LoadNodesFromSource dec) 2 [source1, source2] 0 TagCounts.empty
      = [[node1], [{ node2 with Tag := t ++ lit "-2" }]]
    ∧ (GenerateOutboundsFromParserConfig lib parserConfig TagCounts.empty
        (LoadNodesFromSource dec)).1
      = .ok
          { OutboundsJSON :=
              [nodeFragment lib node1, nodeFragment lib { node2 with Tag := t ++ lit "-2" }]
                ++ localSelectorFragments lib [source1, source2]
                    [[node1], [{ node2 with Tag := t ++ lit "-2" }]]
                ++ selectorFragments lib [node1, { node2 with Tag := t ++ lit "-2" }]
                    parserConfig.ParserConfig.Outbounds
            NodesCount := 2
            LocalSelectorsCount :=
              ((localSelectorFragments lib [source1, source2]
                [[node1], [{ node2 with Tag := t ++ lit "-2" }]]).length : Int)
            GlobalSelectorsCount :=
              ((selectorFragments lib [node1, { node2 with Tag := t ++ lit "-2" }]
                parserConfig.ParserConfig.Outbounds).length : Int) } := by
  have hd1 := decodedNodes_of_single dec source1 node1 0 2 h1
  have hd2 := decodedNodes_of_single dec source2 node2 1 2 h2
  have hfirst := MakeTagUnique_first t TagCounts.empty (le_refl _)
  have hcount : (TagCounts.empty.set t 1) t = 1 := TagCounts.set_same _ _ _
  have hsecond := MakeTagUnique_again t (TagCounts.empty.set t 1) (by rw [hcount]; decide)
  rw [hcount] at hsecond
  have hfmt : formatInt (1 + 1) = lit "2" := by decide
  have hloads : sourceLoads (LoadNodesFromSource dec) 2 [source1, source2] 0 TagCounts.empty
      = [[node1], [{ node2 with Tag := t ++ lit "-2" }]] := by
    simp only [sourceLoads, LoadNodesFromSource_eq, hd1, hd2, uniquifyNodes, ht1, ht2, hfirst,
      hsecond, hfmt, List.append_assoc]
    rw [← ht1, ParsedNode.withTag_self]
    have : lit "-" ++ lit "2" = lit "-2" := by decide
    rw [this]
  refine ⟨hloads, ?_⟩
  rw [GenerateOutboundsFromParserConfig_eq, hproxies]
  simp only [List.length_cons, List.length_nil, Nat.cast_ofNat, zero_add, Nat.reduceAdd]
  rw [hloads]
  rfl

/-- Witness for C9: two sources without tag template whose single direct link
decodes to a node tagged `x`. -/
theorem GenerateOutbounds_shared_registry_witness :
    sourceLoads (LoadNodesFromSource sampleDecoder) 2
        [sampleSource [lit "vless://x"] [], sampleSource [lit "vless://x"] []] 0 TagCounts.empty
      = [[sampleNode (lit "x")], [{ sampleNode (lit "x") with Tag := lit "x" ++ lit "-2" }]]
    ∧ (GenerateOutboundsFromParserConfig sampleLib
        (sampleConfig [sampleSource [lit "vless://x"] [], sampleSource [lit "vless://x"] []] [])
        TagCounts.empty (LoadNodesFromSource sampleDecoder)).1
      = .ok
          { OutboundsJSON :=
              [lit "\t// x\n\t\x7b\"tag\":\"x\",\"type\":\"vless\",\"server\":\"example.org\",\"server_port\":443,\"uuid\":\"u\"\x7d,",
               lit "\t// x\n\t\x7b\"tag\":\"x-2\",\"type\":\"vless\",\"server\":\"example.org\",\"server_port\":443,\"uuid\":\"u\"\x7d,"]
            NodesCount := 2
            LocalSelectorsCount := 0
            GlobalSelectorsCount := 0 } :=
  ⟨(GenerateOutbounds_shared_registry sampleLib sampleDecoder
      (sampleConfig [sampleSource [lit "vless://x"] [], sampleSource [lit "vless://x"] []] [])
      (sampleSource [lit "vless://x"] []) (sampleSource [lit "vless://x"] [])
      (sampleNode (lit "x")) (sampleNode (lit "x")) (lit "x") rfl (by rfl) rfl (by rfl) rfl).1,
   by set_option maxRecDepth 1000000 in decide⟩

/-! ### Tag templates: prefix, postfix and mask -/

theorem ReplaceAll_nil (old new : GoString) (hold : old ≠ []) : ReplaceAll [] old new = [] := by
  simp only [ReplaceAll, if_neg hold]
  split <;> rfl

theorem replaceTagVariables_nil (node : ParsedNode) (nodeNum : Int) :
    replaceTagVariables [] node nodeNum = [] := by
  simp only [replaceTagVariables]
  rw [ReplaceAll_nil _ _ (by decide), ReplaceAll_nil _ _ (by decide),
    ReplaceAll_nil _ _ (by decide), ReplaceAll_nil _ _ (by decide),
    ReplaceAll_nil _ _ (by decide), ReplaceAll_nil _ _ (by decide),
    ReplaceAll_nil _ _ (by decide), ReplaceAll_nil _ _ (by decide)]

/-- C11. For every node, prefix, postfix, mask and sequence number: a
non-empty mask makes `applyTagPrefixPostfix` return the expansion of the mask
alone, whatever the prefix and the postfix; with an empty mask it returns the
expansion of the prefix, the original tag and the expansion of the postfix,
each expansion being made against the node with its original tag, and an
empty prefix or postfix contributing nothing. -/
theorem applyTagPrefixPostfix_spec (node : ParsedNode) (tagPrefix tagPostfix : GoString)
    (nodeNum : Int) :
    (∀ (b : UInt8) (mask otherPrefix otherPostfix : GoString),
        applyTagPrefixPostfix node tagPrefix tagPostfix (b :: mask) nodeNum
            = replaceTagVariables (b :: mask) node nodeNum
          ∧ applyTagPrefixPostfix node otherPrefix otherPostfix (b :: mask) nodeNum
            = applyTagPrefixPostfix node tagPrefix tagPostfix (b :: mask) nodeNum)
      ∧ applyTagPrefixPostfix node tagPrefix tagPostfix [] nodeNum
        = replaceTagVariables tagPrefix node nodeNum ++ node.Tag
            ++ replaceTagVariables tagPostfix node nodeNum
      ∧ applyTagPrefixPostfix node [] [] [] nodeNum = node.Tag
      ∧ applyTagPrefixPostfix node tagPrefix [] [] nodeNum
        = replaceTagVariables tagPrefix node nodeNum ++ node.Tag
      ∧ applyTagPrefixPostfix node [] tagPostfix [] nodeNum
        = node.Tag ++ replaceTagVariables tagPostfix node nodeNum := by
  have hgen : ∀ p q : GoString, applyTagPrefixPostfix node p q [] nodeNum
      = replaceTagVariables p node nodeNum ++ node.Tag ++ replaceTagVariables q node nodeNum := by
    intro p q
    simp only [applyTagPrefixPostfix, ne_eq, not_true_eq_false, if_false]
    by_cases hp : p = [] <;> by_cases hq : q = [] <;>
      simp [hp, hq, replaceTagVariables_nil]
  refine ⟨fun b mask p2 q2 => ⟨?_, ?_⟩, hgen _ _, ?_, ?_, ?_⟩
  · simp [applyTagPrefixPostfix]
  · simp [applyTagPrefixPostfix]
  · rw [hgen]; simp [replaceTagVariables_nil]
  · rw [hgen]; simp [replaceTagVariables_nil]
  · rw [hgen]; simp [replaceTagVariables_nil]
/-! ### Filter matcher and filter engine -/

theorem appendMatching_eq (keep : ParsedNode → Bool) (nodes : List ParsedNode) :
    ∀ filtered : List ParsedNode,
      appendMatching keep nodes filtered = filtered ++ nodes.filter keep := by
  induction nodes with
  | nil => intro filtered; simp [appendMatching]
  | cons node rest ih =>
    intro filtered
    by_cases h : keep node = true
    · simp [appendMatching, h, ih]
    · simp [appendMatching, h, ih]

theorem matchesFilter_convert (lib : GoLib) (node : ParsedNode) (filterMap : DynMap) :
    matchesFilter lib node (convertFilterToStringMap filterMap)
      = satisfiesObject lib node filterMap := by
  induction filterMap with
  | nil => rfl
  | cons kv rest ih =>
    obtain ⟨key, value⟩ := kv
    cases value <;> first
      | (show matchesFilter lib node (convertFilterToStringMap rest)
            = (true && satisfiesObject lib node rest)
         rw [ih]; rfl)
      | (show (matchesPattern lib _ _ && matchesFilter lib node (convertFilterToStringMap rest))
            = (matchesPattern lib _ _ && satisfiesObject lib node rest)
         rw [ih])

theorem matchesSomeMember_eq (lib : GoLib) (node : ParsedNode) (filterArray : List Value) :
    matchesSomeMember lib node filterArray = satisfiesArray lib node filterArray := by
  induction filterArray with
  | nil => rfl
  | cons member rest ih =>
    simp only [satisfiesArray, List.any_cons] at ih ⊢
    cases member <;> simp [matchesSomeMember, ih, matchesFilter_convert]

theorem filterNodesForSelector_object (lib : GoLib) (allNodes : List ParsedNode)
    (filterMap : DynMap) :
    filterNodesForSelector lib allNodes (.object filterMap)
      = allNodes.filter (fun node => satisfiesObject lib node filterMap) := by
  cases filterMap with
  | nil => simp [filterNodesForSelector, satisfiesObject]
  | cons kv rest =>
    simp only [filterNodesForSelector, List.length_cons, Nat.add_one_ne_zero, if_false,
      appendMatching_eq, List.nil_append, matchesFilter_convert]

theorem filterNodesForSelector_array (lib : GoLib) (allNodes : List ParsedNode)
    (filterArray : List Value) :
    filterNodesForSelector lib allNodes (.array filterArray)
      = allNodes.filter (fun node => satisfiesArray lib node filterArray) := by
  simp only [filterNodesForSelector, appendMatching_eq, List.nil_append, matchesSomeMember_eq]

theorem satisfiesObject_strings (lib : GoLib) (node : ParsedNode) (filterMap : DynMap) :
    satisfiesObject lib node (filterMap.filter isStringEntry)
      = satisfiesObject lib node filterMap := by
  induction filterMap with
  | nil => rfl
  | cons kv rest ih =>
    obtain ⟨key, value⟩ := kv
    cases value <;> first
      | (show satisfiesObject lib node (rest.filter isStringEntry)
            = (true && satisfiesObject lib node rest)
         rw [ih]; rfl)
      | (show (matchesPattern lib _ _ && satisfiesObject lib node (rest.filter isStringEntry))
            = (matchesPattern lib _ _ && satisfiesObject lib node rest)
         rw [ih])

/-- C18. For every node list, `filterNodesForSelector` with an absent (nil)
filter and with an empty filter object both return the whole input list
unchanged, so the two are equivalent. -/
theorem filterNodesForSelector_absent_or_empty (lib : GoLib) (allNodes : List ParsedNode) :
    filterNodesForSelector lib allNodes .null = allNodes
      ∧ filterNodesForSelector lib allNodes (.object []) = allNodes
      ∧ filterNodesForSelector lib allNodes .null
        = filterNodesForSelector lib allNodes (.object []) :=
  ⟨rfl, rfl, rfl⟩

/-- C19. For every node list and every filter that is an array,
`filterNodesForSelector` returns exactly the input nodes that satisfy at least
one object member of the array (OR of AND-groups), in input order and each
input position at most once: the result is the input list filtered by that
condition, so a node that satisfies several members appears once, not once
per member. -/
theorem filterNodesForSelector_array_spec (lib : GoLib) (allNodes : List ParsedNode)
    (filterArray : List Value) :
    filterNodesForSelector lib allNodes (.array filterArray)
        = allNodes.filter (fun node => satisfiesArray lib node filterArray)
      ∧ (filterNodesForSelector lib allNodes (.array filterArray)).Sublist allNodes
      ∧ (∀ node, node ∈ filterNodesForSelector lib allNodes (.array filterArray)
          ↔ node ∈ allNodes ∧ ∃ filterMap, Value.object filterMap ∈ filterArray
              ∧ satisfiesObject lib node filterMap = true)
      ∧ filterNodesForSelector sampleLib [sampleNode (lit "a"), sampleNode (lit "b")]
          (.array [.object [(lit "tag", .str (lit "a"))],
            .object [(lit "scheme", .str (lit "vless")), (lit "tag", .str (lit "!b"))]])
        = [sampleNode (lit "a")] := by
  refine ⟨filterNodesForSelector_array lib allNodes filterArray, ?_, ?_, by rfl⟩
  · rw [filterNodesForSelector_array]
    exact List.filter_sublist _
  · intro node
    rw [filterNodesForSelector_array, List.mem_filter]
    apply and_congr_right
    intro _
    simp only [satisfiesArray, List.any_eq_true]
    constructor
    · rintro ⟨member, hmem, hsat⟩
      cases member <;> simp at hsat
      exact ⟨_, hmem, hsat⟩
    · rintro ⟨filterMap, hmem, hsat⟩
      exact ⟨_, hmem, hsat⟩

/-- C20. For every node list and every filter object (non-empty or not),
`filterNodesForSelector` returns, in input order, exactly the nodes for which
every string-valued entry `(key, pattern)` satisfies
`matchesPattern(getNodeValue(node, key), pattern)`; the entries whose value is
not a string have no influence on the result. -/
theorem filterNodesForSelector_object_spec (lib : GoLib) (allNodes : List ParsedNode)
    (filterMap : DynMap) :
    filterNodesForSelector lib allNodes (.object filterMap)
        = allNodes.filter (fun node => satisfiesObject lib node filterMap)
      ∧ (∀ node, satisfiesObject lib node filterMap = true
          ↔ ∀ key pattern, (key, Value.str pattern) ∈ filterMap →
              matchesPattern lib (getNodeValue node key) pattern = true)
      ∧ filterNodesForSelector lib allNodes (.object (filterMap.filter isStringEntry))
        = filterNodesForSelector lib allNodes (.object filterMap) := by
  refine ⟨filterNodesForSelector_object lib allNodes filterMap, ?_, ?_⟩
  · intro node
    simp only [satisfiesObject, List.all_eq_true]
    constructor
    · intro h key pattern hmem
      exact h (key, .str pattern) hmem
    · intro h kv hmem
      obtain ⟨key, value⟩ := kv
      cases value <;> first | rfl | exact h _ _ hmem
  · rw [filterNodesForSelector_object, filterNodesForSelector_object]
    simp only [satisfiesObject_strings]

theorem HasPrefix_cons (b c : UInt8) (s p : GoString) :
    HasPrefix (b :: s) (c :: p) = (decide (c = b) && HasPrefix s p) := by
  simp only [HasPrefix, List.isPrefixOf]
  by_cases h : c = b <;> simp [h]

theorem HasSuffix_cons_of_ne (b c : UInt8) (s p : GoString) (h : c ≠ b) :
    HasSuffix (b :: s) (c :: p) = HasSuffix s (c :: p) := by
  simp only [HasSuffix]
  rw [Bool.eq_iff_iff, List.isSuffixOf_iff_suffix, List.isSuffixOf_iff_suffix,
    List.suffix_cons_iff]
  constructor
  · rintro (heq | hsuf)
    · injection heq with h1 _
      exact absurd h1 h
    · exact hsuf
  · exact Or.inr

theorem ne_cons_self (b : UInt8) (v : GoString) : v ≠ b :: v := by
  intro h
  have := congrArg List.length h
  simp at this

/-- The behaviour of `matchesPattern` on a pattern that has neither regex
form: a pattern that starts with `!` followed by something else than `/` is a
negated literal, any other one is compared as it is. -/
theorem matchesPattern_literal (lib : GoLib) (value pattern : GoString)
    (h : isRegexForm pattern = false) :
    matchesPattern lib value pattern
      = if HasPrefix pattern (lit "!") && !HasPrefix pattern (lit "!/") then
          value != pattern.drop 1
        else value == pattern := by
  simp only [isRegexForm, Bool.or_eq_false_iff] at h
  simp only [matchesPattern, h.1, h.2, Bool.false_eq_true, if_false, TrimPrefix]
  split
  · rename_i h1
    simp only [Bool.and_eq_true] at h1
    have : (lit "!").length = 1 := by decide
    simp [h1.1, this]
  · rfl

/-- C15 (as amended). For every node and every attribute key, with `v` the
node's value for that key: when `v` has neither the regex form `/.../i` nor
the negated regex form `!/.../i`, `matchesPattern(v, v)` is true and
`matchesPattern(v, "!" ++ v)` is false. -/
theorem matchesPattern_self (lib : GoLib) (node : ParsedNode) (key : GoString)
    (h : isRegexForm (getNodeValue node key) = false) :
    matchesPattern lib (getNodeValue node key) (getNodeValue node key) = true
      ∧ matchesPattern lib (getNodeValue node key) (lit "!" ++ getNodeValue node key) = false := by
  generalize getNodeValue node key = v at h
  have hbang : lit "!" = [0x21] := by decide
  have hbs : lit "!/" = [0x21, 0x2F] := by decide
  have hs : lit "/" = [0x2F] := by decide
  have hsi : lit "/i" = [0x2F, 0x69] := by decide
  constructor
  · rw [matchesPattern_literal lib v v h]
    split
    · rename_i h1
      cases v with
      | nil => simp [HasPrefix, hbang] at h1
      | cons b t =>
        simp only [List.drop_succ_cons, List.drop_zero, bne_iff_ne, ne_eq]
        exact fun heq => ne_cons_self b t heq.symm
    · simp
  · have hreg : isRegexForm (lit "!" ++ v) = false := by
      simp only [isRegexForm, Bool.or_eq_false_iff, Bool.and_eq_false_iff] at h ⊢
      rw [hbang, hs, hbs, hsi] at *
      simp only [List.singleton_append, HasPrefix_cons] at *
      refine ⟨Or.inl (by simp), ?_⟩
      rcases h.1 with h1 | h1
      · left
        simpa using h1
      · right
        cases v with
        | nil => rfl
        | cons c t =>
          rw [HasSuffix_cons_of_ne _ _ _ _ (by decide)]
          exact h1
    rw [matchesPattern_literal lib v _ hreg]
    rw [hbang, hbs] at *
    simp only [List.singleton_append, HasPrefix_cons, List.drop_succ_cons, List.drop_zero]
    split
    · simp
    · simp only [beq_eq_false_iff_ne, ne_eq]
      exact ne_cons_self _ v

/-- Witness for C15: the tag `x` of a sample node. -/
theorem matchesPattern_self_witness :
    matchesPattern sampleLib (getNodeValue (sampleNode (lit "x")) (lit "tag"))
        (getNodeValue (sampleNode (lit "x")) (lit "tag")) = true
      ∧ matchesPattern sampleLib (getNodeValue (sampleNode (lit "x")) (lit "tag"))
        (lit "!" ++ getNodeValue (sampleNode (lit "x")) (lit "tag")) = false :=
  matchesPattern_self sampleLib (sampleNode (lit "x")) (lit "tag") (by decide)

/-- C15 (as stated, refuted). A node whose tag is `/(/i` has the regex form:
used as a pattern, the tag is compiled as the regular expression `(`, which
Go rejects, so the node does not match the pattern made of its own tag. -/
theorem matchesPattern_self_regex_form :
    matchesPattern sampleLib (getNodeValue (sampleNode (lit "/(/i")) (lit "tag"))
        (getNodeValue (sampleNode (lit "/(/i")) (lit "tag")) = false
      ∧ ∀ lib : GoLib, lib.regexpCompile (lit "(?i)(") = none →
          matchesPattern lib (getNodeValue (sampleNode (lit "/(/i")) (lit "tag"))
            (getNodeValue (sampleNode (lit "/(/i")) (lit "tag")) = false := by
  refine ⟨by decide, fun lib hlib => ?_⟩
  have hv : getNodeValue (sampleNode (lit "/(/i")) (lit "tag") = lit "/(/i" := by decide
  have h1 : (HasPrefix (lit "/(/i") (lit "!") && !HasPrefix (lit "/(/i") (lit "!/")) = false := by
    decide
  have h2 : (HasPrefix (lit "/(/i") (lit "!/") && HasSuffix (lit "/(/i") (lit "/i")) = false := by
    decide
  have h3 : (HasPrefix (lit "/(/i") (lit "/") && HasSuffix (lit "/(/i") (lit "/i")) = true := by
    decide
  have h4 : lit "(?i)" ++ TrimSuffix (TrimPrefix (lit "/(/i") (lit "/")) (lit "/i")
      = lit "(?i)(" := by decide
  rw [hv]
  simp only [matchesPattern, h1, h2, h3, h4, hlib, Bool.false_eq_true, if_false, if_true]

/-- C16 (violated by the code). The pattern `!/abc` starts with `!` and has
not the negated regex form, yet `matchesPattern` does not treat it as the
negation of the literal `/abc`: no test of the function takes it, and it is
compared as it is, so the value `x`, which differs from `/abc`, is rejected,
and only the value `!/abc` is accepted. -/
theorem matchesPattern_bang_slash :
    lit "x" ≠ lit "/abc"
      ∧ ∀ lib : GoLib,
          matchesPattern lib (lit "x") (lit "!/abc") = false
          ∧ matchesPattern lib (lit "!/abc") (lit "!/abc") = true := by
  refine ⟨by decide, fun lib => ⟨?_, ?_⟩⟩
  · rw [matchesPattern_literal lib _ _ (by decide)]
    decide
  · rw [matchesPattern_literal lib _ _ (by decide)]
    decide

theorem TrimSuffix_append (r s : GoString) : TrimSuffix (r ++ s) s = r := by
  have h : HasSuffix (r ++ s) s = true := by
    simp only [HasSuffix, List.isSuffixOf_iff_suffix]
    exact List.suffix_append r s
  simp [TrimSuffix, h]

theorem TrimPrefix_append (p r : GoString) : TrimPrefix (p ++ r) p = r := by
  have h : HasPrefix (p ++ r) p = true := by
    simp only [HasPrefix, List.isPrefixOf_iff_prefix]
    exact List.prefix_append p r
  simp [TrimPrefix, h]

/-- C17. For every value and every pattern of the form `/r/i` or `!/r/i`
whose body `r` does not compile (as `(?i)r`), `matchesPattern` returns false,
for the negated form as well; consequently a filter object that holds such a
pattern selects no node. -/
theorem matchesPattern_invalid_regex (lib : GoLib) (r : GoString)
    (h : lib.regexpCompile (lit "(?i)" ++ r) = none) :
    (∀ value, matchesPattern lib value (lit "/" ++ r ++ lit "/i") = false
        ∧ matchesPattern lib value (lit "!/" ++ r ++ lit "/i") = false)
      ∧ ∀ (allNodes : List ParsedNode) (filterMap : DynMap) (key : GoString),
          ((key, Value.str (lit "/" ++ r ++ lit "/i")) ∈ filterMap
            ∨ (key, Value.str (lit "!/" ++ r ++ lit "/i")) ∈ filterMap) →
          filterNodesForSelector lib allNodes (.object filterMap) = [] := by
  have hs : lit "/" = [0x2F] := by decide
  have hbang : lit "!" = [0x21] := by decide
  have hbs : lit "!/" = [0x21, 0x2F] := by decide
  have hsuf : ∀ p : GoString, HasSuffix (p ++ r ++ lit "/i") (lit "/i") = true := by
    intro p
    simp only [HasSuffix, List.isSuffixOf_iff_suffix]
    exact List.suffix_append _ _
  have hpos : ∀ value, matchesPattern lib value (lit "/" ++ r ++ lit "/i") = false := by
    intro value
    have h1 : HasPrefix (lit "/" ++ r ++ lit "/i") (lit "!") = false := by
      rw [hs, hbang]; simp [HasPrefix_cons]
    have h2 : HasPrefix (lit "/" ++ r ++ lit "/i") (lit "!/") = false := by
      rw [hs, hbs]; simp [HasPrefix_cons]
    have h3 : HasPrefix (lit "/" ++ r ++ lit "/i") (lit "/") = true := by
      rw [List.append_assoc]
      simp only [HasPrefix, List.isPrefixOf_iff_prefix]
      exact List.prefix_append _ _
    have h4 : TrimSuffix (TrimPrefix (lit "/" ++ r ++ lit "/i") (lit "/")) (lit "/i") = r := by
      rw [List.append_assoc, TrimPrefix_append, TrimSuffix_append]
    simp only [matchesPattern, h1, h2, h3, hsuf, h4, h, Bool.false_and, Bool.and_self,
      Bool.false_eq_true, if_false, if_true]
  have hneg : ∀ value, matchesPattern lib value (lit "!/" ++ r ++ lit "/i") = false := by
    intro value
    have h1 : HasPrefix (lit "!/" ++ r ++ lit "/i") (lit "!/") = true := by
      rw [List.append_assoc]
      simp only [HasPrefix, List.isPrefixOf_iff_prefix]
      exact List.prefix_append _ _
    have h0 : HasPrefix (lit "!/" ++ r ++ lit "/i") (lit "!") = true := by
      rw [hbs, hbang]; simp [HasPrefix_cons, HasPrefix]
    have h4 : TrimSuffix (TrimPrefix (lit "!/" ++ r ++ lit "/i") (lit "!/")) (lit "/i") = r := by
      rw [List.append_assoc, TrimPrefix_append, TrimSuffix_append]
    simp only [matchesPattern, h0, h1, hsuf, h4, h, Bool.not_true, Bool.and_false, Bool.and_self,
      Bool.false_eq_true, if_false, if_true]
  refine ⟨fun value => ⟨hpos value, hneg value⟩, ?_⟩
  intro allNodes filterMap key hmem
  rw [filterNodesForSelector_object, List.filter_eq_nil_iff]
  intro node _
  simp only [satisfiesObject, List.all_eq_true, not_forall, Bool.not_eq_true]
  rcases hmem with hmem | hmem
  · exact ⟨_, hmem, hpos _⟩
  · exact ⟨_, hmem, hneg _⟩

/-- Witness for C17: the body `(` with a library that compiles no
expression. -/
theorem matchesPattern_invalid_regex_witness :
    (∀ value, matchesPattern sampleLib value (lit "/" ++ lit "(" ++ lit "/i") = false
        ∧ matchesPattern sampleLib value (lit "!/" ++ lit "(" ++ lit "/i") = false)
      ∧ ∀ (allNodes : List ParsedNode) (filterMap : DynMap) (key : GoString),
          ((key, Value.str (lit "/" ++ lit "(" ++ lit "/i")) ∈ filterMap
            ∨ (key, Value.str (lit "!/" ++ lit "(" ++ lit "/i")) ∈ filterMap) →
          filterNodesForSelector sampleLib allNodes (.object filterMap) = [] :=
  matchesPattern_invalid_regex sampleLib (lit "(") rfl
/-! ### Source loader: candidates and the cap -/

theorem numberNodes_length (proxySource : ProxySource) (nodes : List ParsedNode) :
    ∀ k, (numberNodes proxySource k nodes).length = nodes.length := by
  induction nodes with
  | nil => intro k; rfl
  | cons node rest ih => intro k; simp [numberNodes, ih]

theorem numberNodes_append (proxySource : ProxySource) (a b : List ParsedNode) :
    ∀ k, numberNodes proxySource k (a ++ b)
      = numberNodes proxySource k a ++ numberNodes proxySource (k + a.length) b := by
  induction a with
  | nil => intro k; simp [numberNodes]
  | cons node rest ih =>
    intro k
    have h := ih (k + 1)
    rw [show k + 1 + rest.length = k + (rest.length + 1) by omega] at h
    simp only [List.cons_append, numberNodes, List.length_cons, List.cons.injEq, true_and]
    exact h

theorem decodedSubscriptionLines_eq (dec : Decoder) (proxySource : ProxySource)
    (lines : List GoString) :
    ∀ k : Nat, decodedSubscriptionLines dec proxySource lines (k : Int)
      = numberNodes proxySource k
          ((((lines.map TrimSpace).filter (fun subLine => subLine ≠ [])).filterMap
            (decodeCandidate dec proxySource)).take (500 - k)) := by
  induction lines with
  | nil => intro k; simp [decodedSubscriptionLines, numberNodes]
  | cons subLine rest ih =>
    intro k
    simp only [decodedSubscriptionLines, List.map_cons, List.filter_cons]
    by_cases hblank : TrimSpace subLine = []
    · simp only [hblank, if_true, ne_eq, not_true_eq_false, decide_False, Bool.false_eq_true,
        if_false]
      exact ih k
    · simp only [hblank, if_false, ne_eq, not_false_eq_true, decide_True, if_true,
        List.filterMap_cons]
      by_cases hcap : (k : Int) ≥ MaxNodesPerSubscription
      · have hk : 500 - k = 0 := by
          simp only [MaxNodesPerSubscription] at hcap
          omega
        simp only [hcap, if_true]
        rw [ih k, hk]
        simp [numberNodes]
      · simp only [hcap, if_false]
        have hk : 500 - k = (500 - (k + 1)) + 1 := by
          simp only [MaxNodesPerSubscription] at hcap
          omega
        rcases hparse : dec.ParseNode (TrimSpace subLine) proxySource.Skip with err | none | node
        · simp only [decodeCandidate, hparse]
          exact ih k
        · simp only [decodeCandidate, hparse]
          exact ih k
        · simp only [decodeCandidate, hparse]
          rw [hk, List.take_succ_cons, numberNodes]
          have := ih (k + 1)
          rw [Nat.cast_add, Nat.cast_one] at this
          rw [this]

theorem decodedConnections_eq (dec : Decoder) (proxySource : ProxySource)
    (connections : List GoString) :
    ∀ k : Nat, decodedConnections dec proxySource connections (k : Int)
      = numberNodes proxySource k
          ((((connections.map TrimSpace).filter
              (fun connection => connection ≠ [] ∧ dec.IsDirectLink connection)).filterMap
            (decodeCandidate dec proxySource)).take (500 - k)) := by
  induction connections with
  | nil => intro k; simp [decodedConnections, numberNodes]
  | cons connection rest ih =>
    intro k
    simp only [decodedConnections, List.map_cons, List.filter_cons]
    by_cases hblank : TrimSpace connection = []
    · simp only [hblank, if_true, ne_eq, not_true_eq_false, false_and, decide_False,
        Bool.false_eq_true, if_false]
      exact ih k
    · by_cases hlink : dec.IsDirectLink (TrimSpace connection) = true
      · simp only [hblank, if_false, hlink, Bool.not_true, Bool.false_eq_true, ne_eq,
          not_false_eq_true, and_self, decide_True, if_true, List.filterMap_cons]
        by_cases hcap : (k : Int) ≥ MaxNodesPerSubscription
        · have hk : 500 - k = 0 := by
            simp only [MaxNodesPerSubscription] at hcap
            omega
          simp only [hcap, if_true]
          rw [ih k, hk]
          simp [numberNodes]
        · simp only [hcap, if_false]
          have hk : 500 - k = (500 - (k + 1)) + 1 := by
            simp only [MaxNodesPerSubscription] at hcap
            omega
          rcases hparse : dec.ParseNode (TrimSpace connection) proxySource.Skip
            with err | none | node
          · simp only [decodeCandidate, hparse]
            exact ih k
          · simp only [decodeCandidate, hparse]
            exact ih k
          · simp only [decodeCandidate, hparse]
            rw [hk, List.take_succ_cons, numberNodes]
            have := ih (k + 1)
            rw [Nat.cast_add, Nat.cast_one] at this
            rw [this]
      · have hlink2 : dec.IsDirectLink (TrimSpace connection) = false := by simpa using hlink
        simp only [hblank, if_false, hlink2, Bool.not_false, if_true, ne_eq, not_false_eq_true,
          Bool.false_eq_true, and_false, decide_False]
        exact ih k

theorem decodedSourceField_eq (dec : Decoder) (proxySource : ProxySource) :
    decodedSourceField dec proxySource 0
      = numberNodes proxySource 0
          (((sourceCandidates dec proxySource).filterMap (decodeCandidate dec proxySource)).take
            500) := by
  simp only [decodedSourceField, sourceCandidates]
  split
  · split
    · split
      · simp [numberNodes]
      · split
        · exact decodedSubscriptionLines_eq dec proxySource _ 0
        · simp [numberNodes]
    · split
      · have hcap : (0 : Int) < MaxNodesPerSubscription := by decide
        simp only [hcap, if_true]
        rcases hparse : dec.ParseNode proxySource.Source proxySource.Skip with err | none | node
        · simp [decodeCandidate, hparse, numberNodes]
        · simp [decodeCandidate, hparse, numberNodes]
        · simp [decodeCandidate, hparse, numberNodes]
      · simp [numberNodes]
  · simp [numberNodes]

/-- The nodes a source decodes to are the first 500 nodes its candidates
decode to, numbered from 1 in that order. -/
theorem decodedNodes_eq (dec : Decoder) (proxySource : ProxySource) :
    decodedNodes dec proxySource
      = numberNodes proxySource 0
          (((candidates dec proxySource).filterMap (decodeCandidate dec proxySource)).take 500) := by
  have hconn := decodedConnections_eq dec proxySource proxySource.Connections
    (decodedSourceField dec proxySource 0).length
  rw [decodedNodes, hconn, decodedSourceField_eq]
  simp only [candidates, connectionCandidates, List.filterMap_append,
    List.take_append_eq_append_take, numberNodes_append,
    numberNodes_length, List.length_take, Nat.zero_add]
  congr 2
  by_cases hle : ((sourceCandidates dec proxySource).filterMap
      (decodeCandidate dec proxySource)).length ≤ 500
  · rw [Nat.min_eq_right hle]
  · have h1 : 500 - ((sourceCandidates dec proxySource).filterMap
        (decodeCandidate dec proxySource)).length = 0 := by omega
    have h2 : min 500 ((sourceCandidates dec proxySource).filterMap
        (decodeCandidate dec proxySource)).length = 500 := by omega
    rw [h1, h2]

theorem candidatesUntil_zero (decode : GoString → Option ParsedNode) (texts : List GoString) :
    candidatesUntil decode 0 texts = [] := by
  cases texts <;> rfl

theorem candidatesUntil_append (decode : GoString → Option ParsedNode)
    (xs ys : List GoString) :
    ∀ n : Nat, candidatesUntil decode n (xs ++ ys)
      = candidatesUntil decode n xs
        ++ candidatesUntil decode (n - (xs.filterMap decode).length) ys := by
  induction xs with
  | nil => intro n; cases n <;> simp [candidatesUntil, candidatesUntil_zero]
  | cons x rest ih =>
    intro n
    cases n with
    | zero => simp [candidatesUntil_zero]
    | succ n =>
      rcases hx : decode x with _ | node
      · have h := ih (n + 1)
        simp only [List.cons_append, candidatesUntil, hx, List.filterMap_cons]
        exact congrArg (List.cons x) h
      · have h := ih n
        simp only [List.cons_append, candidatesUntil, hx, List.filterMap_cons, List.length_cons,
          Nat.add_sub_add_right]
        exact congrArg (List.cons x) h

/-- When at least `n + 1` texts decode to a node, the candidates up to the
`n + 1`-th node end with the text that gives that node. -/
theorem candidatesUntil_split (decode : GoString → Option ParsedNode) :
    ∀ (xs : List GoString) (n : Nat), n + 1 ≤ (xs.filterMap decode).length →
      ∃ before last later, xs = before ++ last :: later
        ∧ candidatesUntil decode (n + 1) xs = before ++ [last]
        ∧ (before.filterMap decode).length = n
        ∧ (decode last).isSome = true := by
  intro xs
  induction xs with
  | nil => intro n h; simp at h
  | cons x rest ih =>
    intro n h
    rcases hx : decode x with _ | node
    · simp only [List.filterMap_cons, hx] at h
      obtain ⟨before, last, later, h1, h2, h3, h4⟩ := ih n h
      refine ⟨x :: before, last, later, ?_, ?_, ?_, h4⟩
      · rw [h1]; rfl
      · simp only [candidatesUntil, hx, h2, List.cons_append]
      · simp only [List.filterMap_cons, hx, h3]
    · simp only [List.filterMap_cons, hx, List.length_cons] at h
      cases n with
      | zero =>
        refine ⟨[], x, rest, rfl, ?_, rfl, ?_⟩
        · simp only [candidatesUntil, hx, candidatesUntil_zero, List.nil_append]
        · simp [hx]
      | succ m =>
        obtain ⟨before, last, later, h1, h2, h3, h4⟩ := ih m (by omega)
        refine ⟨x :: before, last, later, ?_, ?_, ?_, h4⟩
        · rw [h1]; rfl
        · simp only [candidatesUntil, hx, h2, List.cons_append]
        · simp only [List.filterMap_cons, hx, List.length_cons, h3]

theorem LoadState.accept_count (proxySource : ProxySource) (st : LoadState) (node : ParsedNode) :
    (st.accept proxySource node).nodesFromThisSource = st.nodesFromThisSource + 1 := rfl

theorem subscriptionLineCalls_eq (dec : Decoder) (proxySource : ProxySource)
    (lines : List GoString) :
    ∀ (st : LoadState) (k : Nat), st.nodesFromThisSource = (k : Int) →
      subscriptionLineCalls dec proxySource lines st
        = candidatesUntil (decodeCandidate dec proxySource) (500 - k)
            ((lines.map TrimSpace).filter (fun subLine => subLine ≠ [])) := by
  induction lines with
  | nil => intro st k _; cases h : 500 - k <;> simp [subscriptionLineCalls, candidatesUntil]
  | cons subLine rest ih =>
    intro st k hst
    simp only [subscriptionLineCalls, List.map_cons, List.filter_cons]
    by_cases hblank : TrimSpace subLine = []
    · simp only [hblank, if_true, ne_eq, not_true_eq_false, decide_False, Bool.false_eq_true,
        if_false]
      exact ih st k hst
    · simp only [hblank, if_false, ne_eq, not_false_eq_true, decide_True, if_true]
      by_cases hcap : st.nodesFromThisSource ≥ MaxNodesPerSubscription
      · have hk : 500 - k = 0 := by
          simp only [MaxNodesPerSubscription, hst] at hcap
          omega
        simp only [hcap, if_true]
        rw [hk, candidatesUntil_zero]
        have h := ih { st with skippedDueToLimit := st.skippedDueToLimit + 1 } k hst
        rw [hk, candidatesUntil_zero] at h
        exact h
      · simp only [hcap, if_false]
        have hk : 500 - k = (500 - (k + 1)) + 1 := by
          simp only [MaxNodesPerSubscription, hst] at hcap
          omega
        rcases hparse : dec.ParseNode (TrimSpace subLine) proxySource.Skip with err | none | node
        · simp only [hk, candidatesUntil, decodeCandidate, hparse]
          rw [← hk, ih st k hst]
        · simp only [hk, candidatesUntil, decodeCandidate, hparse]
          rw [← hk, ih st k hst]
        · simp only [hk, candidatesUntil, decodeCandidate, hparse]
          rw [ih (st.accept proxySource node) (k + 1)
            (by rw [LoadState.accept_count, hst, Nat.cast_add, Nat.cast_one])]

theorem connectionCalls_eq (dec : Decoder) (proxySource : ProxySource)
    (connections : List GoString) :
    ∀ (st : LoadState) (k : Nat), st.nodesFromThisSource = (k : Int) →
      connectionCalls dec proxySource connections st
        = candidatesUntil (decodeCandidate dec proxySource) (500 - k)
            ((connections.map TrimSpace).filter
              (fun connection => connection ≠ [] ∧ dec.IsDirectLink connection)) := by
  induction connections with
  | nil => intro st k _; cases h : 500 - k <;> simp [connectionCalls, candidatesUntil]
  | cons connection rest ih =>
    intro st k hst
    simp only [connectionCalls, List.map_cons, List.filter_cons]
    by_cases hblank : TrimSpace connection = []
    · simp only [hblank, if_true, ne_eq, not_true_eq_false, false_and, decide_False,
        Bool.false_eq_true, if_false]
      exact ih st k hst
    · by_cases hlink : dec.IsDirectLink (TrimSpace connection) = true
      · simp only [hblank, if_false, hlink, Bool.not_true, Bool.false_eq_true, ne_eq,
          not_false_eq_true, and_self, decide_True, if_true]
        by_cases hcap : st.nodesFromThisSource ≥ MaxNodesPerSubscription
        · have hk : 500 - k = 0 := by
            simp only [MaxNodesPerSubscription, hst] at hcap
            omega
          simp only [hcap, if_true]
          rw [hk, candidatesUntil_zero]
          have h := ih { st with skippedDueToLimit := st.skippedDueToLimit + 1 } k hst
          rw [hk, candidatesUntil_zero] at h
          exact h
        · simp only [hcap, if_false]
          have hk : 500 - k = (500 - (k + 1)) + 1 := by
            simp only [MaxNodesPerSubscription, hst] at hcap
            omega
          rcases hparse : dec.ParseNode (TrimSpace connection) proxySource.Skip
            with err | none | node
          · simp only [hk, candidatesUntil, decodeCandidate, hparse]
            rw [← hk, ih st k hst]
          · simp only [hk, candidatesUntil, decodeCandidate, hparse]
            rw [← hk, ih st k hst]
          · simp only [hk, candidatesUntil, decodeCandidate, hparse]
            rw [ih (st.accept proxySource node) (k + 1)
              (by rw [LoadState.accept_count, hst, Nat.cast_add, Nat.cast_one])]
      · have hlink2 : dec.IsDirectLink (TrimSpace connection) = false := by simpa using hlink
        simp only [hblank, if_false, hlink2, Bool.not_false, if_true, ne_eq, not_false_eq_true,
          Bool.false_eq_true, and_false, decide_False]
        exact ih st k hst

theorem sourceFieldCalls_eq (dec : Decoder) (proxySource : ProxySource) (st : LoadState)
    (hst : st.nodesFromThisSource = 0) :
    sourceFieldCalls dec proxySource st
      = candidatesUntil (decodeCandidate dec proxySource) 500
          (sourceCandidates dec proxySource) := by
  simp only [sourceFieldCalls, sourceCandidates]
  split
  · split
    · split
      · rfl
      · split
        · exact subscriptionLineCalls_eq dec proxySource _ st 0 (by rw [hst]; rfl)
        · rfl
    · split
      · have hcap : st.nodesFromThisSource < MaxNodesPerSubscription := by rw [hst]; decide
        simp only [hcap, if_true]
        rcases hd : decodeCandidate dec proxySource proxySource.Source with _ | node
        · simp only [candidatesUntil, hd]
        · simp only [candidatesUntil, hd, candidatesUntil_zero]
      · rfl
  · rfl

/-- The decoder is called on the candidates of the source, in order, up to
the one that gives the 500th node. -/
theorem parseNodeCalls_eq (dec : Decoder) (proxySource : ProxySource) (tagCounts : TagCounts) :
    parseNodeCalls dec proxySource tagCounts
      = candidatesUntil (decodeCandidate dec proxySource) 500 (candidates dec proxySource) := by
  have hext := loadSourceField_extends dec proxySource
    { nodes := [], nodesFromThisSource := 0, skippedDueToLimit := 0, tagCounts := tagCounts }
  have hcount := hext.2.1
  simp only [Int.zero_add] at hcount
  rw [parseNodeCalls, candidates, candidatesUntil_append,
    sourceFieldCalls_eq dec proxySource _ rfl,
    connectionCalls_eq dec proxySource proxySource.Connections _ _ hcount,
    decodedSourceField_eq, numberNodes_length, List.length_take, connectionCandidates]
  congr 2
  omega

theorem uniquifyNodes_getElem (nodes : List ParsedNode) :
    ∀ (tagCounts : TagCounts) (i : Nat),
      (uniquifyNodes nodes tagCounts).1[i]?
        = nodes[i]?.map (fun node =>
            retagged node
              (MakeTagUnique node.Tag (uniquifyNodes (nodes.take i) tagCounts).2).1) := by
  induction nodes with
  | nil => intro tagCounts i; simp [uniquifyNodes]
  | cons node rest ih =>
    intro tagCounts i
    cases i with
    | zero => simp [uniquifyNodes, retagged]
    | succ i =>
      simp only [uniquifyNodes, List.getElem?_cons_succ, List.take_succ_cons]
      exact ih _ i

theorem numberNodes_getElem (proxySource : ProxySource) (nodes : List ParsedNode) :
    ∀ (k i : Nat), (numberNodes proxySource k nodes)[i]?
      = nodes[i]?.map (templatedNode proxySource ((k + i : Nat) : Int)) := by
  induction nodes with
  | nil => intro k i; simp [numberNodes]
  | cons node rest ih =>
    intro k i
    cases i with
    | zero => simp [numberNodes]
    | succ i =>
      simp only [numberNodes, List.getElem?_cons_succ]
      rw [ih (k + 1) i, show k + 1 + i = k + (i + 1) by omega]

theorem numberNodes_take (proxySource : ProxySource) (nodes : List ParsedNode) :
    ∀ (k i : Nat), (numberNodes proxySource k nodes).take i
      = numberNodes proxySource k (nodes.take i) := by
  induction nodes with
  | nil => intro k i; simp [numberNodes]
  | cons node rest ih =>
    intro k i
    cases i with
    | zero => simp [numberNodes]
    | succ i => simp only [numberNodes, List.take_succ_cons, ih (k + 1) i]

/-- C12: for every source, fetch outcome and decoder behaviour,
`LoadNodesFromSource` returns a list of nodes (never an error) of at most
`MaxNodesPerSubscription` = 500 nodes, the nodes of the `Source` field and
of the connections counted together. -/
theorem LoadNodesFromSource_at_most_500 (dec : Decoder) (proxySource : ProxySource)
    (tagCounts : TagCounts) (subscriptionIndex totalSubscriptions : Int) :
    ∃ nodes : List ParsedNode,
      (LoadNodesFromSource dec proxySource tagCounts subscriptionIndex totalSubscriptions).1
          = .ok nodes
        ∧ (nodes.length : Int) ≤ MaxNodesPerSubscription
        ∧ nodes.length ≤ 500 := by
  refine ⟨_, congrArg Prod.fst
    (LoadNodesFromSource_eq dec proxySource tagCounts subscriptionIndex totalSubscriptions), ?_⟩
  have hlen : (uniquifyNodes (decodedNodes dec proxySource) tagCounts).1.length ≤ 500 := by
    rw [uniquifyNodes_length, decodedNodes_eq, numberNodes_length]
    exact List.length_take_le _ _
  refine ⟨?_, hlen⟩
  simp only [MaxNodesPerSubscription]
  omega

/-- C13: when more than 500 candidates of a source decode to a node (the
candidates being the non-blank lines of the fetched subscription in order,
a legacy direct link in `Source` counting as the one line of its source,
followed by the non-blank connections that are direct links in order),
`LoadNodesFromSource` returns exactly 500 nodes: the first 500 decoded ones in
candidate order, with their tags rewritten by the template and made unique;
and the calls of the decoder are the candidates up to and including the one
that gave the 500th node, none of the later candidates. -/
theorem LoadNodesFromSource_cap (dec : Decoder) (proxySource : ProxySource)
    (tagCounts : TagCounts) (subscriptionIndex totalSubscriptions : Int)
    (hmany : 500 < (decodableNodes dec proxySource).length) :
    (∃ nodes : List ParsedNode,
      (LoadNodesFromSource dec proxySource tagCounts subscriptionIndex totalSubscriptions).1
          = .ok nodes
        ∧ nodes.length = 500
        ∧ nodes = (uniquifyNodes
            (numberNodes proxySource 0 ((decodableNodes dec proxySource).take 500)) tagCounts).1)
      ∧ ∃ before last later,
          candidates dec proxySource = before ++ last :: later
            ∧ parseNodeCalls dec proxySource tagCounts = before ++ [last]
            ∧ (before.filterMap (decodeCandidate dec proxySource)).length = 499
            ∧ (decodeCandidate dec proxySource last).isSome = true := by
  constructor
  · refine ⟨_, congrArg Prod.fst
      (LoadNodesFromSource_eq dec proxySource tagCounts subscriptionIndex totalSubscriptions),
      ?_, ?_⟩
    · rw [uniquifyNodes_length, decodedNodes_eq, numberNodes_length, List.length_take]
      simp only [decodableNodes] at hmany
      omega
    · rw [decodedNodes_eq]; rfl
  · rw [parseNodeCalls_eq]
    exact candidatesUntil_split (decodeCandidate dec proxySource) (candidates dec proxySource) 499
      (by simp only [decodableNodes] at hmany; omega)

/-- C14: for every source, the node at position `i` (counted from 0, so the
`i + 1`-th node) of the list returned by `LoadNodesFromSource` is the
`i + 1`-th node its candidates decode to, its tag being the expansion of the
prefix, postfix or mask with the number `i + 1`, then made unique; the number
depends neither on the index of the source, nor on the total, nor on the
registry, and a candidate that does not decode to a node or is skipped takes
no number, the positions being those in the list of decoded nodes. -/
theorem LoadNodesFromSource_numbering (dec : Decoder) (proxySource : ProxySource)
    (tagCounts : TagCounts) (subscriptionIndex totalSubscriptions : Int) :
    ∃ nodes : List ParsedNode,
      (LoadNodesFromSource dec proxySource tagCounts subscriptionIndex totalSubscriptions).1
          = .ok nodes
        ∧ ∀ i : Nat, nodes[i]?
            = (((decodableNodes dec proxySource).take 500)[i]?).map (fun node =>
                retagged node
                  (MakeTagUnique
                    (applyTagPrefixPostfix node proxySource.TagPrefix proxySource.TagPostfix
                      proxySource.TagMask ((i : Int) + 1))
                    (uniquifyNodes
                      (numberNodes proxySource 0
                        (((decodableNodes dec proxySource).take 500).take i))
                      tagCounts).2).1) := by
  refine ⟨_, congrArg Prod.fst
    (LoadNodesFromSource_eq dec proxySource tagCounts subscriptionIndex totalSubscriptions), ?_⟩
  intro i
  rw [decodedNodes_eq, uniquifyNodes_getElem, numberNodes_getElem, numberNodes_take,
    Option.map_map, Nat.zero_add]
  rfl

set_option maxRecDepth 1000000 in
/-- Witness for C13: a source of 501 connections that all decode to a node. -/
theorem LoadNodesFromSource_cap_witness :
    500 < (decodableNodes sampleDecoder
        (sampleSource (List.replicate 501 (lit "vless://x")) [])).length
      ∧ ∃ nodes : List ParsedNode,
          (LoadNodesFromSource sampleDecoder
              (sampleSource (List.replicate 501 (lit "vless://x")) []) TagCounts.empty 0 1).1
            = .ok nodes
          ∧ nodes.length = 500 :=
  have hmany : 500 < (decodableNodes sampleDecoder
      (sampleSource (List.replicate 501 (lit "vless://x")) [])).length := by decide
  ⟨hmany,
    (LoadNodesFromSource_cap sampleDecoder
      (sampleSource (List.replicate 501 (lit "vless://x")) []) TagCounts.empty 0 1 hmany).1.elim
      (fun nodes h => ⟨nodes, h.1, h.2.1⟩)⟩

/-! ### Attribute lookup -/

/-- C21. For every node, `getNodeValue` maps the key `tag` to `Tag`, `host`
to `Server`, `label` and `fragment` both to `Label`, `scheme` to `Scheme`,
`comment` to `Comment`, and every other key to the empty string; hence a
filter that tests `fragment` selects the same nodes as the same pattern on
`label`, alone or next to other entries of a filter object. -/
theorem getNodeValue_spec (lib : GoLib) (node : ParsedNode) :
    getNodeValue node (lit "tag") = node.Tag
      ∧ getNodeValue node (lit "host") = node.Server
      ∧ getNodeValue node (lit "label") = node.Label
      ∧ getNodeValue node (lit "fragment") = node.Label
      ∧ getNodeValue node (lit "scheme") = node.Scheme
      ∧ getNodeValue node (lit "comment") = node.Comment
      ∧ (∀ key : GoString,
          key ∉ [lit "tag", lit "host", lit "label", lit "scheme", lit "fragment", lit "comment"] →
          getNodeValue node key = [])
      ∧ (∀ (allNodes : List ParsedNode) (pattern : GoString),
          filterNodesForSelector lib allNodes (.object [(lit "fragment", .str pattern)])
            = filterNodesForSelector lib allNodes (.object [(lit "label", .str pattern)]))
      ∧ ∀ (allNodes : List ParsedNode) (before after : DynMap) (pattern : GoString),
          filterNodesForSelector lib allNodes
              (.object (before ++ (lit "fragment", .str pattern) :: after))
            = filterNodesForSelector lib allNodes
              (.object (before ++ (lit "label", .str pattern) :: after)) := by
  have hfrag : ∀ n : ParsedNode, getNodeValue n (lit "fragment") = getNodeValue n (lit "label") :=
    fun n => by
      have h1 : getNodeValue n (lit "fragment") = n.Label := by
        simp only [getNodeValue]; rfl
      have h2 : getNodeValue n (lit "label") = n.Label := by
        simp only [getNodeValue]; rfl
      rw [h1, h2]
  have hgen : ∀ (allNodes : List ParsedNode) (before after : DynMap) (pattern : GoString),
      filterNodesForSelector lib allNodes
          (.object (before ++ (lit "fragment", .str pattern) :: after))
        = filterNodesForSelector lib allNodes
          (.object (before ++ (lit "label", .str pattern) :: after)) := by
    intro allNodes before after pattern
    rw [filterNodesForSelector_object, filterNodesForSelector_object]
    congr 1
    funext n
    simp only [satisfiesObject, List.all_append, List.all_cons, hfrag]
  refine ⟨by simp only [getNodeValue]; rfl, by simp only [getNodeValue]; rfl,
    by simp only [getNodeValue]; rfl, by simp only [getNodeValue]; rfl,
    by simp only [getNodeValue]; rfl, by simp only [getNodeValue]; rfl, ?_, ?_, hgen⟩
  · intro key hkey
    simp only [List.mem_cons, List.mem_singleton, not_or, List.mem_nil_iff, or_false] at hkey
    obtain ⟨h1, h2, h3, h4, h5, h6⟩ := hkey
    simp only [getNodeValue, h1, h2, h3, h4, h5, h6, if_false]
  · intro allNodes pattern
    exact hgen allNodes [] [] pattern

/-! ### Orchestrator: a source whose load fails -/

theorem loadAllSources_errors_as_empty (f g : LoadNodesFunc) (h : ErrorsAsEmpty f g)
    (totalSources : Int) (sources : List ProxySource) :
    ∀ (i : Nat) (st : SourcesState),
      loadAllSources g totalSources sources i st = loadAllSources f totalSources sources i st := by
  induction sources with
  | nil => intro i st; rfl
  | cons proxySource rest ih =>
    intro i st
    rcases h proxySource st.tagCounts i totalSources with heq | ⟨err, hf, hg⟩
    · simp only [loadAllSources, heq]
      rcases f proxySource st.tagCounts i totalSources with ⟨_ | nodes, tagCounts2⟩
      · exact ih _ _
      · simp only
        split
        · exact ih _ _
        · exact ih _ _
    · have hf2 : f proxySource st.tagCounts i totalSources
          = (.error err, (f proxySource st.tagCounts i totalSources).2) := by
        rw [← hf]
      simp only [loadAllSources, hg]
      rw [hf2]
      simp only [List.length_nil, gt_iff_lt, lt_self_iff_false, if_false]
      exact ih _ _

/-- C30. In `GenerateOutboundsFromParserConfig`, a source whose load returns
an error is skipped without aborting the run: the returned result (fragments
and counters, or the error of a run without any node) and the registry are
those of the run in which the loader returns, for that source, an empty node
list and no error; the nodes and selectors of the other sources are the
same. -/
theorem GenerateOutbounds_load_error_skipped (lib : GoLib) (parserConfig : ParserConfig)
    (tagCounts : TagCounts) (f g : LoadNodesFunc) (h : ErrorsAsEmpty f g) :
    GenerateOutboundsFromParserConfig lib parserConfig tagCounts f
      = GenerateOutboundsFromParserConfig lib parserConfig tagCounts g := by
  simp only [GenerateOutboundsFromParserConfig, loadAllSources_errors_as_empty f g h]

set_option maxRecDepth 1000000 in
/-- Witness for C30: the first source fails to load, the second gives one
node; the run returns the fragment of that node. -/
theorem GenerateOutbounds_load_error_skipped_witness :
    ErrorsAsEmpty failingLoader emptyLoader
      ∧ GenerateOutboundsFromParserConfig sampleLib
          (sampleConfig [sampleSource [] [], sampleSource [lit "vless://a"] []] [])
          TagCounts.empty failingLoader
        = GenerateOutboundsFromParserConfig sampleLib
          (sampleConfig [sampleSource [] [], sampleSource [lit "vless://a"] []] [])
          TagCounts.empty emptyLoader
      ∧ (GenerateOutboundsFromParserConfig sampleLib
          (sampleConfig [sampleSource [] [], sampleSource [lit "vless://a"] []] [])
          TagCounts.empty failingLoader).1
        = .ok
            { OutboundsJSON :=
                [lit "\t// a\n\t\x7b\"tag\":\"a\",\"type\":\"vless\",\"server\":\"example.org\",\"server_port\":443,\"uuid\":\"u\"\x7d,"]
              NodesCount := 1
              LocalSelectorsCount := 0
              GlobalSelectorsCount := 0 } :=
  have h : ErrorsAsEmpty failingLoader emptyLoader := by
    intro proxySource tagCounts i total
    by_cases hc : proxySource.Connections = []
    · exact Or.inr ⟨lit "no links", by simp [failingLoader, hc], by simp [failingLoader, emptyLoader, hc]⟩
    · exact Or.inl (by simp [failingLoader, emptyLoader, hc])
  ⟨h, GenerateOutbounds_load_error_skipped sampleLib _ TagCounts.empty failingLoader emptyLoader h,
    by decide⟩

/-! ### Node emitter: the fields of the object -/

/-- The fragment `GenerateNodeJSON` returns, in terms of the list of its
fields. -/
theorem GenerateNodeJSON_eq (lib : GoLib) (node : ParsedNode) :
    GenerateNodeJSON lib node = .ok (nodeFrame node.Label (nodeFields lib node)) := by
  obtain ⟨h2, hh2⟩ := hysteria2Parts_ok lib node
  obtain ⟨ss, hss⟩ := ssParts_ok lib node
  simp only [GenerateNodeJSON, nodeFrame, nodeFields, schemeFields, flowFields, headFields,
    okParts, hh2, hss, bind, Except.bind, pure, Except.pure]
  split_ifs <;> simp

theorem tlsParts_form (lib : GoLib) (node : ParsedNode) :
    tlsParts lib node = [] ∨ ∃ tlsJSON, tlsParts lib node = [lit "\"tls\":" ++ tlsJSON] := by
  unfold tlsParts
  cases asObject (node.Outbound.get (lit "tls")) with
  | none => exact Or.inl rfl
  | some tlsData => exact Or.inr ⟨_, rfl⟩

/-- A field whose name differs from `name` within the first `n` bytes of the
quoted names is not a field named `name`. -/
theorem hasField_cons_other (parts : List GoString) (name label value : GoString) (n : Nat)
    (hn : n ≤ label.length)
    (h : ((lit "\"" ++ name ++ lit "\":").take n).isPrefixOf label = false) :
    hasField ((label ++ value) :: parts) name = hasField parts name := by
  simp only [hasField, List.any_cons,
    isPrefixOf_append_false (lit "\"" ++ name ++ lit "\":") label value n hn h, Bool.false_or]

/-- C24. For every node, the object emitted by `GenerateNodeJSON` starts with
the fields `tag`, `type`, `server` and `server_port` in exactly that order,
the type being `shadowsocks` when the scheme is `ss` and the scheme itself
otherwise; the four fields are there for every node, the function never
returning an error. -/
theorem GenerateNodeJSON_head (lib : GoLib) (node : ParsedNode) :
    ∃ more : List GoString,
      GenerateNodeJSON lib node
        = .ok (nodeFrame node.Label
            ([lit "\"tag\":" ++ Quote lib node.Tag,
              lit "\"type\":"
                ++ Quote lib (if node.Scheme = lit "ss" then lit "shadowsocks" else node.Scheme),
              lit "\"server\":" ++ Quote lib node.Server,
              lit "\"server_port\":" ++ formatInt node.Port] ++ more)) := by
  refine ⟨schemeFields lib node ++ flowFields lib node ++ tlsParts lib node, ?_⟩
  rw [GenerateNodeJSON_eq]
  simp only [nodeFields, headFields, List.append_assoc]

theorem uuidParts_head (lib : GoLib) (node : ParsedNode) :
    ∃ more : List GoString,
      uuidParts lib node = (lit "\"uuid\":" ++ Quote lib node.UUID) :: more := by
  unfold uuidParts
  by_cases hvm : node.Scheme = lit "vmess"
  · rw [if_pos hvm]
    cases asString (node.Outbound.get (lit "security")) with
    | none =>
      cases asInt (node.Outbound.get (lit "alter_id")) with
      | none => exact ⟨vmessTransportParts lib node, rfl⟩
      | some alterID => exact ⟨_ :: vmessTransportParts lib node, rfl⟩
    | some security =>
      by_cases hsec : security = []
      · cases asInt (node.Outbound.get (lit "alter_id")) with
        | none => exact ⟨vmessTransportParts lib node, by simp [hsec]⟩
        | some alterID =>
          exact ⟨(lit "\"alter_id\":" ++ formatInt alterID) :: vmessTransportParts lib node,
            by simp [hsec]⟩
      · cases asInt (node.Outbound.get (lit "alter_id")) with
        | none =>
          exact ⟨(lit "\"security\":" ++ Quote lib security) :: vmessTransportParts lib node,
            by simp [hsec]⟩
        | some alterID =>
          exact ⟨(lit "\"security\":" ++ Quote lib security)
            :: (lit "\"alter_id\":" ++ formatInt alterID) :: vmessTransportParts lib node,
            by simp [hsec]⟩
  · rw [if_neg hvm]
    exact ⟨[], rfl⟩

/-- C25. For every node, the field after `server_port` that comes from the
secret field `UUID` depends on the scheme only: a vless or vmess node emits
`uuid` holding it as the fifth field, a trojan node emits `password` holding
it as the fifth field and no field `uuid`, and for a node of any other scheme
the emitted text does not depend on the secret field at all. -/
theorem GenerateNodeJSON_secret (lib : GoLib) (node : ParsedNode) :
    ((node.Scheme = lit "vless" ∨ node.Scheme = lit "vmess") →
        ∃ more : List GoString,
          GenerateNodeJSON lib node
            = .ok (nodeFrame node.Label
                (headFields lib node ++ (lit "\"uuid\":" ++ Quote lib node.UUID) :: more)))
      ∧ (node.Scheme = lit "trojan" →
        ∃ more : List GoString,
          GenerateNodeJSON lib node
              = .ok (nodeFrame node.Label
                  (headFields lib node ++ (lit "\"password\":" ++ Quote lib node.UUID) :: more))
            ∧ hasField (headFields lib node ++ (lit "\"password\":" ++ Quote lib node.UUID) :: more)
                (lit "uuid") = false)
      ∧ (node.Scheme ≠ lit "vless" ∧ node.Scheme ≠ lit "vmess" ∧ node.Scheme ≠ lit "trojan" →
        ∀ secret : GoString,
          GenerateNodeJSON lib { node with UUID := secret } = GenerateNodeJSON lib node) := by
  refine ⟨fun hv => ?_, fun ht => ?_, fun hother secret => ?_⟩
  · obtain ⟨more, hmore⟩ := uuidParts_head lib node
    refine ⟨more ++ (flowFields lib node ++ tlsParts lib node), ?_⟩
    rw [GenerateNodeJSON_eq]
    simp only [nodeFields, schemeFields, hv, if_true, hmore, List.append_assoc, List.cons_append]
  · have hnv : ¬(lit "trojan" = lit "vless" ∨ lit "trojan" = lit "vmess") := by decide
    refine ⟨flowFields lib node ++ tlsParts lib node, ?_, ?_⟩
    · rw [GenerateNodeJSON_eq]
      simp only [nodeFields, schemeFields, ht, hnv, if_true, if_false, List.append_assoc,
        List.singleton_append, List.cons_append, List.nil_append]
    · simp only [headFields, List.cons_append, List.nil_append]
      rw [hasField_cons_other _ _ (lit "\"tag\":") _ 2 (by decide) (by decide),
        hasField_cons_other _ _ (lit "\"type\":") _ 2 (by decide) (by decide),
        hasField_cons_other _ _ (lit "\"server\":") _ 2 (by decide) (by decide),
        hasField_cons_other _ _ (lit "\"server_port\":") _ 2 (by decide) (by decide),
        hasField_cons_other _ _ (lit "\"password\":") _ 2 (by decide) (by decide)]
      have hflow : hasField (flowFields lib node ++ tlsParts lib node) (lit "uuid")
          = hasField (tlsParts lib node) (lit "uuid") := by
        simp only [flowFields]
        split
        · rw [List.singleton_append,
            hasField_cons_other _ _ (lit "\"flow\":") _ 2 (by decide) (by decide)]
        · rfl
      rw [hflow]
      rcases tlsParts_form lib node with h | ⟨tlsJSON, h⟩
      · rw [h]; rfl
      · rw [h, hasField_cons_other _ _ (lit "\"tls\":") _ 2 (by decide) (by decide)]
        rfl
  · obtain ⟨h1, h2, h3⟩ := hother
    have hnv : ¬(node.Scheme = lit "vless" ∨ node.Scheme = lit "vmess") := by
      rintro (h | h)
      · exact h1 h
      · exact h2 h
    rw [GenerateNodeJSON_eq, GenerateNodeJSON_eq]
    simp only [nodeFields, schemeFields, hnv, h3, if_false]
    rfl

set_option maxRecDepth 1000000 in
/-- Witness for C25: a vless node, a trojan node and a shadowsocks node with
the secret `u`. -/
theorem GenerateNodeJSON_secret_witness :
    GenerateNodeJSON sampleLib (sampleNode (lit "a"))
        = .ok (lit "\t// a\n\t\x7b\"tag\":\"a\",\"type\":\"vless\",\"server\":\"example.org\",\"server_port\":443,\"uuid\":\"u\"\x7d,")
      ∧ GenerateNodeJSON sampleLib { sampleNode (lit "a") with Scheme := lit "trojan" }
        = .ok (lit "\t// a\n\t\x7b\"tag\":\"a\",\"type\":\"trojan\",\"server\":\"example.org\",\"server_port\":443,\"password\":\"u\"\x7d,")
      ∧ ∀ secret : GoString,
          GenerateNodeJSON sampleLib { sampleNode (lit "a") with Scheme := lit "ss", UUID := secret }
            = GenerateNodeJSON sampleLib { sampleNode (lit "a") with Scheme := lit "ss" } :=
  ⟨by decide, by decide,
    (GenerateNodeJSON_secret sampleLib { sampleNode (lit "a") with Scheme := lit "ss" }).2.2
      (by decide)⟩

/-! ### Node emitter: the `tls` object -/

/-- The `tls` part in terms of the ordered list of the fields of the object. -/
theorem tlsParts_eq (lib : GoLib) (node : ParsedNode) :
    tlsParts lib node
      = fieldsOf (asObject (node.Outbound.get (lit "tls")))
          (fun tlsData => [lit "\"tls\":" ++ objectText (tlsFieldsInOrder lib tlsData)]) := by
  unfold tlsParts
  cases asObject (node.Outbound.get (lit "tls")) with
  | none => rfl
  | some tlsData =>
    simp -zeta only [fieldsOf]
    lift_lets
    intro p0 p1 p2 p3 p4 p5 p6 tlsJSON
    have h1 : p1 = fieldsOf (asBool (tlsData.get (lit "enabled")))
        (fun enabled => [lit "\"enabled\":" ++ formatBool enabled]) := by
      unfold p1 p0
      cases asBool (tlsData.get (lit "enabled")) <;> rfl
    have h2 : p2 = p1 ++ fieldsOf (asString (tlsData.get (lit "server_name")))
        (fun serverName => [lit "\"server_name\":" ++ Quote lib serverName]) := by
      unfold p2
      cases asString (tlsData.get (lit "server_name")) <;> simp [fieldsOf]
    have h3 : p3 = p2 ++ fieldsOf (asStrings (tlsData.get (lit "alpn")))
        (fun alpn => if alpn ≠ [] then [lit "\"alpn\":" ++ lib.jsonMarshal (.strs alpn)]
          else []) := by
      unfold p3
      rcases asStrings (tlsData.get (lit "alpn")) with _ | _ | ⟨a, alpn⟩ <;> simp [fieldsOf]
    have h4 : p4 = p3 ++ fieldsOf (asObject (tlsData.get (lit "utls")))
        (fun utls => [lit "\"utls\":" ++ objectText (utlsFieldsInOrder lib utls)]) := by
      unfold p4 p0
      cases asObject (tlsData.get (lit "utls")) with
      | none => simp [fieldsOf]
      | some utls =>
        simp only [fieldsOf, utlsFieldsInOrder, objectText]
        cases asBool (utls.get (lit "enabled")) <;>
          cases asString (utls.get (lit "fingerprint")) <;> rfl
    have h5 : p5 = p4 ++ fieldsOf (asBool (tlsData.get (lit "insecure")))
        (fun insecure => if insecure = true then [lit "\"insecure\":" ++ lit "true"] else []) := by
      unfold p5
      rcases asBool (tlsData.get (lit "insecure")) with _ | _ | _ <;> simp [fieldsOf, formatBool]
    have h6 : p6 = p5 ++ fieldsOf (asObject (tlsData.get (lit "reality")))
        (fun reality => [lit "\"reality\":" ++ objectText (realityFieldsInOrder lib reality)]) := by
      unfold p6 p0
      cases asObject (tlsData.get (lit "reality")) with
      | none => simp [fieldsOf]
      | some reality =>
        simp only [fieldsOf, realityFieldsInOrder, objectText]
        cases asBool (reality.get (lit "enabled")) <;>
          cases asString (reality.get (lit "public_key")) <;>
          cases asString (reality.get (lit "short_id")) <;> rfl
    unfold tlsJSON
    rw [h6, h5, h4, h3, h2, h1]
    rfl

/-- C27. For every node carrying a `tls` object, the emitted `tls` object
lists its present keys in the fixed order `enabled`, `server_name`, `alpn`,
`utls`, `insecure`, `reality`, with `alpn` emitted only when it is not empty
and `insecure` only when it is true, `utls` listing `enabled` then
`fingerprint` and `reality` listing `enabled`, `public_key`, `short_id` (the
ordered list `tlsFieldsInOrder`); the `tls` field comes after `flow` and is
the last field of the node object. -/
theorem GenerateNodeJSON_tls (lib : GoLib) (node : ParsedNode) (tlsData : DynMap)
    (h : asObject (node.Outbound.get (lit "tls")) = some tlsData) :
    GenerateNodeJSON lib node
      = .ok (nodeFrame node.Label
          (headFields lib node ++ schemeFields lib node ++ flowFields lib node
            ++ [lit "\"tls\":" ++ objectText (tlsFieldsInOrder lib tlsData)])) := by
  rw [GenerateNodeJSON_eq, nodeFields, tlsParts_eq, h]
  rfl

set_option maxRecDepth 1000000 in
/-- Witness for C27: the node `sampleTLSNode`, whose `tls` object is given in
the reverse order. -/
theorem GenerateNodeJSON_tls_witness :
    GenerateNodeJSON sampleLib sampleTLSNode
      = .ok (lit "\t// a\n\t\x7b\"tag\":\"a\",\"type\":\"vless\",\"server\":\"example.org\",\"server_port\":443,\"uuid\":\"u\",\"flow\":\"xtls-rprx-vision\",\"tls\":\x7b\"enabled\":true,\"server_name\":\"sni\",\"alpn\":[\"h2\"],\"utls\":\x7b\"enabled\":true,\"fingerprint\":\"chrome\"\x7d,\"insecure\":true,\"reality\":\x7b\"enabled\":true,\"public_key\":\"pk\",\"short_id\":\"01\"\x7d\x7d\x7d,") :=
  (GenerateNodeJSON_tls sampleLib sampleTLSNode
    [(lit "reality", .object
        [(lit "short_id", .str (lit "01")), (lit "public_key", .str (lit "pk")),
         (lit "enabled", .bool true)]),
     (lit "insecure", .bool true),
     (lit "utls", .object [(lit "fingerprint", .str (lit "chrome")), (lit "enabled", .bool true)]),
     (lit "alpn", .strs [lit "h2"]),
     (lit "server_name", .str (lit "sni")),
     (lit "enabled", .bool true)] rfl).trans (by decide)

/-! ### Selector emitter: the fields of the object -/

theorem selectorParts_eq (lib : GoLib) (outboundConfig : OutboundConfig)
    (outboundsList : List GoString) (defaultTag : GoString) :
    selectorParts lib outboundConfig outboundsList defaultTag
      = selectorFieldsInOrder lib outboundConfig outboundsList defaultTag := by
  simp only [selectorParts, selectorFieldsInOrder, fieldsOf]
  by_cases hd : defaultTag = []
  · rcases outboundConfig.Options.get (lit "interrupt_exist_connections") with _ | val
    · simp [hd]
    · cases val <;> simp [hd]
  · rcases outboundConfig.Options.get (lit "interrupt_exist_connections") with _ | val
    · simp [hd]
    · cases val <;> simp [hd]

/-- C28. For every `OutboundConfig` that yields a selector (its member list
is not empty), the emitted object lists its fields in the order `tag`,
`type`, `default` (only when a default was determined), `outbounds`,
`interrupt_exist_connections` (only when the options hold it; a boolean is
printed as `true` or `false`), then every other entry of the options once,
with its value JSON-encoded; at most one field is named
`interrupt_exist_connections`; and the comment line comes first exactly when
the comment is not empty. -/
theorem GenerateSelector_fields (lib : GoLib) (allNodes : List ParsedNode)
    (outboundConfig : OutboundConfig)
    (h : selectorOutbounds outboundConfig.AddOutbounds
      (filterNodesForSelector lib allNodes (.object outboundConfig.Filters)) ≠ []) :
    GenerateSelector lib allNodes outboundConfig
        = .ok ((if outboundConfig.Comment ≠ [] then lit "\t// " ++ outboundConfig.Comment ++ lit "\n"
              else [])
            ++ (lit "\t"
              ++ objectText (selectorFieldsInOrder lib outboundConfig
                (selectorOutbounds outboundConfig.AddOutbounds
                  (filterNodesForSelector lib allNodes (.object outboundConfig.Filters)))
                (selectorDefaultTag lib outboundConfig.PreferredDefault
                  (filterNodesForSelector lib allNodes (.object outboundConfig.Filters))))
              ++ lit ","))
      ∧ ∀ (outboundsList : List GoString) (defaultTag : GoString),
          (selectorFieldsInOrder lib outboundConfig outboundsList defaultTag).countP
            (fun part => (lit "\"interrupt_exist_connections\":").isPrefixOf part) ≤ 1 := by
  constructor
  · rw [GenerateSelector_eq, if_neg h, selectorParts_eq]
    rfl
  · intro outboundsList defaultTag
    have hname : lit "\"interrupt_exist_connections\":"
        = lit "\"" ++ lit "interrupt_exist_connections" ++ lit "\":" := by decide
    have hrest : ((outboundConfig.Options.filter
        (fun kv => kv.1 ≠ lit "interrupt_exist_connections")).map
        (fun kv => Quote lib kv.1 ++ lit ":" ++ lib.jsonMarshal kv.2)).countP
        (fun part => (lit "\"interrupt_exist_connections\":").isPrefixOf part) = 0 := by
      rw [List.countP_eq_zero]
      intro part hpart
      obtain ⟨kv, hkv, rfl⟩ := List.mem_map.mp hpart
      have hne : kv.1 ≠ lit "interrupt_exist_connections" := by
        simpa using (List.mem_filter.mp hkv).2
      rw [hname, optionPart_not_field lib (lit "interrupt_exist_connections") kv.1 _
        (by decide) hne]
      simp
    have hopt : (fieldsOf (outboundConfig.Options.get (lit "interrupt_exist_connections"))
        (fun val => [lit "\"interrupt_exist_connections\":"
          ++ (match val with
            | .bool boolVal => formatBool boolVal
            | _ => lib.jsonMarshal val)])).countP
        (fun part => (lit "\"interrupt_exist_connections\":").isPrefixOf part) ≤ 1 := by
      refine (List.countP_le_length _).trans ?_
      cases outboundConfig.Options.get (lit "interrupt_exist_connections") <;> simp [fieldsOf]
    have h1 : ∀ value : GoString, (lit "\"interrupt_exist_connections\":").isPrefixOf
        (lit "\"tag\":" ++ value) = false :=
      fun value => isPrefixOf_append_false _ _ value 2 (by decide) (by decide)
    have h2 : ∀ value : GoString, (lit "\"interrupt_exist_connections\":").isPrefixOf
        (lit "\"type\":" ++ value) = false :=
      fun value => isPrefixOf_append_false _ _ value 2 (by decide) (by decide)
    have h3 : ∀ value : GoString, (lit "\"interrupt_exist_connections\":").isPrefixOf
        (lit "\"default\":" ++ value) = false :=
      fun value => isPrefixOf_append_false _ _ value 2 (by decide) (by decide)
    have h4 : ∀ value : GoString, (lit "\"interrupt_exist_connections\":").isPrefixOf
        (lit "\"outbounds\":" ++ value) = false :=
      fun value => isPrefixOf_append_false _ _ value 2 (by decide) (by decide)
    simp only [selectorFieldsInOrder, List.countP_append, hrest, Nat.add_zero]
    have h5 : (if defaultTag ≠ [] then [lit "\"default\":" ++ Quote lib defaultTag] else []).countP
        (fun part => (lit "\"interrupt_exist_connections\":").isPrefixOf part) = 0 := by
      split <;> simp [List.countP_cons, h3]
    rw [h5]
    simp only [List.countP_cons, List.countP_nil, h1, h2, h4, Bool.false_eq_true, if_false,
      Nat.zero_add, Nat.add_zero]
    exact hopt

set_option maxRecDepth 1000000 in
/-- Witness for C28: a commented selector with one explicit member, the
option `interrupt_exist_connections` and one other option given before it. -/
theorem GenerateSelector_fields_witness :
    selectorOutbounds [lit "direct"] (filterNodesForSelector sampleLib [] (.object [])) ≠ []
      ∧ GenerateSelector sampleLib []
          { sampleSelector [lit "direct"]
              [(lit "b", .str (lit "x")), (lit "interrupt_exist_connections", .bool true)] []
            with Comment := lit "main" }
        = .ok (lit "\t// main\n\t\x7b\"tag\":\"proxy\",\"type\":\"selector\",\"outbounds\":[\"direct\"],\"interrupt_exist_connections\":true,\"b\":\"x\"\x7d,") :=
  ⟨by decide,
    (GenerateSelector_fields sampleLib []
      { sampleSelector [lit "direct"]
          [(lit "b", .str (lit "x")), (lit "interrupt_exist_connections", .bool true)] []
        with Comment := lit "main" } (by decide)).1.trans (by decide)⟩

/-! ### Emission and the visiting order of maps -/

set_option maxRecDepth 1000000 in
/-- C29 (violated by the code). The emitted bytes follow the order in which
the `range` loops visit the options of a selector and the headers of a vmess
transport, an order that Go leaves unspecified and changes from one loop to
the next: for one and the same map of two options, and for one and the same
map of two headers, the two visiting orders give two different texts. -/
theorem emission_follows_map_order :
    (List.Perm [(lit "a", Value.bool true), (lit "b", Value.bool false)]
          [(lit "b", Value.bool false), (lit "a", Value.bool true)]
        ∧ GenerateSelector sampleLib []
            (sampleSelector [lit "direct"] [(lit "a", .bool true), (lit "b", .bool false)] [])
          = .ok (lit "\t\x7b\"tag\":\"proxy\",\"type\":\"selector\",\"outbounds\":[\"direct\"],\"a\":true,\"b\":false\x7d,")
        ∧ GenerateSelector sampleLib []
            (sampleSelector [lit "direct"] [(lit "b", .bool false), (lit "a", .bool true)] [])
          = .ok (lit "\t\x7b\"tag\":\"proxy\",\"type\":\"selector\",\"outbounds\":[\"direct\"],\"b\":false,\"a\":true\x7d,"))
      ∧ List.Perm [(lit "Host", lit "h"), (lit "X", lit "y")] [(lit "X", lit "y"), (lit "Host", lit "h")]
      ∧ GenerateNodeJSON sampleLib
          { sampleNode (lit "a") with
            Scheme := lit "vmess"
            Outbound := [(lit "transport", .object
              [(lit "type", .str (lit "ws")),
               (lit "headers", .strMap [(lit "Host", lit "h"), (lit "X", lit "y")])])] }
        = .ok (lit "\t// a\n\t\x7b\"tag\":\"a\",\"type\":\"vmess\",\"server\":\"example.org\",\"server_port\":443,\"uuid\":\"u\",\"transport\":\x7b\"type\":\"ws\",\"headers\":\x7b\"Host\":\"h\",\"X\":\"y\"\x7d\x7d\x7d,")
      ∧ GenerateNodeJSON sampleLib
          { sampleNode (lit "a") with
            Scheme := lit "vmess"
            Outbound := [(lit "transport", .object
              [(lit "type", .str (lit "ws")),
               (lit "headers", .strMap [(lit "X", lit "y"), (lit "Host", lit "h")])])] }
        = .ok (lit "\t// a\n\t\x7b\"tag\":\"a\",\"type\":\"vmess\",\"server\":\"example.org\",\"server_port\":443,\"uuid\":\"u\",\"transport\":\x7b\"type\":\"ws\",\"headers\":\x7b\"X\":\"y\",\"Host\":\"h\"\x7d\x7d\x7d,") :=
  ⟨⟨List.Perm.swap _ _ _, by decide, by decide⟩, List.Perm.swap _ _ _, by decide, by decide⟩

/-! ### UTF-8: decoding a valid rune and encoding it again -/

theorem UInt8_ofNat_eq (b : UInt8) (n : Nat) (h : n = b.toNat) : UInt8.ofNat n = b := by
  rw [h, UInt8_ofNat_toNat]

theorem UInt8_toNat_lt (b : UInt8) : b.toNat < 256 := b.val.isLt

/-- A two-byte sequence: either the decoding fails, or the two bytes are the
encoding of the decoded rune and nothing after them is read. -/
theorem decodeContinuation_two (b : UInt8) (lo hi : Nat) (t : GoString)
    (h0 : 0xC2 ≤ b.toNat ∧ b.toNat < 0xE0) (hlo : 0x80 ≤ lo) (hhi : hi ≤ 0xBF) :
    decodeContinuation b.toNat lo hi 2 t = (0xFFFD, 1)
      ∨ ∃ b1 t1, t = b1 :: t1
          ∧ utf8Encode (decodeContinuation b.toNat lo hi 2 t).1 = [b, b1]
          ∧ (decodeContinuation b.toNat lo hi 2 t).2 = 2
          ∧ ∀ y, decodeContinuation b.toNat lo hi 2 (b1 :: y)
              = decodeContinuation b.toNat lo hi 2 t := by
  rcases t with _ | ⟨b1, t1⟩
  · exact Or.inl rfl
  · by_cases hc1 : b1.toNat < lo ∨ hi < b1.toNat
    · left
      simp [decodeContinuation, hc1]
    · right
      have hlen : ∀ y : GoString, ¬ ((b1 :: y).length + 1 < 2) := by
        intro y; simp
      have hval : ∀ y : GoString, decodeContinuation b.toNat lo hi 2 (b1 :: y)
          = (b.toNat % 32 * 64 + b1.toNat % 64, 2) := by
        intro y
        simp only [decodeContinuation, hlen y, hc1, if_false, Nat.le_refl, if_true]
      refine ⟨b1, t1, rfl, ?_, ?_, ?_⟩
      · rw [hval t1]
        simp only [utf8Encode]
        rw [if_neg (by omega), if_pos (by omega)]
        simp only [List.cons.injEq, and_true]
        exact ⟨UInt8_ofNat_eq _ _ (by omega), UInt8_ofNat_eq _ _ (by omega)⟩
      · rw [hval t1]
      · intro y
        rw [hval y, hval t1]

/-- A three-byte sequence. -/
theorem decodeContinuation_three (b : UInt8) (lo hi : Nat) (t : GoString)
    (h0 : 0xE0 ≤ b.toNat ∧ b.toNat < 0xF0) (hlo : 0x80 ≤ lo) (hhi : hi ≤ 0xBF)
    (hE0 : b.toNat = 0xE0 → 0xA0 ≤ lo) :
    decodeContinuation b.toNat lo hi 3 t = (0xFFFD, 1)
      ∨ ∃ b1 b2 t2, t = b1 :: b2 :: t2
          ∧ utf8Encode (decodeContinuation b.toNat lo hi 3 t).1 = [b, b1, b2]
          ∧ (decodeContinuation b.toNat lo hi 3 t).2 = 3
          ∧ ∀ y, decodeContinuation b.toNat lo hi 3 (b1 :: b2 :: y)
              = decodeContinuation b.toNat lo hi 3 t := by
  rcases t with _ | ⟨b1, _ | ⟨b2, t2⟩⟩
  · exact Or.inl rfl
  · left
    simp [decodeContinuation]
  · by_cases hc1 : b1.toNat < lo ∨ hi < b1.toNat
    · left
      simp [decodeContinuation, hc1]
    · by_cases hc2 : b2.toNat < 0x80 ∨ 0xBF < b2.toNat
      · left
        simp [decodeContinuation, hc1, hc2]
      · right
        have hlen : ∀ y : GoString, ¬ ((b1 :: b2 :: y).length + 1 < 3) := by
          intro y; simp
        have hval : ∀ y : GoString, decodeContinuation b.toNat lo hi 3 (b1 :: b2 :: y)
            = (b.toNat % 16 * 4096 + b1.toNat % 64 * 64 + b2.toNat % 64, 3) := by
          intro y
          simp only [decodeContinuation, hlen y, hc1, hc2, if_false, Nat.le_refl, if_true,
            show ¬ (3 ≤ 2) by omega]
        refine ⟨b1, b2, t2, rfl, ?_, ?_, ?_⟩
        · rw [hval t2]
          simp only [utf8Encode]
          rw [if_neg (by omega), if_neg (by omega), if_pos (by omega)]
          simp only [List.cons.injEq, and_true]
          exact ⟨UInt8_ofNat_eq _ _ (by omega), UInt8_ofNat_eq _ _ (by omega),
            UInt8_ofNat_eq _ _ (by omega)⟩
        · rw [hval t2]
        · intro y
          rw [hval y, hval t2]

/-- A four-byte sequence. -/
theorem decodeContinuation_four (b : UInt8) (lo hi : Nat) (t : GoString)
    (h0 : 0xF0 ≤ b.toNat ∧ b.toNat ≤ 0xF4) (hlo : 0x80 ≤ lo) (hhi : hi ≤ 0xBF)
    (hF0 : b.toNat = 0xF0 → 0x90 ≤ lo) :
    decodeContinuation b.toNat lo hi 4 t = (0xFFFD, 1)
      ∨ ∃ b1 b2 b3 t3, t = b1 :: b2 :: b3 :: t3
          ∧ utf8Encode (decodeContinuation b.toNat lo hi 4 t).1 = [b, b1, b2, b3]
          ∧ (decodeContinuation b.toNat lo hi 4 t).2 = 4
          ∧ ∀ y, decodeContinuation b.toNat lo hi 4 (b1 :: b2 :: b3 :: y)
              = decodeContinuation b.toNat lo hi 4 t := by
  rcases t with _ | ⟨b1, _ | ⟨b2, _ | ⟨b3, t3⟩⟩⟩
  · exact Or.inl rfl
  · left
    simp [decodeContinuation]
  · left
    simp [decodeContinuation]
  · by_cases hc1 : b1.toNat < lo ∨ hi < b1.toNat
    · left
      simp [decodeContinuation, hc1]
    · by_cases hc2 : b2.toNat < 0x80 ∨ 0xBF < b2.toNat
      · left
        simp [decodeContinuation, hc1, hc2]
      · by_cases hc3 : b3.toNat < 0x80 ∨ 0xBF < b3.toNat
        · left
          simp [decodeContinuation, hc1, hc2, hc3]
        · right
          have hlen : ∀ y : GoString, ¬ ((b1 :: b2 :: b3 :: y).length + 1 < 4) := by
            intro y; simp
          have hval : ∀ y : GoString, decodeContinuation b.toNat lo hi 4 (b1 :: b2 :: b3 :: y)
              = (b.toNat % 8 * 262144 + b1.toNat % 64 * 4096 + b2.toNat % 64 * 64
                  + b3.toNat % 64, 4) := by
            intro y
            simp only [decodeContinuation, hlen y, hc1, hc2, hc3, if_false,
              show ¬ (4 ≤ 2) by omega, show ¬ (4 ≤ 3) by omega]
          refine ⟨b1, b2, b3, t3, rfl, ?_, ?_, ?_⟩
          · rw [hval t3]
            simp only [utf8Encode]
            rw [if_neg (by omega), if_neg (by omega), if_neg (by omega)]
            simp only [List.cons.injEq, and_true]
            exact ⟨UInt8_ofNat_eq _ _ (by omega), UInt8_ofNat_eq _ _ (by omega),
              UInt8_ofNat_eq _ _ (by omega), UInt8_ofNat_eq _ _ (by omega)⟩
          · rw [hval t3]
          · intro y
            rw [hval y, hval t3]

/-- A rune that starts with a byte outside ASCII: either the decoding fails,
or the bytes read are the encoding of the decoded rune, and the bytes after
them are not read. -/
theorem decodeRune_encode (b : UInt8) (t : GoString) (hb : 0x80 ≤ b.toNat) :
    decodeRune (b :: t) = (0xFFFD, 1)
      ∨ ∃ tail rest, t = tail ++ rest
          ∧ utf8Encode (decodeRune (b :: t)).1 = b :: tail
          ∧ (decodeRune (b :: t)).2 = tail.length + 1
          ∧ ∀ y, decodeRune (b :: (tail ++ y)) = decodeRune (b :: t) := by
  have h80 : ¬ b.toNat < 0x80 := by omega
  have two : ∀ lo hi, 0xC2 ≤ b.toNat ∧ b.toNat < 0xE0 → 0x80 ≤ lo → hi ≤ 0xBF →
      (∀ s, decodeRune (b :: s) = decodeContinuation b.toNat lo hi 2 s) →
      decodeRune (b :: t) = (0xFFFD, 1)
        ∨ ∃ tail rest, t = tail ++ rest
            ∧ utf8Encode (decodeRune (b :: t)).1 = b :: tail
            ∧ (decodeRune (b :: t)).2 = tail.length + 1
            ∧ ∀ y, decodeRune (b :: (tail ++ y)) = decodeRune (b :: t) := by
    intro lo hi h0 hlo hhi hdec
    rcases decodeContinuation_two b lo hi t h0 hlo hhi with h | ⟨b1, t1, ht, henc, hn, hy⟩
    · exact Or.inl ((hdec t).trans h)
    · refine Or.inr ⟨[b1], t1, ht, ?_, ?_, ?_⟩
      · rw [hdec t, henc]
      · rw [hdec t, hn]; rfl
      · intro y
        rw [hdec, hdec]
        exact hy y
  have three : ∀ lo hi, 0xE0 ≤ b.toNat ∧ b.toNat < 0xF0 → 0x80 ≤ lo → hi ≤ 0xBF →
      (b.toNat = 0xE0 → 0xA0 ≤ lo) →
      (∀ s, decodeRune (b :: s) = decodeContinuation b.toNat lo hi 3 s) →
      decodeRune (b :: t) = (0xFFFD, 1)
        ∨ ∃ tail rest, t = tail ++ rest
            ∧ utf8Encode (decodeRune (b :: t)).1 = b :: tail
            ∧ (decodeRune (b :: t)).2 = tail.length + 1
            ∧ ∀ y, decodeRune (b :: (tail ++ y)) = decodeRune (b :: t) := by
    intro lo hi h0 hlo hhi hE0 hdec
    rcases decodeContinuation_three b lo hi t h0 hlo hhi hE0
      with h | ⟨b1, b2, t2, ht, henc, hn, hy⟩
    · exact Or.inl ((hdec t).trans h)
    · refine Or.inr ⟨[b1, b2], t2, ht, ?_, ?_, ?_⟩
      · rw [hdec t, henc]
      · rw [hdec t, hn]; rfl
      · intro y
        rw [hdec, hdec]
        exact hy y
  have four : ∀ lo hi, 0xF0 ≤ b.toNat ∧ b.toNat ≤ 0xF4 → 0x80 ≤ lo → hi ≤ 0xBF →
      (b.toNat = 0xF0 → 0x90 ≤ lo) →
      (∀ s, decodeRune (b :: s) = decodeContinuation b.toNat lo hi 4 s) →
      decodeRune (b :: t) = (0xFFFD, 1)
        ∨ ∃ tail rest, t = tail ++ rest
            ∧ utf8Encode (decodeRune (b :: t)).1 = b :: tail
            ∧ (decodeRune (b :: t)).2 = tail.length + 1
            ∧ ∀ y, decodeRune (b :: (tail ++ y)) = decodeRune (b :: t) := by
    intro lo hi h0 hlo hhi hF0 hdec
    rcases decodeContinuation_four b lo hi t h0 hlo hhi hF0
      with h | ⟨b1, b2, b3, t3, ht, henc, hn, hy⟩
    · exact Or.inl ((hdec t).trans h)
    · refine Or.inr ⟨[b1, b2, b3], t3, ht, ?_, ?_, ?_⟩
      · rw [hdec t, henc]
      · rw [hdec t, hn]; rfl
      · intro y
        rw [hdec, hdec]
        exact hy y
  by_cases h1 : b.toNat < 0xC2
  · left
    simp only [decodeRune, h80, h1, if_false, if_true]
  by_cases h2 : b.toNat < 0xE0
  · exact two 0x80 0xBF ⟨by omega, h2⟩ (by omega) (by omega)
      (fun s => by simp only [decodeRune]; split_ifs; rfl)
  by_cases h3 : b.toNat = 0xE0
  · exact three 0xA0 0xBF ⟨by omega, by omega⟩ (by omega) (by omega) (by omega)
      (fun s => by simp only [decodeRune]; split_ifs; rfl)
  by_cases h4 : b.toNat = 0xED
  · exact three 0x80 0x9F ⟨by omega, by omega⟩ (by omega) (by omega) (by omega)
      (fun s => by simp only [decodeRune]; split_ifs; rfl)
  by_cases h5 : b.toNat < 0xF0
  · exact three 0x80 0xBF ⟨by omega, h5⟩ (by omega) (by omega) (by omega)
      (fun s => by simp only [decodeRune]; split_ifs; rfl)
  by_cases h6 : b.toNat = 0xF0
  · exact four 0x90 0xBF ⟨by omega, by omega⟩ (by omega) (by omega) (by omega)
      (fun s => by simp only [decodeRune]; split_ifs; rfl)
  by_cases h7 : b.toNat < 0xF4
  · exact four 0x80 0xBF ⟨by omega, by omega⟩ (by omega) (by omega) (by omega)
      (fun s => by simp only [decodeRune]; split_ifs; rfl)
  by_cases h8 : b.toNat = 0xF4
  · exact four 0x80 0x8F ⟨by omega, by omega⟩ (by omega) (by omega) (by omega)
      (fun s => by simp only [decodeRune]; split_ifs; rfl)
  · left
    simp only [decodeRune, h80, h1, h2, h3, h4, h5, h6, h7, h8, if_false]

/-! ### JSON string literals: `json.Marshal` and decoding -/

theorem hexValue_hexDigit : ∀ d, d < 16 → hexValue (hexDigit d) = some d := by
  decide

theorem jsonStringRunes_flag (copy : Bool) (s : GoString) :
    jsonStringRunes 0 copy s = jsonStringRunes 0 true s := by
  cases s <;> simp [jsonStringRunes]

theorem jsonStringRunes_copy (tail rest : GoString) :
    jsonStringRunes tail.length true (tail ++ rest) = tail ++ jsonStringRunes 0 true rest := by
  induction tail with
  | nil => rfl
  | cons b tail ih => simp [jsonStringRunes, ih]

theorem jsonStringRunes_drop (tail rest : GoString) :
    jsonStringRunes tail.length false (tail ++ rest) = jsonStringRunes 0 true rest := by
  induction tail with
  | nil => exact jsonStringRunes_flag false rest
  | cons b tail ih => simp [jsonStringRunes, ih]

theorem unquoteRunes_skip (tail rest : GoString) :
    unquoteRunes tail.length (tail ++ rest) = unquoteRunes 0 rest := by
  induction tail with
  | nil => rfl
  | cons b tail ih =>
    simp only [List.length_cons, List.cons_append, unquoteRunes]
    exact ih

theorem validRunes_skip (tail rest : GoString) :
    validRunes tail.length (tail ++ rest) = validRunes 0 rest := by
  induction tail with
  | nil => rfl
  | cons b tail ih => simp [validRunes, ih]

set_option maxRecDepth 100000 in
theorem unquoteRunes_ascii_nat : ∀ n, n < 128 → ∀ y : GoString,
    unquoteRunes 0
        ((if htmlSafe (UInt8.ofNat n) then [UInt8.ofNat n] else jsonEscapeByte (UInt8.ofNat n))
          ++ y)
      = (unquoteRunes 0 y).map (UInt8.ofNat n :: ·) := by
  intro n hn y
  interval_cases n <;> rfl

/-- Decoding what `json.Marshal` writes for a byte below 0x80 gives the byte
back. -/
theorem unquoteRunes_ascii (b : UInt8) (hb : b.toNat < 0x80) (y : GoString) :
    unquoteRunes 0 ((if htmlSafe b then [b] else jsonEscapeByte b) ++ y)
      = (unquoteRunes 0 y).map (b :: ·) := by
  have h := unquoteRunes_ascii_nat b.toNat hb y
  rw [UInt8_ofNat_toNat] at h
  exact h

theorem unquoteRunes_wide (b : UInt8) (hb : 0x80 ≤ b.toNat) (s : GoString) :
    unquoteRunes 0 (b :: s)
      = (unquoteRunes ((decodeRune (b :: s)).2 - 1) s).map
          (utf8Encode (decodeRune (b :: s)).1 ++ ·) := by
  have h1 : b ≠ 0x22 := by
    intro h; rw [h] at hb; exact absurd hb (by decide)
  have h2 : b ≠ 0x5C := by
    intro h; rw [h] at hb; exact absurd hb (by decide)
  have h3 : ¬ b.toNat < 0x20 := by omega
  have h4 : ¬ b.toNat < 0x80 := by omega
  simp only [unquoteRunes, h1, h2, h3, h4, if_false]

theorem unquoteRunes_marshal : ∀ (n : Nat) (s : GoString), s.length ≤ n →
    validRunes 0 s = true →
    unquoteRunes 0 (jsonStringRunes 0 true s ++ [0x22]) = some s := by
  intro n
  induction n with
  | zero =>
    intro s hlen _
    have : s = [] := List.length_eq_zero.mp (Nat.le_zero.mp hlen)
    subst this
    rfl
  | succ n ih =>
    intro s hlen hvalid
    rcases s with _ | ⟨b, t⟩
    · rfl
    · by_cases hb : b.toNat < 0x80
      · have henc : jsonStringRunes 0 true (b :: t)
            = (if htmlSafe b then [b] else jsonEscapeByte b) ++ jsonStringRunes 0 true t := by
          simp only [jsonStringRunes, hb, if_true]
        have hval : validRunes 0 t = true := by
          simpa only [validRunes, hb, if_true] using hvalid
        rw [henc, List.append_assoc, unquoteRunes_ascii b hb,
          ih t (by simpa using hlen) hval]
        rfl
      · have hb2 : 0x80 ≤ b.toNat := by omega
        rcases decodeRune_encode b t hb2 with hbad | ⟨tail, rest, ht, hutf, hn, hy⟩
        · simp [validRunes, hb, hbad] at hvalid
        · have hgood : ¬ ((decodeRune (b :: t)).1 = 0xFFFD ∧ (decodeRune (b :: t)).2 = 1) := by
            rintro ⟨h1, h2⟩
            rw [h1] at hutf
            have hl := congrArg List.length hutf
            rw [h2] at hn
            have h3 : (utf8Encode 0xFFFD).length = 3 := by decide
            rw [h3, List.length_cons] at hl
            omega
          have hskip : (decodeRune (b :: t)).2 - 1 = tail.length := by omega
          have hval : validRunes 0 rest = true := by
            have h := hvalid
            simp only [validRunes, hb, if_false, hgood, hskip] at h
            rw [ht, validRunes_skip] at h
            exact h
          have hrest : unquoteRunes 0 (jsonStringRunes 0 true rest ++ [0x22]) = some rest := by
            apply ih rest _ hval
            have hl : t.length = tail.length + rest.length := by rw [ht, List.length_append]
            simp only [List.length_cons] at hlen
            omega
          by_cases hsep : (decodeRune (b :: t)).1 = 0x2028 ∨ (decodeRune (b :: t)).1 = 0x2029
          · have henc : jsonStringRunes 0 true (b :: t)
                = lit "\\u202" ++ [hexDigit ((decodeRune (b :: t)).1 % 16)]
                  ++ jsonStringRunes 0 true rest := by
              simp only [jsonStringRunes, hb, if_false, hgood, hsep, if_true, hskip]
              rw [ht, jsonStringRunes_drop]
            rw [henc]
            rcases hsep with hsep | hsep
            · rw [hsep] at hutf ⊢
              have hdec : ∀ y : GoString,
                  unquoteRunes 0 (lit "\\u202" ++ [hexDigit (0x2028 % 16)] ++ y)
                    = (unquoteRunes 0 y).map (utf8Encode 0x2028 ++ ·) := fun y => rfl
              rw [List.append_assoc (lit "\\u202" ++ [hexDigit (0x2028 % 16)]), hdec, hrest, hutf,
                ht]
              rfl
            · rw [hsep] at hutf ⊢
              have hdec : ∀ y : GoString,
                  unquoteRunes 0 (lit "\\u202" ++ [hexDigit (0x2029 % 16)] ++ y)
                    = (unquoteRunes 0 y).map (utf8Encode 0x2029 ++ ·) := fun y => rfl
              rw [List.append_assoc (lit "\\u202" ++ [hexDigit (0x2029 % 16)]), hdec, hrest, hutf,
                ht]
              rfl
          · have henc : jsonStringRunes 0 true (b :: t)
                = b :: (tail ++ jsonStringRunes 0 true rest) := by
              simp only [jsonStringRunes, hb, if_false, hgood, hsep, hskip]
              rw [ht, jsonStringRunes_copy]
            rw [henc, List.cons_append, List.append_assoc, unquoteRunes_wide b hb2, hy, hskip,
              unquoteRunes_skip, hrest, hutf, ht]
            rfl

/-- Decoding the literal that `json.Marshal` writes for a string of valid
UTF-8 gives the string back, byte for byte. -/
theorem jsonUnquote_marshal (s : GoString) (h : ValidString s = true) :
    jsonUnquote (jsonMarshalString s) = some s := by
  have hq : lit "\"" = [0x22] := by decide
  simp only [jsonMarshalString, hq, List.singleton_append, List.cons_append, List.nil_append,
    jsonUnquote, if_true]
  exact unquoteRunes_marshal s.length s (Nat.le_refl _) h

/-! ### Node emitter: the fields of each scheme -/

theorem ssParts_eq (lib : GoLib) (node : ParsedNode) :
    ssParts lib node = .ok (ssFieldsInOrder lib node) := by
  simp only [ssParts, ssFieldsInOrder, fieldsOf, marshalText, bind, Except.bind, pure,
    Except.pure]
  rcases asString (node.Outbound.get (lit "method")) with _ | method <;>
    rcases asString (node.Outbound.get (lit "password")) with _ | password
  · rfl
  · by_cases hp : password = [] <;> simp [hp]
  · by_cases hm : method = [] <;> simp [hm]
  · by_cases hm : method = [] <;> by_cases hp : password = [] <;> simp [hm, hp]

theorem hysteria2ObfsParts_eq (lib : GoLib) (node : ParsedNode) :
    hysteria2ObfsParts lib node
      = .ok (fieldsOf (asObject (node.Outbound.get (lit "obfs")))
          (fun obfs =>
            if obfs.length > 0 ∧ (obfsFieldsInOrder lib obfs).length > 0 then
              [lit "\"obfs\":" ++ objectText (obfsFieldsInOrder lib obfs)]
            else [])) := by
  simp only [hysteria2ObfsParts, fieldsOf]
  rcases asObject (node.Outbound.get (lit "obfs")) with _ | obfs
  · rfl
  · by_cases hlen : obfs.length > 0
    · simp only [hlen, if_true, true_and, obfsFieldsInOrder, fieldsOf, marshalText, bind,
        Except.bind, pure, Except.pure, objectText]
      rcases asString (obfs.get (lit "type")) with _ | obfsType <;>
        rcases asString (obfs.get (lit "password")) with _ | obfsPassword
      · rfl
      · by_cases hp : obfsPassword = [] <;> simp [hp]
      · simp
      · by_cases hp : obfsPassword = [] <;> simp [hp]
    · simp only [hlen, if_false, false_and]
      rfl

theorem hysteria2Parts_eq (lib : GoLib) (node : ParsedNode) :
    hysteria2Parts lib node = .ok (hysteria2FieldsInOrder lib node) := by
  simp only [hysteria2Parts, hysteria2ObfsParts_eq, hysteria2FieldsInOrder, fieldsOf, marshalText,
    bind, Except.bind, pure, Except.pure]
  rcases asString (node.Outbound.get (lit "password")) with _ | password <;>
    rcases asStrings (node.Outbound.get (lit "server_ports")) with _ | _ | ⟨port, serverPorts⟩ <;>
    rcases asInt (node.Outbound.get (lit "up_mbps")) with _ | upMbps <;>
    rcases asInt (node.Outbound.get (lit "down_mbps")) with _ | downMbps <;>
    (try by_cases hp : password = []) <;>
    (try by_cases hu : upMbps > 0) <;>
    (try by_cases hd : downMbps > 0) <;>
    simp [*]

theorem vmessTransportParts_eq (lib : GoLib) (node : ParsedNode) :
    vmessTransportParts lib node
      = fieldsOf (asObject (node.Outbound.get (lit "transport")))
          (fun transport =>
            if transport.length > 0 ∧ (transportFieldsInOrder lib transport).length > 0 then
              [lit "\"transport\":" ++ objectText (transportFieldsInOrder lib transport)]
            else []) := by
  have hh : lit "\"headers\":\x7b" = lit "\"headers\":" ++ lit "\x7b" := by decide
  simp only [vmessTransportParts, fieldsOf]
  rcases asObject (node.Outbound.get (lit "transport")) with _ | transport
  · rfl
  · by_cases hlen : transport.length > 0
    · simp only [hlen, if_true, true_and, transportFieldsInOrder, fieldsOf, objectText]
      rcases asString (transport.get (lit "type")) with _ | tType <;>
        rcases asString (transport.get (lit "path")) with _ | path <;>
        rcases asStringMap (transport.get (lit "headers")) with _ | _ | ⟨header, headers⟩ <;>
        simp [hh]
    · simp only [hlen, if_false, false_and]

theorem uuidParts_eq (lib : GoLib) (node : ParsedNode) :
    uuidParts lib node = uuidFieldsInOrder lib node := by
  simp only [uuidParts, uuidFieldsInOrder, vmessTransportParts_eq, fieldsOf]
  by_cases hvm : node.Scheme = lit "vmess"
  · simp only [hvm, if_true]
    rcases asString (node.Outbound.get (lit "security")) with _ | security <;>
      rcases asInt (node.Outbound.get (lit "alter_id")) with _ | alterID <;>
      (try by_cases hs : security = []) <;>
      simp [*]
  · simp only [hvm, if_false, List.append_nil]

/-- The fragment `GenerateNodeJSON` returns, in terms of the ordered list of
the fields with the condition under which each is emitted. -/
theorem GenerateNodeJSON_inOrder (lib : GoLib) (node : ParsedNode) :
    GenerateNodeJSON lib node = .ok (nodeFrame node.Label (nodeFieldsInOrder lib node)) := by
  rw [GenerateNodeJSON_eq]
  simp only [nodeFields, nodeFieldsInOrder, schemeFields, flowFields, uuidParts_eq,
    hysteria2Parts_eq, ssParts_eq, okParts, tlsParts_eq]

/-! ### Node emitter: string values -/

/-- The round trip of the shadowsocks strings where the code achieves it.  For
every shadowsocks node, with `json.Marshal` writing strings as `encoding/json`
does: when the method, respectively the password, is a non-empty string of
valid UTF-8 (printable or not), the node object has a field `method`,
respectively `password`, whose value is a string literal that decodes to
exactly the original bytes. -/
theorem GenerateNodeJSON_shadowsocks_roundtrip (lib : GoLib) (node : ParsedNode)
    (hlib : ∀ s, lib.jsonMarshal (.str s) = jsonMarshalString s)
    (hscheme : node.Scheme = lit "ss") :
    (∀ method, asString (node.Outbound.get (lit "method")) = some method → method ≠ [] →
        ValidString method = true →
        ∃ before after literal,
          GenerateNodeJSON lib node
              = .ok (nodeFrame node.Label (before ++ (lit "\"method\":" ++ literal) :: after))
            ∧ jsonUnquote literal = some method)
      ∧ (∀ password, asString (node.Outbound.get (lit "password")) = some password →
        password ≠ [] → ValidString password = true →
        ∃ before after literal,
          GenerateNodeJSON lib node
              = .ok (nodeFrame node.Label (before ++ (lit "\"password\":" ++ literal) :: after))
            ∧ jsonUnquote literal = some password) := by
  have hnv : ¬(lit "ss" = lit "vless" ∨ lit "ss" = lit "vmess") := by decide
  have hnt : ¬(lit "ss" = lit "trojan") := by decide
  have hnh : ¬(lit "ss" = lit "hysteria2") := by decide
  have hfields : nodeFieldsInOrder lib node
      = headFields lib node ++ ssFieldsInOrder lib node
        ++ (if node.Flow ≠ [] then [lit "\"flow\":" ++ Quote lib node.Flow] else [])
        ++ fieldsOf (asObject (node.Outbound.get (lit "tls")))
          (fun tlsData => [lit "\"tls\":" ++ objectText (tlsFieldsInOrder lib tlsData)]) := by
    simp only [nodeFieldsInOrder, hscheme, hnv, hnt, hnh, if_false, if_true]
  constructor
  · intro method hm hne hvalid
    refine ⟨headFields lib node,
      fieldsOf (asString (node.Outbound.get (lit "password")))
          (fun password =>
            if password ≠ [] then [lit "\"password\":" ++ lib.jsonMarshal (.str password)]
            else [])
        ++ ((if node.Flow ≠ [] then [lit "\"flow\":" ++ Quote lib node.Flow] else [])
          ++ fieldsOf (asObject (node.Outbound.get (lit "tls")))
            (fun tlsData => [lit "\"tls\":" ++ objectText (tlsFieldsInOrder lib tlsData)])),
      jsonMarshalString method, ?_, jsonUnquote_marshal method hvalid⟩
    rw [GenerateNodeJSON_inOrder, hfields]
    simp only [ssFieldsInOrder, hm, fieldsOf, hne, ne_eq, not_false_eq_true, if_true, hlib,
      List.append_assoc, List.singleton_append, List.cons_append, List.nil_append]
  · intro password hp hne hvalid
    refine ⟨headFields lib node ++ fieldsOf (asString (node.Outbound.get (lit "method")))
        (fun method =>
          if method ≠ [] then [lit "\"method\":" ++ lib.jsonMarshal (.str method)] else []),
      (if node.Flow ≠ [] then [lit "\"flow\":" ++ Quote lib node.Flow] else [])
        ++ fieldsOf (asObject (node.Outbound.get (lit "tls")))
          (fun tlsData => [lit "\"tls\":" ++ objectText (tlsFieldsInOrder lib tlsData)]),
      jsonMarshalString password, ?_, jsonUnquote_marshal password hvalid⟩
    rw [GenerateNodeJSON_inOrder, hfields]
    simp only [ssFieldsInOrder, hp, fieldsOf, hne, ne_eq, not_false_eq_true, if_true, hlib,
      List.append_assoc, List.singleton_append, List.cons_append, List.nil_append]

set_option maxRecDepth 1000000 in
/-- An instance of the round trip: a password made of a letter, the control
character U+0001 and the letter `é`. -/
theorem GenerateNodeJSON_shadowsocks_roundtrip_witness :
    ValidString (lit "p\x01é") = true
      ∧ jsonMarshalString (lit "p\x01é") = lit "\"p\\u0001é\""
      ∧ ∃ before after literal,
          GenerateNodeJSON jsonLib (sampleSSNode (lit "aes-128-gcm") (lit "p\x01é"))
              = .ok (nodeFrame (lit "a") (before ++ (lit "\"password\":" ++ literal) :: after))
            ∧ jsonUnquote literal = some (lit "p\x01é") :=
  ⟨by decide, by decide,
    (GenerateNodeJSON_shadowsocks_roundtrip jsonLib
      (sampleSSNode (lit "aes-128-gcm") (lit "p\x01é")) (fun _ => rfl) rfl).2
      (lit "p\x01é") rfl (by decide) (by decide)⟩

theorem jsonStringRunesWith_escape :
    ∀ (s : GoString) (skip : Nat) (copy : Bool),
      jsonStringRunesWith (lit "\\ufffd") skip copy s = jsonStringRunes skip copy s := by
  intro s
  induction s with
  | nil => intro skip copy; cases skip <;> rfl
  | cons b s ih =>
    intro skip copy
    cases skip with
    | zero => simp only [jsonStringRunesWith, jsonStringRunes, ih]
    | succ skip => simp only [jsonStringRunesWith, jsonStringRunes, ih]

set_option maxRecDepth 1000000 in
/-- C22 (violated by the code). A shadowsocks password made of the byte 0xFF,
which is not valid UTF-8: `json.Marshal` does not keep the byte.  It writes
the escape `\ufffd` (Go 1.22) or the rune U+FFFD itself (Go 1.27), and either
literal decodes to the three bytes EF BF BD of U+FFFD, not to the original
byte. -/
theorem GenerateNodeJSON_shadowsocks_invalid_utf8 :
    ValidString [0xFF] = false
      ∧ GenerateNodeJSON jsonLib (sampleSSNode (lit "aes-128-gcm") [0xFF])
        = .ok (lit "\t// a\n\t\x7b\"tag\":\"a\",\"type\":\"shadowsocks\",\"server\":\"example.org\",\"server_port\":443,\"method\":\"aes-128-gcm\",\"password\":\"\\ufffd\"\x7d,")
      ∧ jsonUnquote (lit "\"\\ufffd\"") = some [0xEF, 0xBF, 0xBD]
      ∧ jsonUnquote (lit "\"\\ufffd\"") ≠ some [0xFF]
      ∧ GenerateNodeJSON (jsonLibWith [0xEF, 0xBF, 0xBD]) (sampleSSNode (lit "aes-128-gcm") [0xFF])
        = .ok (lit "\t// a\n\t\x7b\"tag\":\"a\",\"type\":\"shadowsocks\",\"server\":\"example.org\",\"server_port\":443,\"method\":\"aes-128-gcm\",\"password\":\""
            ++ [0xEF, 0xBF, 0xBD] ++ lit "\"\x7d,")
      ∧ jsonUnquote (lit "\"" ++ [0xEF, 0xBF, 0xBD] ++ lit "\"") = some [0xEF, 0xBF, 0xBD]
      ∧ jsonUnquote (lit "\"" ++ [0xEF, 0xBF, 0xBD] ++ lit "\"") ≠ some [0xFF]
      ∧ (∀ s : GoString, (jsonLibWith (lit "\\ufffd")).jsonMarshal (.str s)
          = jsonLib.jsonMarshal (.str s)) := by
  refine ⟨by decide, by decide, by decide, by decide, by decide, by decide, by decide, ?_⟩
  intro s
  simp only [jsonLibWith, jsonLib, jsonMarshalString, jsonStringRunesWith_escape]

set_option maxRecDepth 1000000 in
/-- C23 (violated by the code). A vless node whose tag is the control
character U+0001 and whose secret is the byte 0xFF: `%q` writes the escapes
`\x01` and `\xff`, which no JSON string literal may hold, so the decoding of
the emitted values of `tag` and `uuid` fails, while the same strings written
as the shadowsocks branch writes its strings (`json.Marshal`) decode. -/
theorem GenerateNodeJSON_invalid_escape :
    GenerateNodeJSON sampleLib { sampleNode [0x01] with UUID := [0xFF] }
        = .ok (lit "\t// \x01\n\t\x7b\"tag\":\"\\x01\",\"type\":\"vless\",\"server\":\"example.org\",\"server_port\":443,\"uuid\":\"\\xff\"\x7d,")
      ∧ jsonUnquote (lit "\"\\x01\"") = none
      ∧ jsonUnquote (lit "\"\\xff\"") = none
      ∧ jsonUnquote (jsonMarshalString [0x01]) = some [0x01] := by
  refine ⟨by decide, by decide, by decide, by decide⟩

/-! ### Node emitter: no field is `null` -/

theorem endsPlain_append (x v : GoString) (h : endsPlain v = true) :
    endsPlain (x ++ v) = true := by
  have hne : v ≠ [] := by
    intro h0; rw [h0] at h; exact absurd h (by decide)
  simp only [endsPlain, List.getLast?_append_of_ne_nil x hne] at h ⊢
  exact h

theorem endsPlain_concat (x : GoString) (c : UInt8) (h : c ≠ 0x6C) :
    endsPlain (x ++ [c]) = true := by
  simp [endsPlain, List.getLast?_concat, h]

theorem not_null_of_endsPlain (part : GoString) (h : endsPlain part = true) :
    HasSuffix part (lit ":null") = false := by
  rw [Bool.eq_false_iff]
  intro hs
  have hn : lit ":null" = [0x3A, 0x6E, 0x75, 0x6C] ++ [0x6C] := by decide
  simp only [HasSuffix, List.isSuffixOf_iff_suffix] at hs
  obtain ⟨w, hw⟩ := hs
  rw [hn, ← List.append_assoc] at hw
  rw [← hw, endsPlain, List.getLast?_concat] at h
  exact absurd h (by decide)

theorem digitChar_plain : ∀ m, m < 10 → UInt8.ofNat (Nat.digitChar m).toNat ≠ 0x6C := by
  decide

theorem toDigitsCore_append (fuel : Nat) :
    ∀ (n : Nat) (acc : List Char), ∃ digits, Nat.toDigitsCore 10 fuel n acc = digits ++ acc := by
  induction fuel with
  | zero => intro n acc; exact ⟨[], rfl⟩
  | succ fuel ih =>
    intro n acc
    simp only [Nat.toDigitsCore]
    split
    · exact ⟨[Nat.digitChar (n % 10)], rfl⟩
    · obtain ⟨digits, h⟩ := ih (n / 10) (Nat.digitChar (n % 10) :: acc)
      exact ⟨digits ++ [Nat.digitChar (n % 10)], by rw [h]; simp⟩

theorem endsPlain_formatNat (n : Nat) : endsPlain (formatNat n) = true := by
  obtain ⟨digits, h⟩ : ∃ digits, Nat.toDigits 10 n = digits ++ [Nat.digitChar (n % 10)] := by
    simp only [Nat.toDigits, Nat.toDigitsCore]
    split
    · exact ⟨[], rfl⟩
    · exact toDigitsCore_append n (n / 10) [Nat.digitChar (n % 10)]
  simp only [formatNat, h, List.map_append, List.map_cons, List.map_nil]
  exact endsPlain_concat _ _ (digitChar_plain (n % 10) (Nat.mod_lt n (by decide)))

theorem endsPlain_formatInt (i : Int) : endsPlain (formatInt i) = true := by
  simp only [formatInt]
  split
  · exact endsPlain_append _ _ (endsPlain_formatNat _)
  · exact endsPlain_formatNat _

theorem endsPlain_Quote (lib : GoLib) (s : GoString) : endsPlain (Quote lib s) = true := by
  have hq : lit "\"" = [0x22] := by decide
  rw [Quote, hq]
  exact endsPlain_concat _ _ (by decide)

theorem endsPlain_formatBool (b : Bool) : endsPlain (formatBool b) = true := by
  cases b <;> decide

theorem endsPlain_objectText (fields : List GoString) : endsPlain (objectText fields) = true := by
  have hq : lit "\x7d" = [0x7D] := by decide
  rw [objectText, hq]
  exact endsPlain_concat _ _ (by decide)

theorem all_fieldsOf {α : Type} (p : GoString → Bool) (value : Option α)
    (fields : α → List GoString) (h : ∀ v, (fields v).all p = true) :
    (fieldsOf value fields).all p = true := by
  cases value with
  | none => rfl
  | some v => exact h v

theorem all_ite (p : GoString → Bool) (c : Prop) [Decidable c] (a b : List GoString)
    (ha : a.all p = true) (hb : b.all p = true) : (if c then a else b).all p = true := by
  split <;> assumption

theorem all_single (p : GoString → Bool) (x : GoString) (h : p x = true) :
    [x].all p = true := by
  simp [h]

theorem all_append (p : GoString → Bool) (a b : List GoString)
    (ha : a.all p = true) (hb : b.all p = true) : (a ++ b).all p = true := by
  simp [List.all_append, ha, hb]

theorem all_map_keys (p : GoString → Bool) (l : List (GoString × GoString))
    (g : GoString × GoString → GoString) (h : ∀ kv, p (g kv) = true) :
    (l.map g).all p = true := by
  induction l with
  | nil => rfl
  | cons kv l ih => simp only [List.map_cons, List.all_cons, h kv, ih, Bool.and_self]

theorem endsPlain_of_last (text : GoString) (c : UInt8) (h : text.getLast? = some c)
    (hc : c ≠ 0x6C) : endsPlain text = true := by
  simp [endsPlain, h, hc]

theorem headFields_plain (lib : GoLib) (node : ParsedNode) :
    (headFields lib node).all endsPlain = true := by
  simp only [headFields, List.all_cons, List.all_nil, Bool.and_true, Bool.and_eq_true]
  exact ⟨endsPlain_append _ _ (endsPlain_Quote _ _), endsPlain_append _ _ (endsPlain_Quote _ _),
    endsPlain_append _ _ (endsPlain_Quote _ _), endsPlain_append _ _ (endsPlain_formatInt _)⟩

theorem single_Quote (lib : GoLib) (name s : GoString) :
    [name ++ Quote lib s].all endsPlain = true :=
  all_single _ _ (endsPlain_append _ _ (endsPlain_Quote lib s))

theorem single_formatBool (name : GoString) (b : Bool) :
    [name ++ formatBool b].all endsPlain = true :=
  all_single _ _ (endsPlain_append _ _ (endsPlain_formatBool b))

theorem single_formatInt (name : GoString) (i : Int) :
    [name ++ formatInt i].all endsPlain = true :=
  all_single _ _ (endsPlain_append _ _ (endsPlain_formatInt i))

theorem single_objectText (name : GoString) (fields : List GoString) :
    [name ++ objectText fields].all endsPlain = true :=
  all_single _ _ (endsPlain_append _ _ (endsPlain_objectText fields))

theorem single_of_last (name text : GoString) (c : UInt8) (h : text.getLast? = some c)
    (hc : c ≠ 0x6C) : [name ++ text].all endsPlain = true :=
  all_single _ _ (endsPlain_append _ _ (endsPlain_of_last text c h hc))

theorem utlsFields_plain (lib : GoLib) (utls : DynMap) :
    (utlsFieldsInOrder lib utls).all endsPlain = true :=
  all_append _ _ _ (all_fieldsOf _ _ _ (fun _ => single_formatBool _ _))
    (all_fieldsOf _ _ _ (fun _ => single_Quote lib _ _))

theorem realityFields_plain (lib : GoLib) (reality : DynMap) :
    (realityFieldsInOrder lib reality).all endsPlain = true :=
  all_append _ _ _
    (all_append _ _ _ (all_fieldsOf _ _ _ (fun _ => single_formatBool _ _))
      (all_fieldsOf _ _ _ (fun _ => single_Quote lib _ _)))
    (all_fieldsOf _ _ _ (fun _ => single_Quote lib _ _))

theorem tlsFields_plain (lib : GoLib) (tlsData : DynMap)
    (hstrs : ∀ l, (lib.jsonMarshal (.strs l)).getLast? = some 0x5D) :
    (tlsFieldsInOrder lib tlsData).all endsPlain = true :=
  all_append _ _ _
    (all_append _ _ _
      (all_append _ _ _
        (all_append _ _ _
          (all_append _ _ _ (all_fieldsOf _ _ _ (fun _ => single_formatBool _ _))
            (all_fieldsOf _ _ _ (fun _ => single_Quote lib _ _)))
          (all_fieldsOf _ _ _ (fun _ =>
            all_ite _ _ _ _ (single_of_last _ _ _ (hstrs _) (by decide)) List.all_nil)))
        (all_fieldsOf _ _ _ (fun _ => single_objectText _ _)))
      (all_fieldsOf _ _ _ (fun _ =>
        all_ite _ _ _ _ (all_single _ _ (endsPlain_append _ _ (by decide))) List.all_nil)))
    (all_fieldsOf _ _ _ (fun _ => single_objectText _ _))

theorem transportFields_plain (lib : GoLib) (transport : DynMap) :
    (transportFieldsInOrder lib transport).all endsPlain = true :=
  all_append _ _ _
    (all_append _ _ _ (all_fieldsOf _ _ _ (fun _ => single_Quote lib _ _))
      (all_fieldsOf _ _ _ (fun _ => single_Quote lib _ _)))
    (all_fieldsOf _ _ _ (fun _ => all_ite _ _ _ _ (single_objectText _ _) List.all_nil))

theorem obfsFields_plain (lib : GoLib) (obfs : DynMap)
    (hstr : ∀ s, (lib.jsonMarshal (.str s)).getLast? = some 0x22) :
    (obfsFieldsInOrder lib obfs).all endsPlain = true :=
  all_append _ _ _ (all_fieldsOf _ _ _ (fun _ => single_Quote lib _ _))
    (all_fieldsOf _ _ _ (fun _ =>
      all_ite _ _ _ _ (single_of_last _ _ _ (hstr _) (by decide)) List.all_nil))

theorem uuidFields_plain (lib : GoLib) (node : ParsedNode) :
    (uuidFieldsInOrder lib node).all endsPlain = true :=
  all_append _ _ _ (single_Quote lib _ _)
    (all_ite _ _ _ _
      (all_append _ _ _
        (all_append _ _ _
          (all_fieldsOf _ _ _ (fun _ => all_ite _ _ _ _ (single_Quote lib _ _) List.all_nil))
          (all_fieldsOf _ _ _ (fun _ => single_formatInt _ _)))
        (all_fieldsOf _ _ _ (fun _ => all_ite _ _ _ _ (single_objectText _ _) List.all_nil)))
      List.all_nil)

theorem hysteria2Fields_plain (lib : GoLib) (node : ParsedNode)
    (hstr : ∀ s, (lib.jsonMarshal (.str s)).getLast? = some 0x22)
    (hstrs : ∀ l, (lib.jsonMarshal (.strs l)).getLast? = some 0x5D) :
    (hysteria2FieldsInOrder lib node).all endsPlain = true :=
  all_append _ _ _
    (all_append _ _ _
      (all_append _ _ _
        (all_append _ _ _
          (all_fieldsOf _ _ _ (fun _ =>
            all_ite _ _ _ _ (single_of_last _ _ _ (hstr _) (by decide)) List.all_nil))
          (all_fieldsOf _ _ _ (fun _ =>
            all_ite _ _ _ _ (single_of_last _ _ _ (hstrs _) (by decide)) List.all_nil)))
        (all_fieldsOf _ _ _ (fun _ => all_ite _ _ _ _ (single_formatInt _ _) List.all_nil)))
      (all_fieldsOf _ _ _ (fun _ => all_ite _ _ _ _ (single_formatInt _ _) List.all_nil)))
    (all_fieldsOf _ _ _ (fun _ => all_ite _ _ _ _ (single_objectText _ _) List.all_nil))

theorem ssFields_plain (lib : GoLib) (node : ParsedNode)
    (hstr : ∀ s, (lib.jsonMarshal (.str s)).getLast? = some 0x22) :
    (ssFieldsInOrder lib node).all endsPlain = true :=
  all_append _ _ _
    (all_fieldsOf _ _ _ (fun _ =>
      all_ite _ _ _ _ (single_of_last _ _ _ (hstr _) (by decide)) List.all_nil))
    (all_fieldsOf _ _ _ (fun _ =>
      all_ite _ _ _ _ (single_of_last _ _ _ (hstr _) (by decide)) List.all_nil))

theorem nodeFields_plain (lib : GoLib) (node : ParsedNode)
    (hstr : ∀ s, (lib.jsonMarshal (.str s)).getLast? = some 0x22)
    (hstrs : ∀ l, (lib.jsonMarshal (.strs l)).getLast? = some 0x5D) :
    (nodeFieldsInOrder lib node).all endsPlain = true := by
  unfold nodeFieldsInOrder
  refine all_append _ _ _ (all_append _ _ _ (all_append _ _ _ (headFields_plain lib node) ?_) ?_) ?_
  · refine all_ite _ _ _ _ (uuidFields_plain lib node)
      (all_ite _ _ _ _ (single_Quote lib _ _)
        (all_ite _ _ _ _ (hysteria2Fields_plain lib node hstr hstrs)
          (all_ite _ _ _ _ (ssFields_plain lib node hstr) List.all_nil)))
  · exact all_ite _ _ _ _ (single_Quote lib _ _) List.all_nil
  · exact all_fieldsOf _ _ _ (fun _ => single_objectText _ _)

theorem nestedFields_plain (lib : GoLib) (node : ParsedNode)
    (hstr : ∀ s, (lib.jsonMarshal (.str s)).getLast? = some 0x22)
    (hstrs : ∀ l, (lib.jsonMarshal (.strs l)).getLast? = some 0x5D) :
    (nestedFieldsInOrder lib node).all endsPlain = true := by
  unfold nestedFieldsInOrder
  refine all_append _ _ _ (all_append _ _ _ ?_ ?_) ?_
  · refine all_fieldsOf _ _ _ (fun transport =>
      all_append _ _ _ (transportFields_plain lib transport) ?_)
    exact all_fieldsOf _ _ _ (fun headers =>
      all_map_keys _ _ _ (fun kv => endsPlain_append _ _ (endsPlain_Quote _ _)))
  · exact all_fieldsOf _ _ _ (fun obfs => obfsFields_plain lib obfs hstr)
  · refine all_fieldsOf _ _ _ (fun tlsData =>
      all_append _ _ _ (all_append _ _ _ (tlsFields_plain lib tlsData hstrs) ?_) ?_)
    · exact all_fieldsOf _ _ _ (fun utls => utlsFields_plain lib utls)
    · exact all_fieldsOf _ _ _ (fun reality => realityFields_plain lib reality)

/-- C26 (as amended). For every node, with `json.Marshal` writing a string as
a quoted text and a list of strings as a bracketed text: the fields of the
emitted object are exactly those of `nodeFieldsInOrder`, that is `tag`,
`type`, `server`, `server_port` and the `uuid` or `password` taken from the
secret field whatever their value, and every other field only when the node
holds it, the fields `security`, `flow`, `method`, `password`, `server_ports`,
`up_mbps`, `down_mbps`, `transport`, `obfs`, `headers`, `alpn` and `insecure`
only when their value is not zero; and no field of the object, or of an
object nested in it, has the value `null`. -/
theorem GenerateNodeJSON_fields (lib : GoLib) (node : ParsedNode)
    (hstr : ∀ s, (lib.jsonMarshal (.str s)).getLast? = some 0x22)
    (hstrs : ∀ l, (lib.jsonMarshal (.strs l)).getLast? = some 0x5D) :
    GenerateNodeJSON lib node = .ok (nodeFrame node.Label (nodeFieldsInOrder lib node))
      ∧ ∀ part ∈ nodeFieldsInOrder lib node ++ nestedFieldsInOrder lib node,
          HasSuffix part (lit ":null") = false := by
  refine ⟨GenerateNodeJSON_inOrder lib node, fun part hpart => ?_⟩
  apply not_null_of_endsPlain
  rcases List.mem_append.mp hpart with h | h
  · exact List.all_eq_true.mp (nodeFields_plain lib node hstr hstrs) part h
  · exact List.all_eq_true.mp (nestedFields_plain lib node hstr hstrs) part h

set_option maxRecDepth 1000000 in
/-- Witness for C26: the sample library and the node `sampleTLSNode`. -/
theorem GenerateNodeJSON_fields_witness :
    (∀ s, (sampleLib.jsonMarshal (.str s)).getLast? = some 0x22)
      ∧ (∀ l, (sampleLib.jsonMarshal (.strs l)).getLast? = some 0x5D)
      ∧ GenerateNodeJSON sampleLib sampleTLSNode
        = .ok (nodeFrame sampleTLSNode.Label (nodeFieldsInOrder sampleLib sampleTLSNode))
      ∧ ∀ part ∈ nodeFieldsInOrder sampleLib sampleTLSNode
            ++ nestedFieldsInOrder sampleLib sampleTLSNode,
          HasSuffix part (lit ":null") = false :=
  have hq : lit "\"" = [0x22] := by decide
  have hb : lit "]" = [0x5D] := by decide
  have hstr : ∀ s, (sampleLib.jsonMarshal (.str s)).getLast? = some 0x22 := fun s => by
    simp only [sampleLib, hq]
    exact List.getLast?_concat _
  have hstrs : ∀ l, (sampleLib.jsonMarshal (.strs l)).getLast? = some 0x5D := fun l => by
    simp only [sampleLib, hb]
    exact List.getLast?_concat _
  ⟨hstr, hstrs, GenerateNodeJSON_fields sampleLib sampleTLSNode hstr hstrs⟩

set_option maxRecDepth 1000000 in
/-- C26 (as stated, refuted). A vless node with an empty tag, an empty server,
the port 0 and an empty secret: the four fields and `uuid` are emitted all
the same, with the values `""` and `0`. -/
theorem GenerateNodeJSON_emits_zero_values :
    GenerateNodeJSON sampleLib { sampleNode [] with Server := [], Port := 0, UUID := [] }
      = .ok (lit "\t// \n\t\x7b\"tag\":\"\",\"type\":\"vless\",\"server\":\"\",\"server_port\":0,\"uuid\":\"\"\x7d,") := by
  decide
/-! ### Selector pools and counters -/

theorem mem_dedupKeepFirst (x : GoString) :
    ∀ l : List GoString, x ∈ dedupKeepFirst l ↔ x ∈ l := by
  intro l
  induction l with
  | nil => simp [dedupKeepFirst]
  | cons y ys ih =>
    simp only [dedupKeepFirst, List.mem_cons, List.mem_filter, ih, ne_eq, decide_not,
      Bool.not_eq_true', decide_eq_false_iff_not]
    constructor
    · rintro (h | ⟨h, _⟩)
      · exact Or.inl h
      · exact Or.inr h
    · intro h
      by_cases hxy : x = y
      · exact Or.inl hxy
      · rcases h with h | h
        · exact Or.inl h
        · exact Or.inr ⟨h, hxy⟩

theorem mem_selectorOutbounds (addOutbounds : List GoString) (filteredNodes : List ParsedNode)
    (tag : GoString) :
    tag ∈ selectorOutbounds addOutbounds filteredNodes
      ↔ tag ∈ addOutbounds ∨ ∃ node ∈ filteredNodes, node.Tag = tag := by
  rw [selectorOutbounds_eq, mem_dedupKeepFirst]
  simp

theorem mem_filterNodesForSelector_object (lib : GoLib) (allNodes : List ParsedNode)
    (filterMap : DynMap) (node : ParsedNode)
    (h : node ∈ filterNodesForSelector lib allNodes (.object filterMap)) : node ∈ allNodes := by
  rw [filterNodesForSelector_object] at h
  exact (List.mem_filter.mp h).1

theorem sourceLoads_length (loadNodesFunc : LoadNodesFunc) (totalSources : Int) :
    ∀ (sources : List ProxySource) (i : Nat) (tagCounts : TagCounts),
      (sourceLoads loadNodesFunc totalSources sources i tagCounts).length = sources.length := by
  intro sources
  induction sources with
  | nil => intro i tagCounts; rfl
  | cons proxySource rest ih =>
    intro i tagCounts
    simp only [sourceLoads, List.length_cons, ih]

theorem mem_selectorFragments (lib : GoLib) (nodes : List ParsedNode)
    (outbounds : List OutboundConfig) (selectorJSON : GoString)
    (h : selectorJSON ∈ selectorFragments lib nodes outbounds) :
    ∃ outboundConfig ∈ outbounds,
      GenerateSelector lib nodes outboundConfig = .ok selectorJSON ∧ selectorJSON ≠ [] := by
  simp only [selectorFragments, List.mem_filterMap] at h
  obtain ⟨outboundConfig, hmem, hsome⟩ := h
  refine ⟨outboundConfig, hmem, ?_⟩
  cases hg : GenerateSelector lib nodes outboundConfig with
  | error e =>
    rw [hg] at hsome
    exact absurd hsome (by simp)
  | ok json =>
    rw [hg] at hsome
    by_cases hne : json = []
    · simp [hne] at hsome
    · simp only [ne_eq, hne, not_false_eq_true, if_true, Option.some.injEq] at hsome
      subst hsome
      exact ⟨rfl, hne⟩
theorem localSelectorFragments_zipWith (lib : GoLib) :
    ∀ (sources : List ProxySource) (loads : List (List ParsedNode)),
      localSelectorFragments lib sources loads
        = (List.zipWith (fun (proxySource : ProxySource) (nodes : List ParsedNode) =>
              if nodes.length = 0 then []
              else selectorFragments lib nodes proxySource.Outbounds) sources loads).flatten := by
  intro sources
  induction sources with
  | nil => intro loads; simp [localSelectorFragments]
  | cons proxySource rest ih =>
    intro loads
    cases loads with
    | nil => simp [localSelectorFragments]
    | cons nodes more =>
      simp only [localSelectorFragments, List.zipWith_cons_cons, List.flatten_cons, ih]

/-- C31. For every successful run of `GenerateOutboundsFromParserConfig`: the
sources and the node lists loaded from them correspond one to one; after the
node fragments, `OutboundsJSON` holds, source by source, the selectors
`GenerateSelector` produces for the local `outbounds` of source `i` over the
nodes loaded from source `i` alone (none for a source without nodes), then the
selectors `GenerateSelector` produces for the global `outbounds` over the
concatenation of the nodes of all sources; and every selector produced over a
pool for a list of configurations is the non-empty text `GenerateSelector`
returns for one of them over that pool, each member of its `outbounds` being
one of its own `addOutbounds` or the tag of a node of that pool. -/
theorem GenerateOutbounds_selector_pools (lib : GoLib) (parserConfig : ParserConfig)
    (tagCounts : TagCounts) (loadNodesFunc : LoadNodesFunc) (result : OutboundGenerationResult)
    (h : (GenerateOutboundsFromParserConfig lib parserConfig tagCounts loadNodesFunc).1
      = .ok result) :
    (sourceLoads loadNodesFunc parserConfig.ParserConfig.Proxies.length
        parserConfig.ParserConfig.Proxies 0 tagCounts).length
      = parserConfig.ParserConfig.Proxies.length
    ∧ result.OutboundsJSON
      = (sourceLoads loadNodesFunc parserConfig.ParserConfig.Proxies.length
            parserConfig.ParserConfig.Proxies 0 tagCounts).flatten.map (nodeFragment lib)
        ++ (List.zipWith (fun (proxySource : ProxySource) (nodes : List ParsedNode) =>
              if nodes.length = 0 then []
              else selectorFragments lib nodes proxySource.Outbounds)
            parserConfig.ParserConfig.Proxies
            (sourceLoads loadNodesFunc parserConfig.ParserConfig.Proxies.length
              parserConfig.ParserConfig.Proxies 0 tagCounts)).flatten
        ++ selectorFragments lib
            (sourceLoads loadNodesFunc parserConfig.ParserConfig.Proxies.length
              parserConfig.ParserConfig.Proxies 0 tagCounts).flatten
            parserConfig.ParserConfig.Outbounds
    ∧ ∀ (nodes : List ParsedNode) (outbounds : List OutboundConfig) (selectorJSON : GoString),
        selectorJSON ∈ selectorFragments lib nodes outbounds →
          ∃ outboundConfig ∈ outbounds,
            GenerateSelector lib nodes outboundConfig = .ok selectorJSON
            ∧ selectorJSON
              = selectorCommentLine outboundConfig ++ (lit "\t" ++ (lit "\x7b" ++ Join
                  (selectorParts lib outboundConfig
                    (selectorOutbounds outboundConfig.AddOutbounds
                      (filterNodesForSelector lib nodes (.object outboundConfig.Filters)))
                    (selectorDefaultTag lib outboundConfig.PreferredDefault
                      (filterNodesForSelector lib nodes (.object outboundConfig.Filters))))
                  (lit ",") ++ lit "\x7d") ++ lit ",")
            ∧ ∀ tag ∈ selectorOutbounds outboundConfig.AddOutbounds
                  (filterNodesForSelector lib nodes (.object outboundConfig.Filters)),
                tag ∈ outboundConfig.AddOutbounds ∨ ∃ node ∈ nodes, node.Tag = tag := by
  refine ⟨sourceLoads_length _ _ _ _ _, ?_, ?_⟩
  · rw [GenerateOutboundsFromParserConfig_eq] at h
    split at h
    · exact absurd h (by simp)
    · injection h with h
      rw [← h, localSelectorFragments_zipWith]
  · intro nodes outbounds selectorJSON hmem
    obtain ⟨outboundConfig, hcfg, hgen, hne⟩ := mem_selectorFragments lib nodes outbounds _ hmem
    refine ⟨outboundConfig, hcfg, hgen, ?_, ?_⟩
    · rw [GenerateSelector_eq] at hgen
      injection hgen with hgen
      split at hgen
      · exact absurd hgen.symm hne
      · exact hgen.symm
    · intro tag htag
      rcases (mem_selectorOutbounds _ _ tag).mp htag with hadd | ⟨node, hnode, hnt⟩
      · exact Or.inl hadd
      · exact Or.inr ⟨node, mem_filterNodesForSelector_object lib nodes _ node hnode, hnt⟩

set_option maxRecDepth 1000000 in
/-- Witness for C31: in the run `sampleRun` the local selector of the first
source has the members `direct` and `a`, not `b`, and the global selector has
the members `a` and `b`. -/
theorem GenerateOutbounds_selector_pools_witness :
    sampleRun = .ok
      { OutboundsJSON :=
          [lit "\t// a\n\t\x7b\"tag\":\"a\",\"type\":\"vless\",\"server\":\"example.org\",\"server_port\":443,\"uuid\":\"u\"\x7d,",
           lit "\t// b\n\t\x7b\"tag\":\"b\",\"type\":\"vless\",\"server\":\"example.org\",\"server_port\":443,\"uuid\":\"u\"\x7d,",
           lit "\t\x7b\"tag\":\"proxy\",\"type\":\"selector\",\"outbounds\":[\"direct\",\"a\"]\x7d,",
           lit "\t\x7b\"tag\":\"proxy\",\"type\":\"selector\",\"outbounds\":[\"a\",\"b\"]\x7d,"]
        NodesCount := 2
        LocalSelectorsCount := 1
        GlobalSelectorsCount := 1 }
    ∧ (sourceLoads (LoadNodesFromSource sampleDecoder) 2
          [sampleSource [lit "vless://a"] [sampleSelector [lit "direct"] [] []],
           sampleSource [lit "vless://b"] []] 0 TagCounts.empty).length = 2 :=
  have hrun : sampleRun = .ok
      { OutboundsJSON :=
          [lit "\t// a\n\t\x7b\"tag\":\"a\",\"type\":\"vless\",\"server\":\"example.org\",\"server_port\":443,\"uuid\":\"u\"\x7d,",
           lit "\t// b\n\t\x7b\"tag\":\"b\",\"type\":\"vless\",\"server\":\"example.org\",\"server_port\":443,\"uuid\":\"u\"\x7d,",
           lit "\t\x7b\"tag\":\"proxy\",\"type\":\"selector\",\"outbounds\":[\"direct\",\"a\"]\x7d,",
           lit "\t\x7b\"tag\":\"proxy\",\"type\":\"selector\",\"outbounds\":[\"a\",\"b\"]\x7d,"]
        NodesCount := 2
        LocalSelectorsCount := 1
        GlobalSelectorsCount := 1 } := by decide
  ⟨hrun, (GenerateOutbounds_selector_pools sampleLib _ TagCounts.empty
    (LoadNodesFromSource sampleDecoder) _ hrun).1⟩

/-- C38. For every successful run of `GenerateOutboundsFromParserConfig`, the
length of `OutboundsJSON` is `NodesCount + LocalSelectorsCount +
GlobalSelectorsCount` and `NodesCount` is the total number of nodes loaded
from all sources, `GenerateNodeJSON` and `GenerateSelector` returning no error
on any input. -/
theorem GenerateOutbounds_counts (lib : GoLib) (parserConfig : ParserConfig)
    (tagCounts : TagCounts) (loadNodesFunc : LoadNodesFunc) (result : OutboundGenerationResult)
    (h : (GenerateOutboundsFromParserConfig lib parserConfig tagCounts loadNodesFunc).1
      = .ok result) :
    (result.OutboundsJSON.length : Int)
      = result.NodesCount + result.LocalSelectorsCount + result.GlobalSelectorsCount
    ∧ result.NodesCount
      = (((sourceLoads loadNodesFunc parserConfig.ParserConfig.Proxies.length
            parserConfig.ParserConfig.Proxies 0 tagCounts).map List.length).sum : Int)
    ∧ (∀ node : ParsedNode, ∃ nodeJSON, GenerateNodeJSON lib node = .ok nodeJSON)
    ∧ (∀ (allNodes : List ParsedNode) (outboundConfig : OutboundConfig),
        ∃ selectorJSON, GenerateSelector lib allNodes outboundConfig = .ok selectorJSON) := by
  refine ⟨?_, ?_, GenerateNodeJSON_ok lib, fun allNodes outboundConfig =>
    ⟨_, GenerateSelector_eq lib allNodes outboundConfig⟩⟩
  · rw [GenerateOutboundsFromParserConfig_eq] at h
    split at h
    · exact absurd h (by simp)
    · injection h with h
      rw [← h]
      simp only [List.length_append, List.length_map, Nat.cast_add]
  · rw [GenerateOutboundsFromParserConfig_eq] at h
    split at h
    · exact absurd h (by simp)
    · injection h with h
      rw [← h]
      simp only [List.length_flatten]

set_option maxRecDepth 1000000 in
/-- Witness for C38: the run `sampleRun` succeeds with four fragments, two of
them nodes, one a local and one a global selector. -/
theorem GenerateOutbounds_counts_witness :
    sampleRun = .ok
      { OutboundsJSON :=
          [lit "\t// a\n\t\x7b\"tag\":\"a\",\"type\":\"vless\",\"server\":\"example.org\",\"server_port\":443,\"uuid\":\"u\"\x7d,",
           lit "\t// b\n\t\x7b\"tag\":\"b\",\"type\":\"vless\",\"server\":\"example.org\",\"server_port\":443,\"uuid\":\"u\"\x7d,",
           lit "\t\x7b\"tag\":\"proxy\",\"type\":\"selector\",\"outbounds\":[\"direct\",\"a\"]\x7d,",
           lit "\t\x7b\"tag\":\"proxy\",\"type\":\"selector\",\"outbounds\":[\"a\",\"b\"]\x7d,"]
        NodesCount := 2
        LocalSelectorsCount := 1
        GlobalSelectorsCount := 1 }
    ∧ ((4 : Nat) : Int) = 2 + 1 + 1 :=
  have hrun : sampleRun = .ok
      { OutboundsJSON :=
          [lit "\t// a\n\t\x7b\"tag\":\"a\",\"type\":\"vless\",\"server\":\"example.org\",\"server_port\":443,\"uuid\":\"u\"\x7d,",
           lit "\t// b\n\t\x7b\"tag\":\"b\",\"type\":\"vless\",\"server\":\"example.org\",\"server_port\":443,\"uuid\":\"u\"\x7d,",
           lit "\t\x7b\"tag\":\"proxy\",\"type\":\"selector\",\"outbounds\":[\"direct\",\"a\"]\x7d,",
           lit "\t\x7b\"tag\":\"proxy\",\"type\":\"selector\",\"outbounds\":[\"a\",\"b\"]\x7d,"]
        NodesCount := 2
        LocalSelectorsCount := 1
        GlobalSelectorsCount := 1 } := by decide
  ⟨hrun, (GenerateOutbounds_counts sampleLib _ TagCounts.empty
    (LoadNodesFromSource sampleDecoder) _ hrun).1⟩
theorem filterNodesForSelector_nil (lib : GoLib) (filterMap : DynMap) :
    filterNodesForSelector lib [] (.object filterMap) = [] := by
  rw [filterNodesForSelector_object]
  rfl

theorem selectorFragments_single (lib : GoLib) (nodes : List ParsedNode)
    (outboundConfig : OutboundConfig)
    (h : selectorOutbounds outboundConfig.AddOutbounds
      (filterNodesForSelector lib nodes (.object outboundConfig.Filters)) ≠ []) :
    selectorFragments lib nodes [outboundConfig]
      = [selectorCommentLine outboundConfig ++ (lit "\t" ++ (lit "\x7b" ++ Join
          (selectorParts lib outboundConfig
            (selectorOutbounds outboundConfig.AddOutbounds
              (filterNodesForSelector lib nodes (.object outboundConfig.Filters)))
            (selectorDefaultTag lib outboundConfig.PreferredDefault
              (filterNodesForSelector lib nodes (.object outboundConfig.Filters))))
          (lit ",") ++ lit "\x7d") ++ lit ",")] := by
  have hne : selectorCommentLine outboundConfig ++ (lit "\t" ++ (lit "\x7b" ++ Join
        (selectorParts lib outboundConfig
          (selectorOutbounds outboundConfig.AddOutbounds
            (filterNodesForSelector lib nodes (.object outboundConfig.Filters)))
          (selectorDefaultTag lib outboundConfig.PreferredDefault
            (filterNodesForSelector lib nodes (.object outboundConfig.Filters))))
        (lit ",") ++ lit "\x7d") ++ lit ",") ≠ [] := by
    intro h0
    have hlen := congrArg List.length h0
    have ht : (lit "\t").length = 1 := by decide
    simp only [List.length_append, ht, List.length_nil] at hlen
    omega
  simp only [selectorFragments, List.filterMap_cons, List.filterMap_nil, GenerateSelector_eq,
    if_neg h, if_pos hne]

/-- C39. In every successful run of `GenerateOutboundsFromParserConfig` the
local selectors are emitted source by source, and the group of a source that
loaded zero nodes is empty, whatever its local `outbounds` and their
`addOutbounds`.  A configuration with a non-empty `addOutbounds` does yield a
selector from `GenerateSelector` over an empty pool, and as a global selector
over any pool; its members are its `addOutbounds` (first occurrences)
followed by the tags of the filtered nodes of the pool, so exactly its
`addOutbounds` when the pool gives no filtered node. -/
theorem local_selector_needs_nodes (lib : GoLib) (parserConfig : ParserConfig)
    (tagCounts : TagCounts) (loadNodesFunc : LoadNodesFunc) (result : OutboundGenerationResult)
    (outboundConfig : OutboundConfig) (pool : List ParsedNode)
    (h : (GenerateOutboundsFromParserConfig lib parserConfig tagCounts loadNodesFunc).1
      = .ok result)
    (hadd : outboundConfig.AddOutbounds ≠ []) :
    result.OutboundsJSON
      = (sourceLoads loadNodesFunc parserConfig.ParserConfig.Proxies.length
            parserConfig.ParserConfig.Proxies 0 tagCounts).flatten.map (nodeFragment lib)
        ++ (List.zipWith (fun (proxySource : ProxySource) (nodes : List ParsedNode) =>
              if nodes.length = 0 then []
              else selectorFragments lib nodes proxySource.Outbounds)
            parserConfig.ParserConfig.Proxies
            (sourceLoads loadNodesFunc parserConfig.ParserConfig.Proxies.length
              parserConfig.ParserConfig.Proxies 0 tagCounts)).flatten
        ++ selectorFragments lib
            (sourceLoads loadNodesFunc parserConfig.ParserConfig.Proxies.length
              parserConfig.ParserConfig.Proxies 0 tagCounts).flatten
            parserConfig.ParserConfig.Outbounds
    ∧ (∀ i : Nat,
        (sourceLoads loadNodesFunc parserConfig.ParserConfig.Proxies.length
            parserConfig.ParserConfig.Proxies 0 tagCounts)[i]? = some [] →
        (List.zipWith (fun (proxySource : ProxySource) (nodes : List ParsedNode) =>
              if nodes.length = 0 then []
              else selectorFragments lib nodes proxySource.Outbounds)
            parserConfig.ParserConfig.Proxies
            (sourceLoads loadNodesFunc parserConfig.ParserConfig.Proxies.length
              parserConfig.ParserConfig.Proxies 0 tagCounts))[i]? = some [])
    ∧ GenerateSelector lib [] outboundConfig
      = .ok (selectorCommentLine outboundConfig ++ (lit "\t" ++ (lit "\x7b" ++ Join
          (selectorParts lib outboundConfig (dedupKeepFirst outboundConfig.AddOutbounds) [])
          (lit ",") ++ lit "\x7d") ++ lit ","))
    ∧ selectorFragments lib pool [outboundConfig]
      = [selectorCommentLine outboundConfig ++ (lit "\t" ++ (lit "\x7b" ++ Join
          (selectorParts lib outboundConfig
            (dedupKeepFirst (outboundConfig.AddOutbounds
              ++ (filterNodesForSelector lib pool (.object outboundConfig.Filters)).map
                  (fun node => node.Tag)))
            (selectorDefaultTag lib outboundConfig.PreferredDefault
              (filterNodesForSelector lib pool (.object outboundConfig.Filters))))
          (lit ",") ++ lit "\x7d") ++ lit ",")]
    ∧ (lit "\"outbounds\":" ++ lib.jsonMarshal (.strs (dedupKeepFirst outboundConfig.AddOutbounds)))
        ∈ selectorParts lib outboundConfig (dedupKeepFirst outboundConfig.AddOutbounds) []
    ∧ ∀ tag, tag ∈ dedupKeepFirst outboundConfig.AddOutbounds
        ↔ tag ∈ outboundConfig.AddOutbounds := by
  have hne : ∀ nodes : List ParsedNode, selectorOutbounds outboundConfig.AddOutbounds
      (filterNodesForSelector lib nodes (.object outboundConfig.Filters)) ≠ [] := by
    intro nodes h
    rw [selectorOutbounds_eq] at h
    have := (dedupKeepFirst_eq_nil _).1 h
    exact hadd (List.append_eq_nil.mp this).1
  have hempty : selectorDefaultTag lib outboundConfig.PreferredDefault [] = [] := by
    simp [selectorDefaultTag]
  refine ⟨?_, ?_, ?_, ?_, outboundsPart_mem_selectorParts lib _ _ _,
    fun tag => mem_dedupKeepFirst tag _⟩
  · rw [GenerateOutboundsFromParserConfig_eq] at h
    split at h
    · exact absurd h (by simp)
    · injection h with h
      rw [← h, localSelectorFragments_zipWith]
  · intro i hi
    have hlt : i < parserConfig.ParserConfig.Proxies.length := by
      have := (List.getElem?_eq_some_iff.mp hi).1
      rwa [sourceLoads_length] at this
    rw [List.getElem?_zipWith, hi, List.getElem?_eq_getElem hlt]
    rfl
  · have h := GenerateSelector_eq lib [] outboundConfig
    rw [if_neg (hne [])] at h
    rw [h, filterNodesForSelector_nil, selectorOutbounds_eq, hempty]
    simp
  · have h := selectorFragments_single lib pool outboundConfig (hne pool)
    rw [h, selectorOutbounds_eq]

set_option maxRecDepth 1000000 in
/-- Witness for C39: a first source without nodes whose local selector names
`direct` leaves no trace in the run, the global selector with the same
configuration is emitted, and so is the selector over the empty pool. -/
theorem local_selector_needs_nodes_witness :
    (sampleSelector [lit "direct"] [] []).AddOutbounds ≠ []
    ∧ (GenerateOutboundsFromParserConfig sampleLib
        (sampleConfig
          [sampleSource [] [sampleSelector [lit "direct"] [] []],
           sampleSource [lit "vless://b"] []]
          [sampleSelector [lit "direct"] [] []])
        TagCounts.empty (LoadNodesFromSource sampleDecoder)).1
      = .ok
        { OutboundsJSON :=
            [lit "\t// b\n\t\x7b\"tag\":\"b\",\"type\":\"vless\",\"server\":\"example.org\",\"server_port\":443,\"uuid\":\"u\"\x7d,",
             lit "\t\x7b\"tag\":\"proxy\",\"type\":\"selector\",\"outbounds\":[\"direct\",\"b\"]\x7d,"]
          NodesCount := 1
          LocalSelectorsCount := 0
          GlobalSelectorsCount := 1 }
    ∧ GenerateSelector sampleLib [] (sampleSelector [lit "direct"] [] [])
      = .ok (lit "\t\x7b\"tag\":\"proxy\",\"type\":\"selector\",\"outbounds\":[\"direct\"]\x7d,") :=
  have hrun : (GenerateOutboundsFromParserConfig sampleLib
        (sampleConfig
          [sampleSource [] [sampleSelector [lit "direct"] [] []],
           sampleSource [lit "vless://b"] []]
          [sampleSelector [lit "direct"] [] []])
        TagCounts.empty (LoadNodesFromSource sampleDecoder)).1
      = .ok
        { OutboundsJSON :=
            [lit "\t// b\n\t\x7b\"tag\":\"b\",\"type\":\"vless\",\"server\":\"example.org\",\"server_port\":443,\"uuid\":\"u\"\x7d,",
             lit "\t\x7b\"tag\":\"proxy\",\"type\":\"selector\",\"outbounds\":[\"direct\",\"b\"]\x7d,"]
          NodesCount := 1
          LocalSelectorsCount := 0
          GlobalSelectorsCount := 1 } := by decide
  ⟨by decide, hrun,
    (local_selector_needs_nodes sampleLib _ TagCounts.empty (LoadNodesFromSource sampleDecoder) _
      (sampleSelector [lit "direct"] [] []) [] hrun (by decide)).2.2.1.trans (by decide)⟩
theorem convertFilterToStringMap_no_strings (filter : DynMap)
    (h : ∀ kv ∈ filter, ∀ str : GoString, kv.2 ≠ .str str) :
    convertFilterToStringMap filter = [] := by
  simp only [convertFilterToStringMap, List.filterMap_eq_nil_iff]
  intro kv hkv
  have hkv2 := h kv hkv
  cases hv : kv.2 with
  | str s => exact absurd hv (hkv2 s)
  | _ => rfl

/-- C40. For every OutboundConfig whose `preferredDefault` is a non-empty
object that holds only non-string values, and every pool whose filtered nodes
start with a node of non-empty tag: the string map made of `preferredDefault`
is empty, every node satisfies it, and `GenerateSelector` emits, right after
`tag` and `type`, a `"default"` field whose value is the tag of the first
filtered node. -/
theorem GenerateSelector_default_non_string (lib : GoLib) (allNodes : List ParsedNode)
    (outboundConfig : OutboundConfig) (first : ParsedNode) (rest : List ParsedNode)
    (hpd : outboundConfig.PreferredDefault ≠ [])
    (hvalues : ∀ kv ∈ outboundConfig.PreferredDefault, ∀ str : GoString, kv.2 ≠ .str str)
    (hfiltered : filterNodesForSelector lib allNodes (.object outboundConfig.Filters)
      = first :: rest)
    (htag : first.Tag ≠ []) :
    convertFilterToStringMap outboundConfig.PreferredDefault = []
    ∧ (∀ node : ParsedNode,
        matchesFilter lib node (convertFilterToStringMap outboundConfig.PreferredDefault) = true)
    ∧ GenerateSelector lib allNodes outboundConfig
      = .ok (selectorCommentLine outboundConfig ++ (lit "\t" ++ (lit "\x7b" ++ Join
          (selectorParts lib outboundConfig
            (selectorOutbounds outboundConfig.AddOutbounds (first :: rest)) first.Tag)
          (lit ",") ++ lit "\x7d") ++ lit ","))
    ∧ (selectorParts lib outboundConfig
          (selectorOutbounds outboundConfig.AddOutbounds (first :: rest)) first.Tag).take 4
      = [lit "\"tag\":" ++ Quote lib outboundConfig.Tag,
         lit "\"type\":" ++ Quote lib outboundConfig.Type_,
         lit "\"default\":" ++ Quote lib first.Tag,
         lit "\"outbounds\":" ++ lib.jsonMarshal
           (.strs (selectorOutbounds outboundConfig.AddOutbounds (first :: rest)))] := by
  have hmap := convertFilterToStringMap_no_strings outboundConfig.PreferredDefault hvalues
  have hall : ∀ node : ParsedNode,
      matchesFilter lib node (convertFilterToStringMap outboundConfig.PreferredDefault) = true := by
    intro node
    rw [hmap]
    rfl
  refine ⟨hmap, hall, ?_, selectorParts_take_default lib _ _ _ htag⟩
  have hdef := selectorDefaultTag_first lib outboundConfig.PreferredDefault [] rest first hpd
    (by simp) (hall first)
  rw [List.nil_append] at hdef
  rw [GenerateSelector_eq]
  simp only [hfiltered, hdef]
  have hne : selectorOutbounds outboundConfig.AddOutbounds (first :: rest) ≠ [] := by
    rw [selectorOutbounds_eq]
    intro h
    have := (dedupKeepFirst_eq_nil _).1 h
    simp at this
  rw [if_neg hne]

set_option maxRecDepth 1000000 in
/-- Witness for C40: over nodes tagged `b` and `c`, the preferred default
`tag = true` (a boolean, not a string) selects `b`, the first node. -/
theorem GenerateSelector_default_non_string_witness :
    GenerateSelector sampleLib [sampleNode (lit "b"), sampleNode (lit "c")]
        (sampleSelector [lit "a"] [] [(lit "tag", .bool true)])
      = .ok (lit "\t\x7b\"tag\":\"proxy\",\"type\":\"selector\",\"default\":\"b\",\"outbounds\":[\"a\",\"b\",\"c\"]\x7d,") :=
  (GenerateSelector_default_non_string sampleLib [sampleNode (lit "b"), sampleNode (lit "c")]
    (sampleSelector [lit "a"] [] [(lit "tag", .bool true)]) (sampleNode (lit "b"))
    [sampleNode (lit "c")] (by simp [sampleSelector])
    (by
      intro kv hkv str
      simp only [sampleSelector, List.mem_singleton] at hkv
      rw [hkv]
      exact fun h => Value.noConfusion h)
    rfl (by decide)).2.2.1.trans (by decide)

/-- The tag `selectorDefaultTag` determines, when not empty, is the tag of a
filtered node. -/
theorem selectorDefaultTag_mem (lib : GoLib) (preferredDefault : DynMap)
    (filteredNodes : List ParsedNode)
    (h : selectorDefaultTag lib preferredDefault filteredNodes ≠ []) :
    ∃ node ∈ filteredNodes, node.Tag = selectorDefaultTag lib preferredDefault filteredNodes := by
  unfold selectorDefaultTag at h ⊢
  split
  · rename_i hlen
    rw [if_pos hlen] at h
    simp only at h ⊢
    cases hfind : filteredNodes.find?
        (fun node => matchesFilter lib node (convertFilterToStringMap preferredDefault)) with
    | none => rw [hfind] at h; exact absurd rfl h
    | some node => exact ⟨node, List.mem_of_find?_eq_some hfind, rfl⟩
  · rename_i hlen
    rw [if_neg hlen] at h
    exact absurd rfl h

/-- C37 (as amended). For every node pool and every OutboundConfig whose
options hold no key `default`: whenever the object emitted by
`GenerateSelector` has a `"default"` field, that field is the one determined
by `preferredDefault`, it stands right after `tag` and `type`, and its value
is one of the tags of the emitted `outbounds` list. -/
theorem GenerateSelector_default_member (lib : GoLib) (allNodes : List ParsedNode)
    (outboundConfig : OutboundConfig)
    (hopt : ∀ kv ∈ outboundConfig.Options, kv.1 ≠ lit "default")
    (hfield : hasField (selectorParts lib outboundConfig
        (selectorOutbounds outboundConfig.AddOutbounds
          (filterNodesForSelector lib allNodes (.object outboundConfig.Filters)))
        (selectorDefaultTag lib outboundConfig.PreferredDefault
          (filterNodesForSelector lib allNodes (.object outboundConfig.Filters))))
      (lit "default") = true) :
    GenerateSelector lib allNodes outboundConfig
      = .ok (selectorCommentLine outboundConfig ++ (lit "\t" ++ (lit "\x7b" ++ Join
          (selectorParts lib outboundConfig
            (selectorOutbounds outboundConfig.AddOutbounds
              (filterNodesForSelector lib allNodes (.object outboundConfig.Filters)))
            (selectorDefaultTag lib outboundConfig.PreferredDefault
              (filterNodesForSelector lib allNodes (.object outboundConfig.Filters))))
          (lit ",") ++ lit "\x7d") ++ lit ","))
    ∧ (selectorParts lib outboundConfig
          (selectorOutbounds outboundConfig.AddOutbounds
            (filterNodesForSelector lib allNodes (.object outboundConfig.Filters)))
          (selectorDefaultTag lib outboundConfig.PreferredDefault
            (filterNodesForSelector lib allNodes (.object outboundConfig.Filters)))).take 4
      = [lit "\"tag\":" ++ Quote lib outboundConfig.Tag,
         lit "\"type\":" ++ Quote lib outboundConfig.Type_,
         lit "\"default\":" ++ Quote lib
           (selectorDefaultTag lib outboundConfig.PreferredDefault
             (filterNodesForSelector lib allNodes (.object outboundConfig.Filters))),
         lit "\"outbounds\":" ++ lib.jsonMarshal
           (.strs (selectorOutbounds outboundConfig.AddOutbounds
             (filterNodesForSelector lib allNodes (.object outboundConfig.Filters))))]
    ∧ selectorDefaultTag lib outboundConfig.PreferredDefault
          (filterNodesForSelector lib allNodes (.object outboundConfig.Filters))
        ∈ selectorOutbounds outboundConfig.AddOutbounds
            (filterNodesForSelector lib allNodes (.object outboundConfig.Filters)) := by
  have hd : selectorDefaultTag lib outboundConfig.PreferredDefault
      (filterNodesForSelector lib allNodes (.object outboundConfig.Filters)) ≠ [] := by
    intro h0
    rw [h0, selectorParts_no_default lib outboundConfig _ hopt] at hfield
    exact absurd hfield (by simp)
  obtain ⟨node, hnode, htag⟩ := selectorDefaultTag_mem lib _ _ hd
  have hmem : selectorDefaultTag lib outboundConfig.PreferredDefault
        (filterNodesForSelector lib allNodes (.object outboundConfig.Filters))
      ∈ selectorOutbounds outboundConfig.AddOutbounds
          (filterNodesForSelector lib allNodes (.object outboundConfig.Filters)) :=
    (mem_selectorOutbounds _ _ _).mpr (Or.inr ⟨node, hnode, htag⟩)
  refine ⟨?_, selectorParts_take_default lib _ _ _ hd, hmem⟩
  rw [GenerateSelector_eq, if_neg (List.ne_nil_of_mem hmem)]

set_option maxRecDepth 1000000 in
/-- Witness for C37: over nodes tagged `b` and `c`, the preferred default
`tag = c` gives the default `c`, a member of the emitted list. -/
theorem GenerateSelector_default_member_witness :
    GenerateSelector sampleLib [sampleNode (lit "b"), sampleNode (lit "c")]
        (sampleSelector [lit "a"] [] [(lit "tag", .str (lit "c"))])
      = .ok (lit "\t\x7b\"tag\":\"proxy\",\"type\":\"selector\",\"default\":\"c\",\"outbounds\":[\"a\",\"b\",\"c\"]\x7d,")
    ∧ lit "c" ∈ [lit "a", lit "b", lit "c"] :=
  ⟨(GenerateSelector_default_member sampleLib [sampleNode (lit "b"), sampleNode (lit "c")]
      (sampleSelector [lit "a"] [] [(lit "tag", .str (lit "c"))])
      (by simp [sampleSelector]) (by decide)).1.trans (by decide),
   (GenerateSelector_default_member sampleLib [sampleNode (lit "b"), sampleNode (lit "c")]
      (sampleSelector [lit "a"] [] [(lit "tag", .str (lit "c"))])
      (by simp [sampleSelector]) (by decide)).2.2⟩

set_option maxRecDepth 1000000 in
/-- C37 (as stated, refuted). A selector whose options hold the key `default`
is emitted with a `"default"` field that carries the value of the option,
here `zzz`, which is not one of the tags of the emitted `outbounds` list,
`direct` and `a`. -/
theorem GenerateSelector_default_not_member :
    GenerateSelector sampleLib [sampleNode (lit "a")]
        (sampleSelector [lit "direct"] [(lit "default", .str (lit "zzz"))] [])
      = .ok (lit "\t\x7b\"tag\":\"proxy\",\"type\":\"selector\",\"outbounds\":[\"direct\",\"a\"],\"default\":\"zzz\"\x7d,")
    ∧ selectorOutbounds [lit "direct"]
        (filterNodesForSelector sampleLib [sampleNode (lit "a")] (.object []))
      = [lit "direct", lit "a"]
    ∧ lit "zzz" ∉ selectorOutbounds [lit "direct"]
        (filterNodesForSelector sampleLib [sampleNode (lit "a")] (.object []))
    ∧ hasField (selectorParts sampleLib
          (sampleSelector [lit "direct"] [(lit "default", .str (lit "zzz"))] [])
          [lit "direct", lit "a"] [])
        (lit "default") = true := by
  refine ⟨by decide, by decide, by decide, by decide⟩
/-! ### Failures of the fetch and of the decoder -/

theorem failingRemoved_filterMap (decode : GoString → Option ParsedNode) :
    ∀ (all kept : List GoString), failingRemoved decode all kept = true →
      kept.filterMap decode = all.filterMap decode := by
  intro all
  induction all with
  | nil =>
    intro kept h
    cases kept with
    | nil => rfl
    | cons next kept => simp [failingRemoved] at h
  | cons candidate all ih =>
    intro kept h
    cases kept with
    | nil =>
      simp only [failingRemoved, Bool.and_eq_true, Option.isNone_iff_eq_none] at h
      rw [List.filterMap_cons, h.1, ← ih [] h.2]
    | cons next kept =>
      simp only [failingRemoved, Bool.or_eq_true, Bool.and_eq_true, decide_eq_true_eq,
        Option.isNone_iff_eq_none] at h
      rcases h with ⟨heq, h⟩ | ⟨hnone, h⟩
      · subst heq
        simp only [List.filterMap_cons, ih kept h]
      · rw [List.filterMap_cons (a := candidate), hnone, ← ih _ h]

theorem numberNodes_congr (proxySource proxySource2 : ProxySource)
    (hfront : proxySource2.TagPrefix = proxySource.TagPrefix)
    (hback : proxySource2.TagPostfix = proxySource.TagPostfix)
    (hmask : proxySource2.TagMask = proxySource.TagMask) :
    ∀ (nodes : List ParsedNode) (k : Nat),
      numberNodes proxySource2 k nodes = numberNodes proxySource k nodes := by
  intro nodes
  induction nodes with
  | nil => intro k; rfl
  | cons node rest ih =>
    intro k
    simp only [numberNodes, templatedNode, hfront, hback, hmask, ih]

theorem decodeCandidate_congr (dec dec2 : Decoder) (proxySource proxySource2 : ProxySource)
    (hparse : dec2.ParseNode = dec.ParseNode) (hskip : proxySource2.Skip = proxySource.Skip) :
    decodeCandidate dec2 proxySource2 = decodeCandidate dec proxySource := by
  funext candidate
  simp only [decodeCandidate, hparse, hskip]

theorem connections_without_failing (decode : GoString → Option ParsedNode)
    (isCandidate : GoString → Bool) :
    ∀ connections : List GoString,
      ((((connections.filter (fun connection => (decode (TrimSpace connection)).isSome)).map
          TrimSpace).filter isCandidate).filterMap decode)
        = (((connections.map TrimSpace).filter isCandidate).filterMap decode) := by
  intro connections
  induction connections with
  | nil => rfl
  | cons connection rest ih =>
    cases hq : isCandidate (TrimSpace connection) <;>
      cases hd : decode (TrimSpace connection) <;>
        simp [List.filter_cons, hd, hq, ih]

theorem decodedNodes_without_failing (dec : Decoder) (proxySource : ProxySource) :
    decodedNodes dec
        { proxySource with
          Connections := proxySource.Connections.filter (fun connection =>
            (decodeCandidate dec proxySource (TrimSpace connection)).isSome) }
      = decodedNodes dec proxySource := by
  have hdc : decodeCandidate dec
        { proxySource with
          Connections := proxySource.Connections.filter (fun connection =>
            (decodeCandidate dec proxySource (TrimSpace connection)).isSome) }
      = decodeCandidate dec proxySource := rfl
  have hsrc : sourceCandidates dec
        { proxySource with
          Connections := proxySource.Connections.filter (fun connection =>
            (decodeCandidate dec proxySource (TrimSpace connection)).isSome) }
      = sourceCandidates dec proxySource := rfl
  have hnum := numberNodes_congr proxySource
    { proxySource with
      Connections := proxySource.Connections.filter (fun connection =>
        (decodeCandidate dec proxySource (TrimSpace connection)).isSome) } rfl rfl rfl
  rw [decodedNodes_eq, decodedNodes_eq, hnum, hdc]
  simp only [candidates, connectionCandidates, List.filterMap_append, hsrc,
    connections_without_failing (decodeCandidate dec proxySource)
      (fun connection => connection ≠ [] ∧ dec.IsDirectLink connection)
      proxySource.Connections]

/-- C36. `LoadNodesFromSource` never returns an error, and a candidate (a
non-blank line of the fetched content, the legacy link of `Source`, or a
connection that is a direct link) that fails to decode or decodes to no node
leaves no trace: a source and decoder with the same decoding, skip rules and
tag template whose candidates are those of the given ones with failing
candidates removed give the same nodes and the same registry; so does the
same source with the connections removed that do not decode to a node. -/
theorem LoadNodesFromSource_skips_failures (dec dec2 : Decoder)
    (proxySource proxySource2 : ProxySource) (tagCounts : TagCounts)
    (subscriptionIndex totalSubscriptions subscriptionIndex2 totalSubscriptions2 : Int)
    (hparse : dec2.ParseNode = dec.ParseNode)
    (hskip : proxySource2.Skip = proxySource.Skip)
    (hfront : proxySource2.TagPrefix = proxySource.TagPrefix)
    (hback : proxySource2.TagPostfix = proxySource.TagPostfix)
    (hmask : proxySource2.TagMask = proxySource.TagMask)
    (hremoved : failingRemoved (decodeCandidate dec proxySource) (candidates dec proxySource)
      (candidates dec2 proxySource2) = true) :
    (∃ nodes : List ParsedNode,
      (LoadNodesFromSource dec proxySource tagCounts subscriptionIndex totalSubscriptions).1
        = .ok nodes)
    ∧ LoadNodesFromSource dec2 proxySource2 tagCounts subscriptionIndex2 totalSubscriptions2
      = LoadNodesFromSource dec proxySource tagCounts subscriptionIndex totalSubscriptions
    ∧ LoadNodesFromSource dec
        { proxySource with
          Connections := proxySource.Connections.filter (fun connection =>
            (decodeCandidate dec proxySource (TrimSpace connection)).isSome) }
        tagCounts subscriptionIndex totalSubscriptions
      = LoadNodesFromSource dec proxySource tagCounts subscriptionIndex totalSubscriptions := by
  refine ⟨⟨_, congrArg Prod.fst (LoadNodesFromSource_eq dec proxySource tagCounts
    subscriptionIndex totalSubscriptions)⟩, ?_, ?_⟩
  rotate_left
  · rw [LoadNodesFromSource_eq, LoadNodesFromSource_eq, decodedNodes_without_failing]
  have hdec : decodedNodes dec2 proxySource2 = decodedNodes dec proxySource := by
    rw [decodedNodes_eq, decodedNodes_eq,
      decodeCandidate_congr dec dec2 proxySource proxySource2 hparse hskip,
      failingRemoved_filterMap _ _ _ hremoved,
      numberNodes_congr proxySource proxySource2 hfront hback hmask]
  rw [LoadNodesFromSource_eq, LoadNodesFromSource_eq, hdec]

set_option maxRecDepth 1000000 in
/-- Witness for C36: a subscription of four lines and three connections, of
which one line and one connection fail to decode and one line decodes to no
node, loads the same nodes as the subscription and the connections without
them. -/
theorem LoadNodesFromSource_skips_failures_witness :
    candidates (fetchingDecoder (lit "vless://a\nvless://bad\n\nvless://skip\r\nvless://b"))
        { sampleSource [lit "vless://c", lit " vless://bad", lit "vless://d"] [] with
          Source := lit "https://example.org/sub" }
      = [lit "vless://a", lit "vless://bad", lit "vless://skip", lit "vless://b",
         lit "vless://c", lit "vless://bad", lit "vless://d"]
    ∧ candidates (fetchingDecoder (lit "vless://a\nvless://b"))
        { sampleSource [lit "vless://c", lit "vless://d"] [] with
          Source := lit "https://example.org/sub" }
      = [lit "vless://a", lit "vless://b", lit "vless://c", lit "vless://d"]
    ∧ LoadNodesFromSource (fetchingDecoder (lit "vless://a\nvless://b"))
        { sampleSource [lit "vless://c", lit "vless://d"] [] with
          Source := lit "https://example.org/sub" } TagCounts.empty 0 1
      = LoadNodesFromSource
        (fetchingDecoder (lit "vless://a\nvless://bad\n\nvless://skip\r\nvless://b"))
        { sampleSource [lit "vless://c", lit " vless://bad", lit "vless://d"] [] with
          Source := lit "https://example.org/sub" } TagCounts.empty 0 1 :=
  ⟨by decide, by decide,
    (LoadNodesFromSource_skips_failures
      (fetchingDecoder (lit "vless://a\nvless://bad\n\nvless://skip\r\nvless://b"))
      (fetchingDecoder (lit "vless://a\nvless://b"))
      { sampleSource [lit "vless://c", lit " vless://bad", lit "vless://d"] [] with
        Source := lit "https://example.org/sub" }
      { sampleSource [lit "vless://c", lit "vless://d"] [] with
        Source := lit "https://example.org/sub" }
      TagCounts.empty 0 1 0 1 rfl rfl rfl rfl rfl (by decide)).2.1⟩
theorem sourceCandidates_fetch_failure (dec : Decoder) (proxySource : ProxySource)
    (hfetch : (∃ err, dec.FetchSubscription proxySource.Source = .error err)
      ∨ dec.FetchSubscription proxySource.Source = .ok [])
    (hurl : IsSubscriptionURL proxySource.Source = true) :
    sourceCandidates dec proxySource = [] := by
  simp only [sourceCandidates, hurl, if_true]
  rcases hfetch with ⟨err, herr⟩ | hempty
  · rw [herr]
    split <;> rfl
  · rw [hempty]
    split <;> rfl

theorem decodedNodes_fetch_failure (dec : Decoder) (proxySource : ProxySource)
    (hfetch : (∃ err, dec.FetchSubscription proxySource.Source = .error err)
      ∨ dec.FetchSubscription proxySource.Source = .ok [])
    (hurl : IsSubscriptionURL proxySource.Source = true) :
    decodedNodes dec proxySource = decodedNodes dec { proxySource with Source := [] } := by
  have hdc : decodeCandidate dec { proxySource with Source := [] }
      = decodeCandidate dec proxySource := rfl
  have hconn : connectionCandidates dec { proxySource with Source := [] }
      = connectionCandidates dec proxySource := rfl
  have hnone : sourceCandidates dec { proxySource with Source := [] } = [] := by
    simp [sourceCandidates]
  have hnum := numberNodes_congr proxySource { proxySource with Source := [] } rfl rfl rfl
  rw [decodedNodes_eq, decodedNodes_eq, hnum, hdc]
  simp only [candidates, hconn, hnone, sourceCandidates_fetch_failure dec proxySource hfetch hurl]

/-- C35 (as amended). When `Source` is a subscription URL whose fetch fails or
returns empty content, the subscription contributes no node:
`LoadNodesFromSource` returns no error, and returns the nodes and the registry
it returns for the same source without the `Source` field, that is, what the
connections of the source decode to; for a source without connections this is
the empty list with the registry unchanged, so that the sources loaded after
it are loaded as if it had not been there. -/
theorem LoadNodesFromSource_fetch_failure (dec : Decoder) (proxySource : ProxySource)
    (tagCounts : TagCounts) (subscriptionIndex totalSubscriptions : Int)
    (hurl : IsSubscriptionURL proxySource.Source = true)
    (hfetch : (∃ err, dec.FetchSubscription proxySource.Source = .error err)
      ∨ dec.FetchSubscription proxySource.Source = .ok []) :
    (∃ nodes : List ParsedNode,
      (LoadNodesFromSource dec proxySource tagCounts subscriptionIndex totalSubscriptions).1
        = .ok nodes)
    ∧ LoadNodesFromSource dec proxySource tagCounts subscriptionIndex totalSubscriptions
      = LoadNodesFromSource dec { proxySource with Source := [] } tagCounts subscriptionIndex
          totalSubscriptions
    ∧ (proxySource.Connections = [] →
        LoadNodesFromSource dec proxySource tagCounts subscriptionIndex totalSubscriptions
          = (.ok [], tagCounts))
    ∧ (proxySource.Connections = [] →
        ∀ (sources : List ProxySource) (i : Nat),
          sourceLoads (LoadNodesFromSource dec) totalSubscriptions (proxySource :: sources) i
              tagCounts
            = [] :: sourceLoads (LoadNodesFromSource dec) totalSubscriptions sources (i + 1)
                tagCounts) := by
  have hsame : LoadNodesFromSource dec proxySource tagCounts subscriptionIndex totalSubscriptions
      = LoadNodesFromSource dec { proxySource with Source := [] } tagCounts subscriptionIndex
          totalSubscriptions := by
    rw [LoadNodesFromSource_eq, LoadNodesFromSource_eq,
      decodedNodes_fetch_failure dec proxySource hfetch hurl]
  have hnone : ∀ i t : Int, proxySource.Connections = [] →
      LoadNodesFromSource dec proxySource tagCounts i t = (.ok [], tagCounts) := by
    intro i t hconn
    have hcand : candidates dec proxySource = [] := by
      simp [candidates, connectionCandidates, hconn,
        sourceCandidates_fetch_failure dec proxySource hfetch hurl]
    rw [LoadNodesFromSource_eq, decodedNodes_eq, hcand]
    rfl
  refine ⟨⟨_, congrArg Prod.fst (LoadNodesFromSource_eq dec proxySource tagCounts
    subscriptionIndex totalSubscriptions)⟩, hsame, hnone _ _, ?_⟩
  intro hconn sources i
  simp only [sourceLoads, hnone _ _ hconn]

/-- Witness for C35: a source made of a subscription URL that cannot be
fetched, without connections. -/
theorem LoadNodesFromSource_fetch_failure_witness :
    LoadNodesFromSource sampleDecoder
        { sampleSource [] [] with Source := lit "https://example.org/sub" } TagCounts.empty 0 1
      = (.ok [], TagCounts.empty) :=
  (LoadNodesFromSource_fetch_failure sampleDecoder
    { sampleSource [] [] with Source := lit "https://example.org/sub" } TagCounts.empty 0 1
    (by decide) (Or.inl ⟨lit "offline", rfl⟩)).2.2.1 rfl

set_option maxRecDepth 1000000 in
/-- C35 (as stated, refuted). A source whose subscription URL cannot be
fetched, or is fetched with empty content, and that lists the connection
`vless://a` does not return an empty list: the loop over the connections
runs whatever became of the subscription, and the node `a` is returned. -/
theorem LoadNodesFromSource_fetch_failure_connections :
    IsSubscriptionURL (lit "https://example.org/sub") = true
    ∧ sampleDecoder.FetchSubscription (lit "https://example.org/sub") = .error (lit "offline")
    ∧ (LoadNodesFromSource sampleDecoder
        { sampleSource [lit "vless://a"] [] with Source := lit "https://example.org/sub" }
        TagCounts.empty 0 1).1
      = .ok [sampleNode (lit "a")]
    ∧ (fetchingDecoder []).FetchSubscription (lit "https://example.org/sub") = .ok []
    ∧ (LoadNodesFromSource (fetchingDecoder [])
        { sampleSource [lit "vless://a"] [] with Source := lit "https://example.org/sub" }
        TagCounts.empty 0 1).1
      = .ok [sampleNode (lit "a")] := by
  refine ⟨by decide, rfl, ?_, rfl, ?_⟩
  · rfl
  · rfl
/-! ### Normalisation of the parser configuration -/

/-- C34. For every (non-nil) ParserConfig, `NormalizeParserConfig(cfg, false)`
leaves a configuration whose version is the current version 4, whose `reload`
is `4h` if it was empty and is unchanged otherwise, and whose `last_updated`,
`proxies` and `outbounds` are unchanged; a second call, at whatever time,
changes nothing. -/
theorem NormalizeParserConfig_spec (parserConfig : ParserConfig) (now : GoString) :
    ∃ normalized : ParserConfig,
      NormalizeParserConfig (some parserConfig) false now = some normalized
      ∧ normalized.ParserConfig.Version = 4
      ∧ ParserConfigVersion = 4
      ∧ normalized.ParserConfig.Parser.Reload
        = (if parserConfig.ParserConfig.Parser.Reload = [] then lit "4h"
          else parserConfig.ParserConfig.Parser.Reload)
      ∧ normalized.ParserConfig.Parser.LastUpdated = parserConfig.ParserConfig.Parser.LastUpdated
      ∧ normalized.ParserConfig.Proxies = parserConfig.ParserConfig.Proxies
      ∧ normalized.ParserConfig.Outbounds = parserConfig.ParserConfig.Outbounds
      ∧ ∀ now2 : GoString, NormalizeParserConfig (some normalized) false now2 = some normalized := by
  have h4 : lit "4h" ≠ [] := by decide
  by_cases hreload : parserConfig.ParserConfig.Parser.Reload = []
  · refine ⟨_, rfl, ?_, rfl, ?_, ?_, ?_, ?_, ?_⟩
    · simp [hreload, ParserConfigVersion]
    · simp [hreload]
    · simp [hreload]
    · simp [hreload]
    · simp [hreload]
    · intro now2
      simp [NormalizeParserConfig, hreload, h4]
  · refine ⟨_, rfl, ?_, rfl, ?_, ?_, ?_, ?_, ?_⟩
    · simp [hreload, ParserConfigVersion]
    · simp [hreload]
    · simp [hreload]
    · simp [hreload]
    · simp [hreload]
    · intro now2
      simp [NormalizeParserConfig, hreload]
/-! ### Block extractor -/

theorem matchLiteral_append {α : Type} (text : GoString) (next : GoString → Option α)
    (s : GoString) : matchLiteral text next (text ++ s) = next s := by
  have hpre : text.isPrefixOf (text ++ s) = true :=
    List.isPrefixOf_iff_prefix.mpr (List.prefix_append _ _)
  simp only [matchLiteral, hpre, if_true, List.drop_left]

theorem matchLiteral_some {α : Type} (text : GoString) (next : GoString → Option α)
    (input : GoString) (found : α) (h : matchLiteral text next input = some found) :
    ∃ s, input = text ++ s ∧ next s = some found := by
  unfold matchLiteral at h
  split at h
  · rename_i hpre
    obtain ⟨s, hs⟩ := List.isPrefixOf_iff_prefix.mp hpre
    refine ⟨s, hs.symm, ?_⟩
    rw [← hs, List.drop_left] at h
    exact h
  · exact absurd h (by simp)

theorem matchSpaces_cons {α : Type} (next : GoString → Option α) (b : UInt8)
    (input : GoString) :
    matchSpaces next (b :: input)
      = if isPerlSpace b then
          match matchSpaces next input with
          | some found => some found
          | none => next (b :: input)
        else next (b :: input) := rfl

theorem matchGroupLazy_cons {α : Type} (next : GoString → Option α) (b : UInt8)
    (input : GoString) :
    matchGroupLazy next (b :: input)
      = match next (b :: input) with
        | some found => some ([], found)
        | none => (matchGroupLazy next input).map (fun found => (b :: found.1, found.2)) := rfl

theorem matchSpaces_append {α : Type} (next : GoString → Option α) (ws s : GoString)
    (found : α) (hws : ws.all isPerlSpace = true) (h : matchSpaces next s = some found) :
    matchSpaces next (ws ++ s) = some found := by
  induction ws with
  | nil => exact h
  | cons b ws ih =>
    simp only [List.all_cons, Bool.and_eq_true] at hws
    rw [List.cons_append, matchSpaces_cons, if_pos hws.1, ih hws.2]

theorem matchSpaces_of_next {α : Type} (next : GoString → Option α) (s : GoString)
    (h : (next s).isSome = true) : (matchSpaces next s).isSome = true := by
  cases s with
  | nil => simpa [matchSpaces] using h
  | cons b s =>
    simp only [matchSpaces]
    split
    · split
      · rfl
      · exact h
    · exact h

theorem matchSpaces_isSome {α : Type} (next : GoString → Option α) (ws s : GoString)
    (hws : ws.all isPerlSpace = true) (h : (next s).isSome = true) :
    (matchSpaces next (ws ++ s)).isSome = true := by
  obtain ⟨found, hfound⟩ := Option.isSome_iff_exists.mp (matchSpaces_of_next next s h)
  rw [matchSpaces_append next ws s found hws hfound]
  rfl

theorem matchSpaces_some {α : Type} (next : GoString → Option α) :
    ∀ (input : GoString) (found : α), matchSpaces next input = some found →
      ∃ ws s, input = ws ++ s ∧ ws.all isPerlSpace = true ∧ next s = some found := by
  intro input
  induction input with
  | nil =>
    intro found h
    exact ⟨[], [], rfl, rfl, by simpa [matchSpaces] using h⟩
  | cons b input ih =>
    intro found h
    simp only [matchSpaces] at h
    split at h
    · rename_i hb
      split at h
      · rename_i found2 hfound2
        obtain ⟨ws, s, hin, hws, hnext⟩ := ih found2 hfound2
        injection h with h
        subst h
        exact ⟨b :: ws, s, by rw [hin]; rfl, by simp [hb, hws], hnext⟩
      · exact ⟨[], b :: input, rfl, rfl, h⟩
    · exact ⟨[], b :: input, rfl, rfl, h⟩

theorem matchGroupLazy_isSome {α : Type} (next : GoString → Option α) (inner s : GoString)
    (h : (next s).isSome = true) : (matchGroupLazy next (inner ++ s)).isSome = true := by
  induction inner with
  | nil =>
    cases s with
    | nil => simpa [matchGroupLazy] using h
    | cons b s =>
      obtain ⟨found, hfound⟩ := Option.isSome_iff_exists.mp h
      simp [matchGroupLazy, hfound]
  | cons b inner ih =>
    simp only [List.cons_append, matchGroupLazy]
    split
    · rfl
    · simpa using ih

theorem matchGroupLazy_some {α : Type} (next : GoString → Option α) :
    ∀ (input group : GoString) (found : α), matchGroupLazy next input = some (group, found) →
      ∃ s, input = group ++ s ∧ next s = some found := by
  intro input
  induction input with
  | nil =>
    intro group found h
    simp only [matchGroupLazy, Option.map_eq_some', Prod.mk.injEq] at h
    obtain ⟨a, ha, hg, hf⟩ := h
    subst hg hf
    exact ⟨[], rfl, ha⟩
  | cons b input ih =>
    intro group found h
    simp only [matchGroupLazy] at h
    split at h
    · rename_i found2 hfound2
      simp only [Option.some.injEq, Prod.mk.injEq] at h
      obtain ⟨hg, hf⟩ := h
      subst hg hf
      exact ⟨b :: input, rfl, hfound2⟩
    · simp only [Option.map_eq_some', Prod.mk.injEq] at h
      obtain ⟨a, ha, hg, hf⟩ := h
      obtain ⟨s, hin, hnext⟩ := ih a.1 a.2 ha
      subst hg hf
      exact ⟨s, by rw [hin]; rfl, hnext⟩

/-- The pattern matches at the start of every region. -/
theorem patternMatchAt_isSome (s ws1 ws2 inner post : GoString)
    (hregion : RegionAt s [] ws1 ws2 inner post) : (patternMatchAt s).isSome = true := by
  obtain ⟨hs, hws1, hws2⟩ := hregion
  rw [hs, List.nil_append, patternMatchAt, matchLiteral_append]
  apply matchSpaces_isSome _ ws1 _ hws1
  rw [matchLiteral_append]
  apply matchSpaces_isSome _ ws2 _ hws2
  rw [matchLiteral_append]
  apply matchGroupLazy_isSome
  rw [matchLiteral_append]
  rfl

theorem matchGroupLazy_free :
    ∀ (input group rest : GoString),
      matchGroupLazy (matchLiteral (lit "*/") some) input = some (group, rest) →
      ¬ (lit "*/" <:+: group) := by
  intro input
  induction input with
  | nil =>
    intro group rest h
    have hnil : matchGroupLazy (matchLiteral (lit "*/") (some : GoString → Option GoString)) []
        = none := by decide
    rw [hnil] at h
    exact absurd h (by simp)
  | cons b input ih =>
    intro group rest h
    rw [matchGroupLazy_cons] at h
    cases hnext : matchLiteral (lit "*/") (some : GoString → Option GoString) (b :: input) with
    | some found =>
      rw [hnext] at h
      simp only [Option.some.injEq, Prod.mk.injEq] at h
      rw [← h.1]
      intro hinfix
      have := List.eq_nil_of_infix_nil hinfix
      exact absurd this (by decide)
    | none =>
      rw [hnext] at h
      simp only [Option.map_eq_some', Prod.mk.injEq] at h
      obtain ⟨a, ha, hg, hr⟩ := h
      have hfree := ih a.1 a.2 ha
      obtain ⟨s, hin, _⟩ := matchGroupLazy_some _ _ _ _ ha
      rw [← hg]
      intro hinfix
      rcases List.infix_cons_iff.mp hinfix with hpre | hinf
      · have hpre2 : lit "*/" <+: b :: input := by
          rw [hin]
          exact hpre.trans (List.prefix_append (b :: a.1) s)
        have : (lit "*/").isPrefixOf (b :: input) = true := List.isPrefixOf_iff_prefix.mpr hpre2
        simp [matchLiteral, this] at hnext
      · exact hfree hinf

/-- Where the pattern matches, a region starts, and group 1 is its inner
text up to the first closing marker. -/
theorem patternMatchAt_decompose (s group rest : GoString)
    (h : patternMatchAt s = some (group, rest)) :
    ∃ ws1 ws2 : GoString, RegionAt s [] ws1 ws2 group rest ∧ ¬ (lit "*/" <:+: group) := by
  unfold patternMatchAt at h
  obtain ⟨s1, hs1, h1⟩ := matchLiteral_some _ _ _ _ h
  obtain ⟨ws1, s2, hs2, hws1, h2⟩ := matchSpaces_some _ _ _ h1
  obtain ⟨s3, hs3, h3⟩ := matchLiteral_some _ _ _ _ h2
  obtain ⟨ws2, s4, hs4, hws2, h4⟩ := matchSpaces_some _ _ _ h3
  obtain ⟨s5, hs5, h5⟩ := matchLiteral_some _ _ _ _ h4
  have hfree := matchGroupLazy_free _ _ _ h5
  obtain ⟨s6, hs6, h6⟩ := matchGroupLazy_some _ _ _ _ h5
  obtain ⟨s7, hs7, h7⟩ := matchLiteral_some _ _ _ _ h6
  simp only [Option.some.injEq] at h7
  refine ⟨ws1, ws2, ⟨?_, hws1, hws2⟩, hfree⟩
  rw [hs1, hs2, hs3, hs4, hs5, hs6, hs7, h7]
  rfl
theorem patternMatchAt_nil : patternMatchAt [] = none := by decide

theorem patternFindSubmatch_nil : patternFindSubmatch [] = [] := by decide

theorem patternFindSubmatch_some (data : GoString) (found : GoString × GoString)
    (h : patternMatchAt data = some found) :
    patternFindSubmatch data = [data.take (data.length - found.2.length), found.1] := by
  cases data with
  | nil => rw [patternMatchAt_nil] at h; exact absurd h (by simp)
  | cons b data => simp only [patternFindSubmatch, h]

theorem patternFindSubmatch_cons (b : UInt8) (data : GoString)
    (h : patternMatchAt (b :: data) = none) :
    patternFindSubmatch (b :: data) = patternFindSubmatch data := by
  simp only [patternFindSubmatch, h]

/-- A document that holds a region has a match. -/
theorem patternFindSubmatch_of_region (ws1 ws2 inner post : GoString) :
    ∀ pre data : GoString, RegionAt data pre ws1 ws2 inner post →
      (patternFindSubmatch data).length = 2 := by
  intro pre
  induction pre with
  | nil =>
    intro data hregion
    obtain ⟨found, hfound⟩ := Option.isSome_iff_exists.mp
      (patternMatchAt_isSome data ws1 ws2 inner post hregion)
    rw [patternFindSubmatch_some data found hfound]
    rfl
  | cons b pre ih =>
    intro data hregion
    obtain ⟨hdata, hws1, hws2⟩ := hregion
    rw [hdata, List.cons_append]
    cases hm : patternMatchAt (b :: (pre ++ (lit "/**" ++ (ws1 ++ (lit "@ParserConfig"
        ++ (ws2 ++ (lit "\n" ++ (inner ++ (lit "*/" ++ post))))))))) with
    | some found =>
      rw [patternFindSubmatch_some _ found hm]
      rfl
    | none =>
      rw [patternFindSubmatch_cons _ _ hm]
      exact ih _ ⟨rfl, hws1, hws2⟩

/-- A match lies on a region of the document. -/
theorem region_of_patternFindSubmatch :
    ∀ data : GoString, patternFindSubmatch data ≠ [] →
      ∃ pre ws1 ws2 inner post : GoString, RegionAt data pre ws1 ws2 inner post := by
  intro data
  induction data with
  | nil => intro h; exact absurd patternFindSubmatch_nil h
  | cons b data ih =>
    intro h
    cases hm : patternMatchAt (b :: data) with
    | some found =>
      obtain ⟨ws1, ws2, hregion, _⟩ := patternMatchAt_decompose _ found.1 found.2 hm
      exact ⟨[], ws1, ws2, found.1, found.2, hregion⟩
    | none =>
      rw [patternFindSubmatch_cons _ _ hm] at h
      obtain ⟨pre, ws1, ws2, inner, post, hdata, hws1, hws2⟩ := ih h
      exact ⟨b :: pre, ws1, ws2, inner, post, by rw [hdata]; rfl, hws1, hws2⟩

theorem patternFindSubmatch_length (data : GoString) :
    patternFindSubmatch data = [] ∨ (patternFindSubmatch data).length = 2 := by
  by_cases h : patternFindSubmatch data = []
  · exact Or.inl h
  · obtain ⟨pre, ws1, ws2, inner, post, hregion⟩ := region_of_patternFindSubmatch data h
    exact Or.inr (patternFindSubmatch_of_region ws1 ws2 inner post pre data hregion)

theorem ExtractParserConfigBlock_eq (data : GoString) :
    ExtractParserConfigBlock data
      = if patternFindSubmatch data = [] then
          .error (lit "@ParserConfig block not found in config.json")
        else .ok (TrimSpace ((patternFindSubmatch data).getD 1 [])) := by
  unfold ExtractParserConfigBlock
  rcases patternFindSubmatch_length data with h | h
  · simp [h]
  · have hne : patternFindSubmatch data ≠ [] := by
      intro h0
      rw [h0] at h
      exact absurd h (by decide)
    simp [h, hne]

/-- C32. `ExtractParserConfigBlock` returns the not-found error exactly when
the document holds no region made of the opening marker, optional white space,
the word `@ParserConfig`, optional white space ending in a line break, and a
later closing marker (white space being what the class `\s` of the pattern
accepts), and it returns a text exactly when the document holds one.  So a
document without a line break and a document without a closing marker yield
the error, as do an opening marker whose `@ParserConfig` is followed on its
line by the content, and one whose region is never closed. -/
theorem ExtractParserConfigBlock_error_iff (data : GoString) :
    (ExtractParserConfigBlock data = .error (lit "@ParserConfig block not found in config.json")
      ↔ ¬ ∃ pre ws1 ws2 inner post : GoString, RegionAt data pre ws1 ws2 inner post)
    ∧ ((∃ jsonContent, ExtractParserConfigBlock data = .ok jsonContent)
      ↔ ∃ pre ws1 ws2 inner post : GoString, RegionAt data pre ws1 ws2 inner post)
    ∧ (0x0A ∉ data →
        ExtractParserConfigBlock data
          = .error (lit "@ParserConfig block not found in config.json"))
    ∧ (¬ (lit "*/" <:+: data) →
        ExtractParserConfigBlock data
          = .error (lit "@ParserConfig block not found in config.json"))
    ∧ ExtractParserConfigBlock (lit "/** @ParserConfig \x7b\x7d\n*/")
      = .error (lit "@ParserConfig block not found in config.json")
    ∧ ExtractParserConfigBlock (lit "/** @ParserConfig\n\x7b\x7d\n")
      = .error (lit "@ParserConfig block not found in config.json") := by
  have hiff : patternFindSubmatch data = []
      ↔ ¬ ∃ pre ws1 ws2 inner post : GoString, RegionAt data pre ws1 ws2 inner post := by
    constructor
    · rintro h ⟨pre, ws1, ws2, inner, post, hregion⟩
      have := patternFindSubmatch_of_region ws1 ws2 inner post pre data hregion
      rw [h] at this
      exact absurd this (by decide)
    · intro h
      by_contra hne
      exact h (region_of_patternFindSubmatch data hne)
  have herr : ExtractParserConfigBlock data
        = .error (lit "@ParserConfig block not found in config.json")
      ↔ patternFindSubmatch data = [] := by
    rw [ExtractParserConfigBlock_eq]
    constructor
    · intro h
      by_contra hne
      rw [if_neg hne] at h
      exact absurd h (by simp)
    · intro h
      rw [if_pos h]
  refine ⟨herr.trans hiff, ?_, ?_, ?_, by decide, by decide⟩
  · rw [ExtractParserConfigBlock_eq]
    constructor
    · rintro ⟨jsonContent, h⟩
      by_contra hno
      rw [if_pos (hiff.mpr hno)] at h
      exact absurd h (by simp)
    · intro h
      have hne : patternFindSubmatch data ≠ [] := fun h0 => hiff.mp h0 h
      exact ⟨_, by rw [if_neg hne]⟩
  · intro hno
    apply (herr.trans hiff).mpr
    rintro ⟨pre, ws1, ws2, inner, post, hdata, _, _⟩
    apply hno
    have hlit : lit "\n" = [0x0A] := by decide
    rw [hdata, hlit]
    simp
  · intro hno
    apply (herr.trans hiff).mpr
    rintro ⟨pre, ws1, ws2, inner, post, hdata, _, _⟩
    apply hno
    refine ⟨pre ++ (lit "/**" ++ (ws1 ++ (lit "@ParserConfig" ++ (ws2 ++ (lit "\n" ++ inner))))),
      post, ?_⟩
    rw [hdata]
    simp only [List.append_assoc]

end Singbox
